import Mathlib

/-!
Shallow embedding of the simplex decision procedure in
`src/theory/arith/simplex.cpp` (Dutertre–de Moura style dual simplex core).
The engine functions (`AssertLower`, `AssertUpper`, `AssertEquality`,
`update`, `pivotAndUpdate`, `selectSmallestInconsistentVar`, `selectSlack`,
`betterConflict`, `selectInitialConflict`, `updateInconsistentVars`,
`privateUpdateInconsistentVars`, `checkBasicForConflict`,
`generateConflictAbove`, `generateConflictBelow`, `computeRowValue`,
`checkBasicVariable`, `checkTableau`) are translated from that source file.
The collaborator classes (`DeltaRational`, `ReducedRowVector`, `Tableau`,
`ArithPartialModel`, the two priority queues, the basic manager) are not part
of the provided sources, so they are modelled from the specification.
-/

namespace Simplex

/-- Modelled from the spec: `DeltaRational = q + k·δ` is a pair of exact
rationals with componentwise addition and lexicographic order. -/
abbrev DeltaRational := Rat × Rat

/-- Modelled from the spec: scalar multiplication of a `DeltaRational` by a
`Rational` acts on both components. -/
def mulRat (d : DeltaRational) (q : Rat) : DeltaRational := (d.1 * q, d.2 * q)

/-- Modelled from the spec: strict lexicographic order on `DeltaRational`. -/
def dlt (a b : DeltaRational) : Bool :=
  decide (a.1 < b.1) || (decide (a.1 = b.1) && decide (a.2 < b.2))

/-- Modelled from the spec: non-strict lexicographic order on `DeltaRational`. -/
def dle (a b : DeltaRational) : Bool :=
  decide (a.1 < b.1) || (decide (a.1 = b.1) && decide (a.2 ≤ b.2))

/-- The zero `DeltaRational` (`d_constants.d_ZERO_DELTA`). -/
def DZERO : DeltaRational := (0, 0)

/-- Term handles (`Node`): the engine only builds `AND` nodes from opaque
asserted-constraint atoms, tests for the null node, and counts children. -/
inductive Node where
  | null : Node
  | atom : Nat → Node
  | and : List Node → Node

/-- The `Node::isNull()`. -/
def Node.isNull : Node → Bool
  | .null => true
  | _ => false

/-- The `Node::getNumChildren()`: conjuncts of an `AND` node. -/
def Node.getNumChildren : Node → Nat
  | .and cs => cs.length
  | _ => 0

/-- Structural equality of nodes (CVC4 nodes are hash-consed, so the C++
pointer comparison `x != y` coincides with structural equality). -/
def Node.beq : Node → Node → Bool
  | .null, .null => true
  | .atom a, .atom b => a == b
  | .and [], .and [] => true
  | .and (x :: xs), .and (y :: ys) => Node.beq x y && Node.beq (.and xs) (.and ys)
  | _, _ => false

/-- The `betterConflict` from simplex.cpp: keep `x` unless it is null or has more
children than `y`. -/
def betterConflict (x y : Node) : Node :=
  if x.isNull then y
  else if y.isNull then x
  else if x.getNumChildren ≤ y.getNumChildren then x
  else y

/-- Modelled from the spec: a reduced row owned by `basic`, a sparse list of
(variable, nonzero coefficient) pairs in deterministic iteration order; the
key `basic` carries coefficient `-1`, representing `basic = Σ a_j · x_j`. -/
structure Row where
  basic : Nat
  entries : List (Nat × Rat)
deriving DecidableEq

/-- Modelled from the spec: the tableau is the list of rows of the current
basic variables, in iteration order. -/
abbrev Tableau := List Row

/-- The `std::numeric_limits<uint32_t>::max()`, the initial `numRows` in
`selectSlack`. -/
def maxUIntThirtyTwo : Nat := 4294967295

/-- The sentinel `ArithVar` denoting "no variable". -/
def ARITHVAR_SENTINEL : Nat := maxUIntThirtyTwo

/-- The `ReducedRowVector::lookup`: coefficient of `x` in the entry list
(0 when absent; the C++ code only calls it when present). -/
def lookupCoeff (es : List (Nat × Rat)) (x : Nat) : Rat :=
  match es.find? (fun e => e.1 = x) with
  | some e => e.2
  | none => 0

/-- The `ReducedRowVector::has`: membership of a variable in a row. -/
def hasVar (es : List (Nat × Rat)) (x : Nat) : Bool :=
  es.any (fun e => e.1 = x)

/-- The `Tableau::lookup`: the row whose basic variable is `x` (a junk empty row
when `x` is not basic; the C++ code asserts membership). -/
def Tableau.lookup (tab : Tableau) (x : Nat) : Row :=
  match tab.find? (fun r => r.basic = x) with
  | some r => r
  | none => ⟨x, []⟩

/-- The `Tableau::getRowCount`: number of rows mentioning `x`. -/
def Tableau.getRowCount (tab : Tableau) (x : Nat) : Nat :=
  (tab.filter (fun r => hasVar r.entries x)).length

/-- The `ArithVarDenseSet::isMember` of the basic manager: `x` owns a row. -/
def isBasicMember (tab : Tableau) (x : Nat) : Bool :=
  tab.any (fun r => r.basic = x)

/-- Modelled from the spec: linear combination `r + c·t` of two sparse rows,
dropping entries whose coefficient becomes zero.  Keys of `r` come first in
their original order, then the new keys of `t`. -/
def combineRows (r : List (Nat × Rat)) (c : Rat) (t : List (Nat × Rat)) :
    List (Nat × Rat) :=
  (r.map (fun e => (e.1, e.2 + c * lookupCoeff t e.1))).filter (fun e => e.2 ≠ 0) ++
    ((t.filter (fun e => ¬ hasVar r e.1)).map (fun e => (e.1, c * e.2))).filter
      (fun e => e.2 ≠ 0)

/-- Modelled from the spec: the row of `xi` solved for `xj` — scale by
`-1/a_ij`, so `xj` gets coefficient `-1` and becomes the owner. -/
def pivotRow (rowI : Row) (xj : Nat) : Row :=
  let aij := lookupCoeff rowI.entries xj
  ⟨xj, rowI.entries.map (fun e => (e.1, e.2 * (- aij⁻¹)))⟩

/-- Modelled from the spec: `Tableau::pivot(xi, xj)` — replace the row of
`xi` by that row solved for `xj`, and substitute the solved row into every
other row mentioning `xj`. -/
def Tableau.pivot (tab : Tableau) (xi xj : Nat) : Tableau :=
  let rowI := Tableau.lookup tab xi
  let newRow := pivotRow rowI xj
  tab.map (fun r =>
    if r.basic = xi then newRow
    else if hasVar r.entries xj then
      ⟨r.basic, combineRows r.entries (lookupCoeff r.entries xj) newRow.entries⟩
    else r)

/-- Modelled from the spec: per-variable assignment, optional bounds, and the
originating constraint of each bound. -/
structure PartialModel where
  assignment : Nat → DeltaRational
  lowerBound : Nat → Option DeltaRational
  upperBound : Nat → Option DeltaRational
  lowerConstraint : Nat → Node
  upperConstraint : Nat → Node

/-- Modelled from the spec: `belowLowerBound(x, v, strict)` — `v < l` (strict)
or `v ≤ l` (non-strict); false when no lower bound exists. -/
def PartialModel.belowLowerBound (pm : PartialModel) (x : Nat)
    (v : DeltaRational) (strict : Bool) : Bool :=
  match pm.lowerBound x with
  | none => false
  | some l => if strict then dlt v l else dle v l

/-- Modelled from the spec: `aboveUpperBound(x, v, strict)` — `v > u` (strict)
or `v ≥ u` (non-strict); false when no upper bound exists. -/
def PartialModel.aboveUpperBound (pm : PartialModel) (x : Nat)
    (v : DeltaRational) (strict : Bool) : Bool :=
  match pm.upperBound x with
  | none => false
  | some u => if strict then dlt u v else dle u v

/-- Modelled from the spec: `β(x) < u_x`, treating an absent bound as `+∞`. -/
def PartialModel.strictlyBelowUpperBound (pm : PartialModel) (x : Nat) : Bool :=
  match pm.upperBound x with
  | none => true
  | some u => dlt (pm.assignment x) u

/-- Modelled from the spec: `β(x) > l_x`, treating an absent bound as `-∞`. -/
def PartialModel.strictlyAboveLowerBound (pm : PartialModel) (x : Nat) : Bool :=
  match pm.lowerBound x with
  | none => true
  | some l => dlt l (pm.assignment x)

/-- Modelled from the spec: `l ≤ β(x) ≤ u` under whichever bounds exist. -/
def PartialModel.assignmentIsConsistent (pm : PartialModel) (x : Nat) : Bool :=
  (match pm.lowerBound x with
   | none => true
   | some l => dle l (pm.assignment x)) &&
  (match pm.upperBound x with
   | none => true
   | some u => dle (pm.assignment x) u)

/-- The `setAssignment`. -/
def PartialModel.setAssignment (pm : PartialModel) (x : Nat)
    (v : DeltaRational) : PartialModel :=
  { pm with assignment := fun y => if y = x then v else pm.assignment y }

/-- The `setLowerBound`. -/
def PartialModel.setLowerBound (pm : PartialModel) (x : Nat)
    (c : DeltaRational) : PartialModel :=
  { pm with lowerBound := fun y => if y = x then some c else pm.lowerBound y }

/-- The `setUpperBound`. -/
def PartialModel.setUpperBound (pm : PartialModel) (x : Nat)
    (c : DeltaRational) : PartialModel :=
  { pm with upperBound := fun y => if y = x then some c else pm.upperBound y }

/-- The `setLowerConstraint`. -/
def PartialModel.setLowerConstraint (pm : PartialModel) (x : Nat)
    (t : Node) : PartialModel :=
  { pm with lowerConstraint := fun y => if y = x then t else pm.lowerConstraint y }

/-- The `setUpperConstraint`. -/
def PartialModel.setUpperConstraint (pm : PartialModel) (x : Nat)
    (t : Node) : PartialModel :=
  { pm with upperConstraint := fun y => if y = x then t else pm.upperConstraint y }

/-- The statistics counters the engine increments. -/
structure Statistics where
  pivots : Nat
  updates : Nat
  assertUpperConflicts : Nat
  assertLowerConflicts : Nat
  updateConflicts : Nat
  earlyConflicts : Nat
  earlyConflictImprovements : Nat
  pivotsAfterConflict : Nat
  checksWithWastefulPivots : Nat

/-- The complete mutable state of `SimplexDecisionProcedure`, together with
the conflict sink `d_out` (the list of conflict nodes emitted so far). -/
structure SimplexState where
  tableau : Tableau
  pm : PartialModel
  activity : Nat → Nat
  griggioQueue : List (Nat × DeltaRational)
  possiblyInconsistent : List Nat
  pivotStage : Bool
  foundAConflict : Bool
  pivotsSinceConflict : Nat
  numVariables : Nat
  stats : Statistics
  sink : List Node

/-- Modelled from the spec: push onto the Griggio max-heap, keyed by the
magnitude of the bound violation; the list is kept sorted with the maximum
on top (stable for equal keys). -/
def griggioPush : List (Nat × DeltaRational) → Nat × DeltaRational →
    List (Nat × DeltaRational)
  | [], p => [p]
  | q :: rest, p => if dlt q.2 p.2 then p :: q :: rest else q :: griggioPush rest p

/-- Modelled from the spec: push onto the Bland min-heap of variable ids; the
list is kept sorted ascending with the minimum on top. -/
def blandPush : List Nat → Nat → List Nat
  | [], v => [v]
  | q :: rest, v => if v < q then v :: q :: rest else q :: blandPush rest v

/-- The `checkBasicVariable`: enqueue a basic variable if its assignment violates
its bounds — Griggio heap keyed by the violation in the pivot stage, Bland
heap otherwise. -/
def checkBasicVariable (s : SimplexState) (basic : Nat) : SimplexState :=
  if s.pm.assignmentIsConsistent basic then s
  else if s.pivotStage then
    let beta := s.pm.assignment basic
    let diff :=
      if s.pm.belowLowerBound basic beta true then
        ((s.pm.lowerBound basic).getD DZERO) - beta
      else beta - ((s.pm.upperBound basic).getD DZERO)
    { s with griggioQueue := griggioPush s.griggioQueue (basic, diff) }
  else { s with possiblyInconsistent := blandPush s.possiblyInconsistent basic }

/-- The loop of `update`: for each basic row containing `x_i`, shift its
basic's assignment by `diff · a_ji`, bump its activity, and re-check it. -/
def updateLoopGo (x_i : Nat) (diff : DeltaRational) :
    List Row → SimplexState → SimplexState
  | [], s => s
  | r :: rest, s =>
    if hasVar r.entries x_i then
      updateLoopGo x_i diff rest (checkBasicVariable { s with
        pm := s.pm.setAssignment r.basic
          (s.pm.assignment r.basic + mulRat diff (lookupCoeff r.entries x_i))
        activity := fun y => if y = r.basic then s.activity y + 1 else s.activity y }
        r.basic)
    else updateLoopGo x_i diff rest s

/-- The `SimplexDecisionProcedure::update(x_i, v)` for a non-basic `x_i`. -/
def update (s : SimplexState) (x_i : Nat) (v : DeltaRational) : SimplexState :=
  let assignment_x_i := s.pm.assignment x_i
  let s1 := { s with stats := { s.stats with updates := s.stats.updates + 1 } }
  let diff := v - assignment_x_i
  let s2 := updateLoopGo x_i diff s1.tableau s1
  { s2 with pm := s2.pm.setAssignment x_i v }

/-- The slack condition of `selectSlack<above>` for one row entry: the
coefficient sign and the bound margin permit a corrective change. -/
def slackOk (pm : PartialModel) (above : Bool) (e : Nat × Rat) : Bool :=
  if above then
    (decide (e.2 < 0) && pm.strictlyBelowUpperBound e.1) ||
      (decide (0 < e.2) && pm.strictlyAboveLowerBound e.1)
  else
    (decide (0 < e.2) && pm.strictlyBelowUpperBound e.1) ||
      (decide (e.2 < 0) && pm.strictlyAboveLowerBound e.1)

/-- The scan of `selectSlack<above>` over the row of `x_i`, carrying the best
slack so far and its row-count (`numRows`). -/
def selectSlackGo (pm : PartialModel) (tab : Tableau) (stage : Bool)
    (above : Bool) (x_i : Nat) : List (Nat × Rat) → Nat → Nat → Nat
  | [], slack, _ => slack
  | e :: rest, slack, numRows =>
    if e.1 = x_i then selectSlackGo pm tab stage above x_i rest slack numRows
    else if slackOk pm above e then
      if stage then
        if Tableau.getRowCount tab e.1 < numRows then
          selectSlackGo pm tab stage above x_i rest e.1 (Tableau.getRowCount tab e.1)
        else selectSlackGo pm tab stage above x_i rest slack numRows
      else e.1
    else selectSlackGo pm tab stage above x_i rest slack numRows

/-- The `selectSlack<above>(x_i)` (reads only the model, the tableau and
`d_pivotStage`, passed explicitly). -/
def selectSlack (above : Bool) (pm : PartialModel) (tab : Tableau)
    (stage : Bool) (x_i : Nat) : Nat :=
  selectSlackGo pm tab stage above x_i (Tableau.lookup tab x_i).entries
    ARITHVAR_SENTINEL maxUIntThirtyTwo

/-- The `selectSlackAbove`. -/
def selectSlackAbove (pm : PartialModel) (tab : Tableau) (stage : Bool)
    (x_i : Nat) : Nat := selectSlack true pm tab stage x_i

/-- The `selectSlackBelow`. -/
def selectSlackBelow (pm : PartialModel) (tab : Tableau) (stage : Bool)
    (x_i : Nat) : Nat := selectSlack false pm tab stage x_i

/-- The loop of `pivotAndUpdate`: every other basic row mentioning `x_j`
shifts its basic's assignment by `θ · a_kj` (the C++ code bumps the activity
of `x_j` here), then gets re-checked. -/
def pivotLoopGo (x_i x_j : Nat) (theta : DeltaRational) :
    List Row → SimplexState → SimplexState
  | [], s => s
  | r :: rest, s =>
    if r.basic ≠ x_i ∧ hasVar r.entries x_j then
      pivotLoopGo x_i x_j theta rest (checkBasicVariable { s with
        pm := s.pm.setAssignment r.basic
          (s.pm.assignment r.basic + mulRat theta (lookupCoeff r.entries x_j))
        activity := fun y => if y = x_j then s.activity y + 1 else s.activity y }
        r.basic)
    else pivotLoopGo x_i x_j theta rest s

/-- The `generateConflictAbove(conflictVar)`: the upper constraint of the
conflicting basic conjoined with, per non-basic row entry, the upper
constraint when `a_ij < 0` and the lower constraint otherwise. -/
def generateConflictAbove (pm : PartialModel) (tab : Tableau)
    (conflictVar : Nat) : Node :=
  let row_i := Tableau.lookup tab conflictVar
  Node.and (pm.upperConstraint conflictVar ::
    row_i.entries.filterMap (fun e =>
      if e.1 = conflictVar then none
      else if e.2 < 0 then some (pm.upperConstraint e.1)
      else some (pm.lowerConstraint e.1)))

/-- The `generateConflictBelow(conflictVar)`: dual of `generateConflictAbove`. -/
def generateConflictBelow (pm : PartialModel) (tab : Tableau)
    (conflictVar : Nat) : Node :=
  let row_i := Tableau.lookup tab conflictVar
  Node.and (pm.lowerConstraint conflictVar ::
    row_i.entries.filterMap (fun e =>
      if e.1 = conflictVar then none
      else if e.2 < 0 then some (pm.lowerConstraint e.1)
      else some (pm.upperConstraint e.1)))

/-- The `checkBasicForConflict(basic)`: a generated conflict when the basic
violates a bound with no slack in that direction, else null. -/
def checkBasicForConflict (pm : PartialModel) (tab : Tableau) (stage : Bool)
    (basic : Nat) : Node :=
  let beta := pm.assignment basic
  if pm.belowLowerBound basic beta true then
    if selectSlackBelow pm tab stage basic = ARITHVAR_SENTINEL then
      generateConflictBelow pm tab basic
    else Node.null
  else if pm.aboveUpperBound basic beta true then
    if selectSlackAbove pm tab stage basic = ARITHVAR_SENTINEL then
      generateConflictAbove pm tab basic
    else Node.null
  else Node.null

/-- The assignment phase of `pivotAndUpdate`: `θ = (v − β(x_i))/a_ij`,
`β(x_i) ← v`, `β(x_j) ← β(x_j) + θ`, then the loop over the other basic rows
mentioning `x_j`. -/
def papAssign (s : SimplexState) (x_i x_j : Nat) (v : DeltaRational) :
    SimplexState :=
  pivotLoopGo x_i x_j
    (mulRat (v - s.pm.assignment x_i)
      (lookupCoeff (Tableau.lookup s.tableau x_i).entries x_j)⁻¹)
    s.tableau
    { s with pm := ((s.pm.setAssignment x_i v).setAssignment x_j
        ((s.pm.setAssignment x_i v).assignment x_j +
          mulRat (v - s.pm.assignment x_i)
            (lookupCoeff (Tableau.lookup s.tableau x_i).entries x_j)⁻¹)) }

/-- The statistics phase of `pivotAndUpdate`: bump `pivots`, and when a
conflict was already found this pass, the wasteful-pivot counters. -/
def papStats (s : SimplexState) : SimplexState :=
  if s.foundAConflict then
    { s with
      stats := { s.stats with
        pivots := s.stats.pivots + 1
        checksWithWastefulPivots :=
          if s.pivotsSinceConflict + 1 = 1 then
            s.stats.checksWithWastefulPivots + 1
          else s.stats.checksWithWastefulPivots
        pivotsAfterConflict := s.stats.pivotsAfterConflict + 1 }
      pivotsSinceConflict := s.pivotsSinceConflict + 1 }
  else { s with stats := { s.stats with pivots := s.stats.pivots + 1 } }

/-- The early-conflict side check at the end of `pivotAndUpdate`: when no
conflict has been found and the entering `x_j` violates a bound with no
slack, record `foundAConflict`. -/
def papConflictCheck (s : SimplexState) (x_j : Nat) : SimplexState :=
  if s.foundAConflict then s
  else
    if s.pm.belowLowerBound x_j (s.pm.assignment x_j) true then
      if selectSlackBelow s.pm s.tableau s.pivotStage x_j = ARITHVAR_SENTINEL then
        { s with foundAConflict := true }
      else s
    else if s.pm.aboveUpperBound x_j (s.pm.assignment x_j) true then
      if selectSlackAbove s.pm s.tableau s.pivotStage x_j = ARITHVAR_SENTINEL then
        { s with foundAConflict := true }
      else s
    else s

/-- The `SimplexDecisionProcedure::pivotAndUpdate(x_i, x_j, v)`: update the
assignments, bump the counters, pivot the tableau, re-check the entering
variable, and run the early-conflict side check. -/
def pivotAndUpdate (s : SimplexState) (x_i x_j : Nat) (v : DeltaRational) :
    SimplexState :=
  papConflictCheck
    (checkBasicVariable
      { papStats (papAssign s x_i x_j v) with
        tableau := Tableau.pivot (papStats (papAssign s x_i x_j v)).tableau x_i x_j }
      x_j)
    x_j

/-- The scan of `selectSmallestInconsistentVar` over the Griggio queue:
stale tops (no longer basic or already consistent) are popped. -/
def griggioScan (pm : PartialModel) (tab : Tableau) :
    List (Nat × DeltaRational) → List (Nat × DeltaRational) × Nat
  | [] => ([], ARITHVAR_SENTINEL)
  | p :: rest =>
    if isBasicMember tab p.1 && !(pm.assignmentIsConsistent p.1) then
      (p :: rest, p.1)
    else griggioScan pm tab rest

/-- The scan of `selectSmallestInconsistentVar` over the Bland queue. -/
def blandScan (pm : PartialModel) (tab : Tableau) : List Nat → List Nat × Nat
  | [] => ([], ARITHVAR_SENTINEL)
  | v :: rest =>
    if isBasicMember tab v && !(pm.assignmentIsConsistent v) then
      (v :: rest, v)
    else blandScan pm tab rest

/-- The `selectSmallestInconsistentVar()`: pop stale entries off the active queue
and return the first basic, inconsistent variable (left on top), or the
sentinel when none remains. -/
def selectSmallestInconsistentVar (s : SimplexState) : SimplexState × Nat :=
  if s.pivotStage then
    let r := griggioScan s.pm s.tableau s.griggioQueue
    ({ s with griggioQueue := r.1 }, r.2)
  else
    let r := blandScan s.pm s.tableau s.possiblyInconsistent
    ({ s with possiblyInconsistent := r.1 }, r.2)

/-- The fold of `selectInitialConflict` over the retained queue entries:
push each back, check it for a conflict, keep the better conflict and count
the changes; `earlyConflicts` is bumped once per conflict found. -/
def sicGo : List (Nat × DeltaRational) → SimplexState → Node → Nat →
    SimplexState × Node × Nat
  | [], s, best, changes => (s, best, changes)
  | p :: rest, s, best, changes =>
    let s1 := { s with griggioQueue := griggioPush s.griggioQueue p }
    let pc := checkBasicForConflict s1.pm s1.tableau s1.pivotStage p.1
    if pc.isNull then sicGo rest s1 best changes
    else
      let better := betterConflict best pc
      let changes' := if Node.beq better best then changes else changes + 1
      let s2 := { s1 with stats := { s1.stats with
        earlyConflicts := s1.stats.earlyConflicts + 1 } }
      sicGo rest s2 better changes'

/-- The `selectInitialConflict()`: drain the Griggio queue keeping only basic,
inconsistent entries, push them back while collecting the smallest conflict
clause; bump `earlyConflictImprovements` when the best clause changed more
than once. -/
def selectInitialConflict (s : SimplexState) : SimplexState × Node :=
  let init := s.griggioQueue.filter (fun p =>
    isBasicMember s.tableau p.1 && !(s.pm.assignmentIsConsistent p.1))
  let s0 := { s with griggioQueue := [] }
  let r := sicGo init s0 Node.null 0
  let s1 :=
    if r.2.2 > 1 then
      { r.1 with stats := { r.1.stats with
        earlyConflictImprovements := r.1.stats.earlyConflictImprovements + 1 } }
    else r.1
  (s1, r.2.1)

/-- Outcome of one iteration of the main loop body of
`privateUpdateInconsistentVars`. -/
inductive LoopOutcome where
  | sat : LoopOutcome
  | conflict : Node → LoopOutcome
  | continued : LoopOutcome

/-- One iteration of the `while` body of `privateUpdateInconsistentVars`:
select an inconsistent basic (sat when none), pick a slack in the violated
direction (conflict when none), pivot to the violated bound, then check the
entering variable for an early conflict. -/
def loopBody (s : SimplexState) : SimplexState × LoopOutcome :=
  let r := selectSmallestInconsistentVar s
  let s1 := r.1
  let x_i := r.2
  if x_i = ARITHVAR_SENTINEL then (s1, .sat)
  else
    let beta_i := s1.pm.assignment x_i
    if s1.pm.belowLowerBound x_i beta_i true then
      let l_i := (s1.pm.lowerBound x_i).getD DZERO
      let x_j := selectSlackBelow s1.pm s1.tableau s1.pivotStage x_i
      if x_j = ARITHVAR_SENTINEL then
        ({ s1 with stats := { s1.stats with
            updateConflicts := s1.stats.updateConflicts + 1 } },
          .conflict (generateConflictBelow s1.pm s1.tableau x_i))
      else
        let s2 := pivotAndUpdate s1 x_i x_j l_i
        let ec := checkBasicForConflict s2.pm s2.tableau s2.pivotStage x_j
        if ec.isNull then (s2, .continued) else (s2, .conflict ec)
    else if s1.pm.aboveUpperBound x_i beta_i true then
      let u_i := (s1.pm.upperBound x_i).getD DZERO
      let x_j := selectSlackAbove s1.pm s1.tableau s1.pivotStage x_i
      if x_j = ARITHVAR_SENTINEL then
        ({ s1 with stats := { s1.stats with
            updateConflicts := s1.stats.updateConflicts + 1 } },
          .conflict (generateConflictAbove s1.pm s1.tableau x_i))
      else
        let s2 := pivotAndUpdate s1 x_i x_j u_i
        let ec := checkBasicForConflict s2.pm s2.tableau s2.pivotStage x_j
        if ec.isNull then (s2, .continued) else (s2, .conflict ec)
    else
      let ec := checkBasicForConflict s1.pm s1.tableau s1.pivotStage
        ARITHVAR_SENTINEL
      if ec.isNull then (s1, .continued) else (s1, .conflict ec)

/-- Outcome of the Griggio-stage loop. -/
inductive GriggioOutcome where
  | gSat : GriggioOutcome
  | gConflict : Node → GriggioOutcome
  | gExhausted : GriggioOutcome

/-- The Griggio-stage `while (iteratationNum <= d_numVariables)` loop:
`rem` counts the remaining admissible entries of the body, `iter` the value
of `iteratationNum`. -/
def griggioGo : Nat → SimplexState → Nat → SimplexState × Nat × GriggioOutcome
  | 0, s, iter => (s, iter, .gExhausted)
  | rem + 1, s, iter =>
    let r := loopBody s
    match r.2 with
    | .sat => (r.1, iter, .gSat)
    | .conflict n => (r.1, iter + 1, .gConflict n)
    | .continued => griggioGo rem r.1 (iter + 1)

/-- The Griggio stage entered with `iteratationNum = 0`; the loop body runs
while `iteratationNum ≤ d_numVariables`. -/
def griggioLoop (s : SimplexState) : SimplexState × Nat × GriggioOutcome :=
  griggioGo (s.numVariables + 1) s 0

/-- Outcome of the Bland-stage loop (which the C++ runs unboundedly; `fuel`
is the termination budget of the embedding). -/
inductive BlandOutcome where
  | bSat : BlandOutcome
  | bConflict : Node → BlandOutcome
  | bFuelOut : BlandOutcome

/-- The Bland-stage `while (!d_pivotStage)` loop. -/
def blandGo : Nat → SimplexState → SimplexState × BlandOutcome
  | 0, s => (s, .bFuelOut)
  | fuel + 1, s =>
    let r := loopBody s
    match r.2 with
    | .sat => (r.1, .bSat)
    | .conflict n => (r.1, .bConflict n)
    | .continued => blandGo fuel r.1

/-- The migration block at the bottom of `privateUpdateInconsistentVars`:
drain the Griggio queue, push its still-basic variables onto the Bland
queue, and leave the pivot stage. -/
def migrateToBland (s : SimplexState) : SimplexState :=
  let newBland := s.griggioQueue.foldl
    (fun q p => if isBasicMember s.tableau p.1 then blandPush q p.1 else q)
    s.possiblyInconsistent
  { s with
    griggioQueue := []
    possiblyInconsistent := newBland
    pivotStage := false }

/-- Result of `privateUpdateInconsistentVars` / `updateInconsistentVars`:
a node (null meaning sat) or exhaustion of the embedding's Bland fuel. -/
inductive UpdateResult where
  | res : Node → UpdateResult
  | fuelOut : UpdateResult

/-- The `privateUpdateInconsistentVars()` (`Check()` in dM06): the Griggio stage
runs at most `numVariables + 1` body iterations, then migrates to the
unbounded Bland stage and recurses. -/
def privateUpdateInconsistentVars (fuel : Nat) (s : SimplexState) :
    SimplexState × UpdateResult :=
  if s.pivotStage then
    let r := griggioLoop s
    match r.2.2 with
    | .gSat => (r.1, .res Node.null)
    | .gConflict n => (r.1, .res n)
    | .gExhausted =>
      let s2 := migrateToBland r.1
      match blandGo fuel s2 with
      | (s3, .bSat) => (s3, .res Node.null)
      | (s3, .bConflict n) => (s3, .res n)
      | (s3, .bFuelOut) => (s3, .fuelOut)
  else
    match blandGo fuel s with
    | (s3, .bSat) => (s3, .res Node.null)
    | (s3, .bConflict n) => (s3, .res n)
    | (s3, .bFuelOut) => (s3, .fuelOut)

/-- The `updateInconsistentVars()`: null immediately on an empty Griggio queue;
otherwise try `selectInitialConflict` when more than one entry is queued,
then run the staged loops; finally drain both queues and restore the pivot
stage. -/
def updateInconsistentVars (fuel : Nat) (s : SimplexState) :
    SimplexState × UpdateResult :=
  if s.griggioQueue.isEmpty then (s, .res Node.null)
  else
    let s1 := { s with foundAConflict := false, pivotsSinceConflict := 0 }
    let r :=
      if s1.griggioQueue.length > 1 then selectInitialConflict s1
      else (s1, Node.null)
    let pUIV :=
      if r.2.isNull then privateUpdateInconsistentVars fuel r.1
      else (r.1, .res r.2)
    let s4 := { pUIV.1 with
      griggioQueue := []
      possiblyInconsistent := []
      pivotStage := true }
    (s4, pUIV.2)

/-- The `AssertLower(x_i ≥ c_i)` with originating constraint `t`; returns the
updated state and the `inConflict` boolean. -/
def AssertLower (s : SimplexState) (x_i : Nat) (c_i : DeltaRational)
    (t : Node) : SimplexState × Bool :=
  if s.pm.belowLowerBound x_i c_i false then (s, false)
  else if s.pm.aboveUpperBound x_i c_i true then
    let ubc := s.pm.upperConstraint x_i
    let conflict := Node.and [ubc, t]
    ({ s with
        sink := s.sink ++ [conflict]
        stats := { s.stats with
          assertLowerConflicts := s.stats.assertLowerConflicts + 1 } }, true)
  else
    let s1 := { s with
      pm := ((s.pm.setLowerConstraint x_i t).setLowerBound x_i c_i)
      activity := fun y => if y = x_i then 0 else s.activity y }
    let s2 :=
      if !(isBasicMember s1.tableau x_i) then
        if dlt (s1.pm.assignment x_i) c_i then update s1 x_i c_i else s1
      else checkBasicVariable s1 x_i
    (s2, false)

/-- The `AssertUpper(x_i ≤ c_i)` with originating constraint `t`. -/
def AssertUpper (s : SimplexState) (x_i : Nat) (c_i : DeltaRational)
    (t : Node) : SimplexState × Bool :=
  if s.pm.aboveUpperBound x_i c_i false then (s, false)
  else if s.pm.belowLowerBound x_i c_i true then
    let lbc := s.pm.lowerConstraint x_i
    let conflict := Node.and [lbc, t]
    ({ s with
        sink := s.sink ++ [conflict]
        stats := { s.stats with
          assertUpperConflicts := s.stats.assertUpperConflicts + 1 } }, true)
  else
    let s1 := { s with
      pm := ((s.pm.setUpperConstraint x_i t).setUpperBound x_i c_i)
      activity := fun y => if y = x_i then 0 else s.activity y }
    let s2 :=
      if !(isBasicMember s1.tableau x_i) then
        if dlt c_i (s1.pm.assignment x_i) then update s1 x_i c_i else s1
      else checkBasicVariable s1 x_i
    (s2, false)

/-- The `AssertEquality(x_i == c_i)` with originating constraint `t`. -/
def AssertEquality (s : SimplexState) (x_i : Nat) (c_i : DeltaRational)
    (t : Node) : SimplexState × Bool :=
  if s.pm.belowLowerBound x_i c_i false ∧ s.pm.aboveUpperBound x_i c_i false then
    (s, false)
  else if s.pm.aboveUpperBound x_i c_i true then
    let ubc := s.pm.upperConstraint x_i
    let conflict := Node.and [ubc, t]
    ({ s with sink := s.sink ++ [conflict] }, true)
  else if s.pm.belowLowerBound x_i c_i true then
    let lbc := s.pm.lowerConstraint x_i
    let conflict := Node.and [lbc, t]
    ({ s with sink := s.sink ++ [conflict] }, true)
  else
    let s1 := { s with
      pm := ((((s.pm.setLowerConstraint x_i t).setLowerBound x_i
        c_i).setUpperConstraint x_i t).setUpperBound x_i c_i)
      activity := fun y => if y = x_i then 0 else s.activity y }
    let s2 :=
      if !(isBasicMember s1.tableau x_i) then
        if ¬ (s1.pm.assignment x_i = c_i) then update s1 x_i c_i else s1
      else checkBasicVariable s1 x_i
    (s2, false)

/-- Value of the full entry list of a row under an assignment:
`Σ coeff · β(var)` over every entry. -/
def rowEval (beta : Nat → DeltaRational) (es : List (Nat × Rat)) : DeltaRational :=
  (es.map (fun e => mulRat (beta e.1) e.2)).sum

/-- The sum `checkTableau` / `computeRowValue` compute for a row: the value
over the non-basic entries only. -/
def rowSumNB (beta : Nat → DeltaRational) (r : Row) : DeltaRational :=
  rowEval beta (r.entries.filter (fun e => e.1 ≠ r.basic))

/-- The `computeRowValue(x, useSafe)` (the model keeps no separate safe
assignment, so `useSafe` is irrelevant). -/
def computeRowValue (s : SimplexState) (x : Nat) : DeltaRational :=
  rowSumNB s.pm.assignment (Tableau.lookup s.tableau x)

/-- The property `checkTableau()` asserts for every row: the basic's
assignment equals the row's non-basic sum, exactly. -/
def checkTableau (s : SimplexState) : Prop :=
  ∀ r ∈ s.tableau, s.pm.assignment r.basic = rowSumNB s.pm.assignment r

/-- Well-formedness of a single row: distinct keys, nonzero coefficients,
the basic key present with coefficient `-1`, and real (non-sentinel)
variables only. -/
def RowWf (r : Row) : Prop :=
  (r.entries.map Prod.fst).Nodup ∧
  (∀ e ∈ r.entries, e.2 ≠ 0) ∧
  (r.basic, (-1 : Rat)) ∈ r.entries ∧
  ∀ e ∈ r.entries, e.1 < ARITHVAR_SENTINEL

/-- Well-formedness of the tableau: boundedly many rows (`uint32` row
counts), distinct basics, well-formed rows, and no non-basic key of any row
is basic in another row. -/
def TableauWf (tab : Tableau) : Prop :=
  tab.length < maxUIntThirtyTwo ∧
  (tab.map Row.basic).Nodup ∧
  (∀ r ∈ tab, RowWf r) ∧
  ∀ r ∈ tab, ∀ e ∈ r.entries, e.1 ≠ r.basic → ∀ r' ∈ tab, r'.basic ≠ e.1

/-- The per-row transformation performed by `Tableau.pivot`. -/
def pivotF (tab : Tableau) (xi xj : Nat) (r : Row) : Row :=
  if r.basic = xi then pivotRow (Tableau.lookup tab xi) xj
  else if hasVar r.entries xj then
    ⟨r.basic, combineRows r.entries (lookupCoeff r.entries xj)
      (pivotRow (Tableau.lookup tab xi) xj).entries⟩
  else r

/-- The assignment function the `pivotAndUpdate` row loop computes. -/
def pivotLoopAssign (L : List Row) (x_i x_j : Nat) (theta : DeltaRational)
    (beta : Nat → DeltaRational) : Nat → DeltaRational := fun y =>
  match L.find? (fun r => r.basic = y) with
  | some r =>
    if r.basic ≠ x_i ∧ hasVar r.entries x_j then
      beta y + mulRat theta (lookupCoeff r.entries x_j)
    else beta y
  | none => beta y

/-- The assignment function the `update` row loop computes. -/
def updateLoopAssign (L : List Row) (x_i : Nat) (diff : DeltaRational)
    (beta : Nat → DeltaRational) : Nat → DeltaRational := fun y =>
  match L.find? (fun r => r.basic = y) with
  | some r =>
    if hasVar r.entries x_i then beta y + mulRat diff (lookupCoeff r.entries x_i)
    else beta y
  | none => beta y

/-- All tableau equations hold under the current assignment (the zero form
of the `checkTableau` invariant). -/
def TabSat (s : SimplexState) : Prop :=
  ∀ r ∈ s.tableau, rowEval s.pm.assignment r.entries = 0

/-- Number of times the running best conflict is replaced while folding
`betterConflict` over a clause list. -/
def countChanges : Node → List Node → Nat
  | _, [] => 0
  | best, c :: cs =>
    (if Node.beq (betterConflict best c) best then 0 else 1) +
      countChanges (betterConflict best c) cs

/-- The conflict clauses `selectInitialConflict` collects from a queue
fragment: one `checkBasicForConflict` per entry, nulls dropped. -/
def conflictsOf (pm : PartialModel) (tab : Tableau) (stage : Bool)
    (l : List (Nat × DeltaRational)) : List Node :=
  (l.map (fun p => checkBasicForConflict pm tab stage p.1)).filter
    (fun n => !n.isNull)

/-- One externally invocable operation of the simplex engine. -/
inductive EngineStep : SimplexState → SimplexState → Prop where
  | assertLower (s : SimplexState) (x : Nat) (c : DeltaRational) (t : Node) :
      EngineStep s (AssertLower s x c t).1
  | assertUpper (s : SimplexState) (x : Nat) (c : DeltaRational) (t : Node) :
      EngineStep s (AssertUpper s x c t).1
  | assertEquality (s : SimplexState) (x : Nat) (c : DeltaRational)
      (t : Node) : EngineStep s (AssertEquality s x c t).1
  | updateVars (s : SimplexState) (fuel : Nat) :
      EngineStep s (updateInconsistentVars fuel s).1

/-- A state reachable by a sequence of engine operations. -/
inductive Reachable : SimplexState → SimplexState → Prop where
  | refl (s : SimplexState) : Reachable s s
  | tail {a b c : SimplexState} : Reachable a b → EngineStep b c →
      Reachable a c

/-- A one-row concrete state: basic `x0` with row `x0 = x1`, lower bound
`1` on `x0`, assignment all zero, one pending Griggio entry. -/
def pmOne : PartialModel :=
  { assignment := fun _ => (0, 0)
    lowerBound := fun y => if y = 0 then some (1, 0) else none
    upperBound := fun _ => none
    lowerConstraint := fun y => if y = 0 then Node.atom 0 else Node.null
    upperConstraint := fun _ => Node.null }

/-- The row `x0 = x1` in reduced form. -/
def rowOne : Row := ⟨0, [(0, -1), (1, 1)]⟩

/-- All-zero statistics. -/
def statsZero : Statistics := ⟨0, 0, 0, 0, 0, 0, 0, 0, 0⟩

/-- The concrete state used by witnesses and counterexamples. -/
def sOne : SimplexState :=
  { tableau := [rowOne]
    pm := pmOne
    activity := fun _ => 0
    griggioQueue := [(0, (1, 0))]
    possiblyInconsistent := []
    pivotStage := true
    foundAConflict := false
    pivotsSinceConflict := 0
    numVariables := 0
    stats := statsZero
    sink := [] }

/-- The row `x0 = 0` (no non-basic entry), so a violated bound on `x0` has
no slack. -/
def rowConf : Row := ⟨0, [(0, -1)]⟩

/-- The `sOne` with the slack-free row: `selectInitialConflict` finds a real
conflict here. -/
def sConf : SimplexState := { sOne with tableau := [rowConf] }

/-- A model with equal lower and upper bound `1` on `x0`, both explained by
`atom 0`, and a matching assignment. -/
def pmEq : PartialModel :=
  { assignment := fun y => if y = 0 then (1, 0) else (0, 0)
    lowerBound := fun y => if y = 0 then some (1, 0) else none
    upperBound := fun y => if y = 0 then some (1, 0) else none
    lowerConstraint := fun y => if y = 0 then Node.atom 0 else Node.null
    upperConstraint := fun y => if y = 0 then Node.atom 0 else Node.null }

/-- A state already holding the equality `x0 = 1` explained by `atom 0`. -/
def sEq : SimplexState :=
  { sOne with
    tableau := []
    pm := pmEq
    griggioQueue := [] }

/-- The completely unconstrained model. -/
def pmFree : PartialModel :=
  { assignment := fun _ => (0, 0)
    lowerBound := fun _ => none
    upperBound := fun _ => none
    lowerConstraint := fun _ => Node.null
    upperConstraint := fun _ => Node.null }

/-- A state with no rows and no bounds. -/
def sFree : SimplexState :=
  { sOne with
    tableau := []
    pm := pmFree
    griggioQueue := [] }

/-- A model with only an upper bound `0` on `x0`, explained by `atom 7`. -/
def pmUp : PartialModel :=
  { pmFree with
    upperBound := fun y => if y = 0 then some (0, 0) else none
    upperConstraint := fun y => if y = 0 then Node.atom 7 else Node.null }

/-- A state where asserting `x0 ≥ 1` conflicts with the upper bound `0`. -/
def sUp : SimplexState :=
  { sOne with
    tableau := []
    pm := pmUp
    griggioQueue := [] }

/-- The conflict clause of `generateConflictAbove` as the spec words it:
`getUpperConstraint(xi)` with, per non-basic `xj` of the row,
`getLowerConstraint(xj)` if `a_ij > 0` else `getUpperConstraint(xj)`. -/
def specConflictAbove (pm : PartialModel) (row : Row) (xi : Nat) : Node :=
  Node.and (pm.upperConstraint xi ::
    (row.entries.filter (fun e => e.1 ≠ xi)).map (fun e =>
      if 0 < e.2 then pm.lowerConstraint e.1 else pm.upperConstraint e.1))

/-- The conflict clause of `generateConflictBelow` as the spec words it:
`getLowerConstraint(xi)` with, per non-basic `xj` of the row,
`getLowerConstraint(xj)` if `a_ij < 0` else `getUpperConstraint(xj)`. -/
def specConflictBelow (pm : PartialModel) (row : Row) (xi : Nat) : Node :=
  Node.and (pm.lowerConstraint xi ::
    (row.entries.filter (fun e => e.1 ≠ xi)).map (fun e =>
      if e.2 < 0 then pm.lowerConstraint e.1 else pm.upperConstraint e.1))


/-! ### Algebra of `DeltaRational` and the lexicographic order -/

theorem mulRat_add_left (a b : DeltaRational) (q : Rat) :
    mulRat (a + b) q = mulRat a q + mulRat b q := by
  unfold mulRat
  apply Prod.ext <;> simp <;> ring

theorem mulRat_add_right (a : DeltaRational) (p q : Rat) :
    mulRat a (p + q) = mulRat a p + mulRat a q := by
  unfold mulRat
  apply Prod.ext <;> simp <;> ring

theorem mulRat_mul (a : DeltaRational) (p q : Rat) :
    mulRat a (p * q) = mulRat (mulRat a p) q := by
  unfold mulRat
  apply Prod.ext <;> simp <;> ring

theorem mulRat_zero (a : DeltaRational) : mulRat a 0 = 0 := by
  unfold mulRat
  apply Prod.ext <;> simp

theorem zero_mulRat (q : Rat) : mulRat 0 q = 0 := by
  unfold mulRat
  apply Prod.ext <;> simp

theorem mulRat_neg_one (a : DeltaRational) : mulRat a (-1) = -a := by
  unfold mulRat
  apply Prod.ext <;> simp

theorem mulRat_sub_left (a b : DeltaRational) (q : Rat) :
    mulRat (a - b) q = mulRat a q - mulRat b q := by
  unfold mulRat
  apply Prod.ext <;> simp <;> ring

theorem dlt_iff (a b : DeltaRational) :
    dlt a b = true ↔ a.1 < b.1 ∨ (a.1 = b.1 ∧ a.2 < b.2) := by
  simp [dlt]

theorem dle_iff (a b : DeltaRational) :
    dle a b = true ↔ a.1 < b.1 ∨ (a.1 = b.1 ∧ a.2 ≤ b.2) := by
  simp [dle]

theorem dle_trans {a b c : DeltaRational} (h1 : dle a b = true)
    (h2 : dle b c = true) : dle a c = true := by
  rw [dle_iff] at *
  rcases h1 with h1 | ⟨h1, h1'⟩ <;> rcases h2 with h2 | ⟨h2, h2'⟩
  · exact Or.inl (lt_trans h1 h2)
  · exact Or.inl (h2 ▸ h1)
  · exact Or.inl (h1 ▸ h2)
  · exact Or.inr ⟨h1.trans h2, le_trans h1' h2'⟩

theorem dlt_of_dlt_of_dle {a b c : DeltaRational} (h1 : dlt a b = true)
    (h2 : dle b c = true) : dlt a c = true := by
  rw [dlt_iff] at *
  rw [dle_iff] at h2
  rcases h1 with h1 | ⟨h1, h1'⟩ <;> rcases h2 with h2 | ⟨h2, h2'⟩
  · exact Or.inl (lt_trans h1 h2)
  · exact Or.inl (h2 ▸ h1)
  · exact Or.inl (h1 ▸ h2)
  · exact Or.inr ⟨h1.trans h2, lt_of_lt_of_le h1' h2'⟩

theorem dlt_irrefl (a : DeltaRational) : dlt a a = false := by
  simp [dlt]

/-! ### Structural equality of nodes -/

theorem Node.beq_iff : ∀ (a b : Node), (Node.beq a b = true ↔ a = b)
  | .null, .null => by simp [Node.beq]
  | .null, .atom _ => by simp [Node.beq]
  | .null, .and _ => by simp [Node.beq]
  | .atom _, .null => by simp [Node.beq]
  | .atom a, .atom b => by simp [Node.beq]
  | .atom _, .and _ => by simp [Node.beq]
  | .and _, .null => by simp [Node.beq]
  | .and _, .atom _ => by simp [Node.beq]
  | .and [], .and [] => by simp [Node.beq]
  | .and [], .and (y :: ys) => by simp [Node.beq]
  | .and (x :: xs), .and [] => by simp [Node.beq]
  | .and (x :: xs), .and (y :: ys) => by
    have h1 := Node.beq_iff x y
    have h2 := Node.beq_iff (.and xs) (.and ys)
    simp only [Node.and.injEq] at h2
    simp only [Node.beq, Bool.and_eq_true, h1, h2, Node.and.injEq,
      List.cons.injEq]

theorem Node.beq_refl (a : Node) : Node.beq a a = true :=
  (Node.beq_iff a a).mpr rfl

/-! ### Evaluation of sparse rows -/

theorem rowEval_nil (beta : Nat → DeltaRational) : rowEval beta [] = 0 := rfl

theorem rowEval_cons (beta : Nat → DeltaRational) (e : Nat × Rat)
    (l : List (Nat × Rat)) :
    rowEval beta (e :: l) = mulRat (beta e.1) e.2 + rowEval beta l := by
  simp [rowEval]

theorem rowEval_append (beta : Nat → DeltaRational) (l1 l2 : List (Nat × Rat)) :
    rowEval beta (l1 ++ l2) = rowEval beta l1 + rowEval beta l2 := by
  simp [rowEval]

theorem rowEval_filter_nz (beta : Nat → DeltaRational) :
    ∀ l : List (Nat × Rat),
      rowEval beta (l.filter (fun e => e.2 ≠ 0)) = rowEval beta l
  | [] => rfl
  | e :: l => by
    have ih := rowEval_filter_nz beta l
    rw [List.filter_cons]
    split
    · rw [rowEval_cons, rowEval_cons, ih]
    · next hcond =>
        have h0 : e.2 = 0 := by simpa using hcond
        rw [ih, rowEval_cons, h0, mulRat_zero, zero_add]

theorem rowEval_map_scale (beta : Nat → DeltaRational) (q : Rat) :
    ∀ l : List (Nat × Rat),
      rowEval beta (l.map (fun e => (e.1, e.2 * q))) = mulRat (rowEval beta l) q
  | [] => by simp [rowEval, mulRat, Prod.ext_iff]
  | e :: l => by
    simp only [List.map_cons, rowEval_cons, rowEval_map_scale beta q l,
      mulRat_add_left, mulRat_mul]

theorem rowEval_congr {beta1 beta2 : Nat → DeltaRational} :
    ∀ {l : List (Nat × Rat)}, (∀ e ∈ l, beta1 e.1 = beta2 e.1) →
      rowEval beta1 l = rowEval beta2 l
  | [], _ => rfl
  | e :: l, h => by
    rw [rowEval_cons, rowEval_cons, h e (List.mem_cons_self e l),
      rowEval_congr (fun e' he' => h e' (List.mem_cons_of_mem e he'))]

theorem rowEval_add_fun (beta1 beta2 : Nat → DeltaRational) :
    ∀ l : List (Nat × Rat),
      rowEval (fun v => beta1 v + beta2 v) l = rowEval beta1 l + rowEval beta2 l
  | [] => by simp [rowEval]
  | e :: l => by
    simp only [rowEval_cons, rowEval_add_fun beta1 beta2 l, mulRat_add_left]
    abel

theorem rowEval_zero_fun {beta : Nat → DeltaRational} :
    ∀ {l : List (Nat × Rat)}, (∀ e ∈ l, beta e.1 = 0) → rowEval beta l = 0
  | [], _ => rfl
  | e :: l, h => by
    rw [rowEval_cons, h e (List.mem_cons_self e l),
      rowEval_zero_fun (fun e' he' => h e' (List.mem_cons_of_mem e he')),
      zero_mulRat, add_zero]

/-! ### Lookup and membership in sparse rows -/

theorem hasVar_iff (es : List (Nat × Rat)) (x : Nat) :
    hasVar es x = true ↔ ∃ e ∈ es, e.1 = x := by
  simp [hasVar]

theorem hasVar_false_iff (es : List (Nat × Rat)) (x : Nat) :
    hasVar es x = false ↔ ∀ e ∈ es, e.1 ≠ x := by
  rw [← Bool.not_eq_true, hasVar_iff]
  push_neg
  rfl

theorem lookupCoeff_cons (v : Nat) (b : Rat) (t : List (Nat × Rat)) (w : Nat) :
    lookupCoeff ((v, b) :: t) w = if v = w then b else lookupCoeff t w := by
  by_cases h : v = w <;> simp [lookupCoeff, List.find?_cons, h]

theorem lookupCoeff_eq_zero (es : List (Nat × Rat)) (x : Nat)
    (h : hasVar es x = false) : lookupCoeff es x = 0 := by
  rw [hasVar_false_iff] at h
  unfold lookupCoeff
  have : es.find? (fun e => e.1 = x) = none := by
    rw [List.find?_eq_none]
    intro e he
    simpa using h e he
  rw [this]

theorem lookupCoeff_mem {es : List (Nat × Rat)} {x : Nat}
    (h : hasVar es x = true) : (x, lookupCoeff es x) ∈ es := by
  rw [hasVar_iff] at h
  obtain ⟨e, he, hx⟩ := h
  have hsome : (es.find? (fun e => e.1 = x)).isSome := by
    rw [List.find?_isSome]
    exact ⟨e, he, by simpa using hx⟩
  obtain ⟨e', he'⟩ := Option.isSome_iff_exists.mp hsome
  have hkey : e'.1 = x := by simpa using List.find?_some he'
  have hmem : e' ∈ es := List.mem_of_find?_eq_some he'
  have : lookupCoeff es x = e'.2 := by unfold lookupCoeff; rw [he']
  rw [this, ← hkey]
  exact hmem

theorem lookupCoeff_nodup : ∀ {es : List (Nat × Rat)},
    (es.map Prod.fst).Nodup → ∀ {x : Nat} {c : Rat}, (x, c) ∈ es →
    lookupCoeff es x = c := by
  intro es
  induction es with
  | nil =>
    intro _ x c hmem
    simp at hmem
  | cons e rest ih =>
    intro hnodup x c hmem
    rw [List.map_cons, List.nodup_cons] at hnodup
    rcases List.mem_cons.mp hmem with heq | hrest
    · rw [← heq]
      simp [lookupCoeff]
    · have hx : x ∈ rest.map Prod.fst := List.mem_map_of_mem Prod.fst hrest
      have hne : e.1 ≠ x := by
        intro h
        exact hnodup.1 (h ▸ hx)
      rcases e with ⟨v, b⟩
      rw [lookupCoeff_cons, if_neg hne]
      exact ih hnodup.2 hrest

theorem rowEval_extract {beta : Nat → DeltaRational} :
    ∀ {l : List (Nat × Rat)} {k : Nat} {c : Rat},
    (l.map Prod.fst).Nodup → (k, c) ∈ l →
    rowEval beta l = mulRat (beta k) c +
      rowEval beta (l.filter (fun e => e.1 ≠ k)) := by
  intro l
  induction l with
  | nil =>
    intro k c _ hmem
    simp at hmem
  | cons e rest ih =>
    intro k c hnodup hmem
    rw [List.map_cons, List.nodup_cons] at hnodup
    rw [List.filter_cons]
    rcases List.mem_cons.mp hmem with heq | hrest
    · have hkey : e.1 = k := by rw [← heq]
      have hcond : (decide ¬(e.1 = k)) = false := by simp [hkey]
      rw [hcond]
      have hfilter : rest.filter (fun e => e.1 ≠ k) = rest := by
        rw [List.filter_eq_self]
        intro e' he'
        have : e'.1 ≠ k := by
          intro hk
          exact hnodup.1 (hkey ▸ hk ▸ List.mem_map_of_mem Prod.fst he')
        simpa using this
      rw [if_neg (by simp)]
      rw [hfilter, rowEval_cons, ← heq]
    · have hk' : k ∈ rest.map Prod.fst := by
        have := List.mem_map_of_mem Prod.fst hrest
        simpa using this
      have hne : e.1 ≠ k := fun h => hnodup.1 (h ▸ hk')
      rw [if_pos (by simpa using hne)]
      rw [rowEval_cons, rowEval_cons, ih hnodup.2 hrest]
      abel

theorem rowEval_map_coeff_add (beta : Nat → DeltaRational)
    (f g : Nat × Rat → Rat) :
    ∀ l : List (Nat × Rat),
    rowEval beta (l.map fun e => (e.1, f e + g e)) =
      rowEval beta (l.map fun e => (e.1, f e)) +
        rowEval beta (l.map fun e => (e.1, g e))
  | [] => by simp [rowEval]
  | e :: l => by
    simp only [List.map_cons, rowEval_cons, rowEval_map_coeff_add beta f g l,
      mulRat_add_right]
    abel

theorem rowEval_map_zero (beta : Nat → DeltaRational) :
    ∀ l : List (Nat × Rat),
      rowEval beta (l.map fun e => (e.1, (0 : Rat))) = 0
  | [] => rfl
  | e :: l => by
    simp only [List.map_cons, rowEval_cons, rowEval_map_zero beta l,
      mulRat_zero, add_zero]

theorem rowEval_map_indicator (beta : Nat → DeltaRational) {v : Nat} {d : Rat} :
    ∀ {l : List (Nat × Rat)}, (l.map Prod.fst).Nodup →
    rowEval beta (l.map fun e => (e.1, if e.1 = v then d else 0)) =
      if hasVar l v then mulRat (beta v) d else 0 := by
  intro l
  induction l with
  | nil => simp [rowEval, hasVar]
  | cons e rest ih =>
    intro hnodup
    rw [List.map_cons, List.nodup_cons] at hnodup
    rw [List.map_cons, rowEval_cons]
    by_cases h : e.1 = v
    · have hrest : rest.map (fun e => ((e.1 : Nat), if e.1 = v then d else 0)) =
          rest.map (fun e => (e.1, (0 : Rat))) := by
        apply List.map_congr_left
        intro e' he'
        have : e'.1 ≠ v := by
          intro hv
          exact hnodup.1 (h ▸ hv ▸ List.mem_map_of_mem Prod.fst he')
        simp [this]
      rw [hrest, rowEval_map_zero, add_zero, if_pos h, h]
      have : hasVar (e :: rest) v = true := by
        rw [hasVar_iff]
        exact ⟨e, List.mem_cons_self e rest, h⟩
      rw [this, if_pos rfl]
    · rw [if_neg h, mulRat_zero, zero_add, ih hnodup.2]
      have : hasVar (e :: rest) v = hasVar rest v := by
        simp [hasVar, h]
      rw [this]

theorem rowEval_lookup_filter (beta : Nat → DeltaRational) (c : Rat) :
    ∀ (t : List (Nat × Rat)) {r : List (Nat × Rat)},
    (r.map Prod.fst).Nodup → (t.map Prod.fst).Nodup →
    rowEval beta (r.map fun e => (e.1, c * lookupCoeff t e.1)) =
      rowEval beta ((t.filter (fun e => hasVar r e.1)).map
        (fun e => (e.1, c * e.2))) := by
  intro t
  induction t with
  | nil =>
    intro r hr _
    have : r.map (fun e => ((e.1 : Nat), c * lookupCoeff [] e.1)) =
        r.map (fun e => (e.1, (0 : Rat))) := by
      apply List.map_congr_left
      intro e _
      have : lookupCoeff ([] : List (Nat × Rat)) e.1 = 0 := rfl
      simp [this]
    rw [this, rowEval_map_zero]
    simp [rowEval]
  | cons p t' ih =>
    intro r hr ht
    rw [List.map_cons, List.nodup_cons] at ht
    have hzero : lookupCoeff t' p.1 = 0 := by
      apply lookupCoeff_eq_zero
      rw [hasVar_false_iff]
      intro e he hkey
      exact ht.1 (hkey ▸ List.mem_map_of_mem Prod.fst he)
    have hsplit : r.map (fun e => ((e.1 : Nat), c * lookupCoeff (p :: t') e.1)) =
        r.map (fun e => (e.1,
          (c * lookupCoeff t' e.1) + (if e.1 = p.1 then c * p.2 else 0))) := by
      apply List.map_congr_left
      intro e _
      rcases p with ⟨v, b⟩
      rw [lookupCoeff_cons]
      by_cases h : e.1 = v
      · rw [if_pos (by rw [h]), if_pos h, h, hzero, mul_zero, zero_add]
      · rw [if_neg (by intro hv; exact h hv.symm), if_neg h, add_zero]
    rw [hsplit, rowEval_map_coeff_add, ih hr ht.2,
      rowEval_map_indicator beta hr, List.filter_cons]
    by_cases hmem : hasVar r p.1 = true
    · rw [hmem, if_pos rfl, if_pos rfl, List.map_cons, rowEval_cons]
      abel
    · have hmem' : hasVar r p.1 = false := by
        revert hmem
        cases hasVar r p.1 <;> simp
      rw [hmem', if_neg (by simp), if_neg (by simp), add_zero]

theorem rowEval_scale_partition (beta : Nat → DeltaRational)
    (p : Nat × Rat → Bool) (c : Rat) :
    ∀ t : List (Nat × Rat),
    rowEval beta ((t.filter p).map fun e => (e.1, c * e.2)) +
      rowEval beta ((t.filter (fun e => !(p e))).map fun e => (e.1, c * e.2)) =
      mulRat (rowEval beta t) c
  | [] => by simp [rowEval, zero_mulRat]
  | e :: t => by
    have ih := rowEval_scale_partition beta p c t
    rw [rowEval_cons, mulRat_add_left]
    have hcoeff : mulRat (beta e.1) (c * e.2) = mulRat (mulRat (beta e.1) e.2) c := by
      rw [mul_comm, mulRat_mul]
    rw [List.filter_cons, List.filter_cons]
    cases hp : p e
    · rw [if_neg (by simp [hp]), if_pos (by simp [hp]), List.map_cons,
        rowEval_cons, hcoeff]
      rw [← ih]
      abel
    · rw [if_pos (by simp [hp]), if_neg (by simp [hp]), List.map_cons,
        rowEval_cons, hcoeff]
      rw [← ih]
      abel

theorem rowEval_combine (beta : Nat → DeltaRational)
    {r t : List (Nat × Rat)} (c : Rat)
    (hr : (r.map Prod.fst).Nodup) (ht : (t.map Prod.fst).Nodup) :
    rowEval beta (combineRows r c t) = rowEval beta r + mulRat (rowEval beta t) c := by
  unfold combineRows
  rw [rowEval_append, rowEval_filter_nz, rowEval_filter_nz]
  have heta : r.map (fun e => ((e.1 : Nat), (e.2 : Rat))) = r := by
    simp
  have hA : rowEval beta (r.map fun e => (e.1, e.2 + c * lookupCoeff t e.1)) =
      rowEval beta r +
        rowEval beta (r.map fun e => (e.1, c * lookupCoeff t e.1)) := by
    rw [rowEval_map_coeff_add beta (fun e => e.2)
      (fun e => c * lookupCoeff t e.1) r, heta]
  rw [hA, rowEval_lookup_filter beta c t hr ht]
  have hpred : (fun (e : Nat × Rat) => decide ¬(hasVar r e.1 = true)) =
      fun e => !(hasVar r e.1) := by
    funext e
    simp
  have := rowEval_scale_partition beta (fun e => hasVar r e.1) c t
  rw [add_assoc]
  congr 1
  rw [hpred]
  exact this

/-! ### Tableau lookup facts -/

theorem isBasicMember_iff (tab : Tableau) (x : Nat) :
    isBasicMember tab x = true ↔ ∃ r ∈ tab, r.basic = x := by
  simp [isBasicMember]

theorem isBasicMember_false_iff (tab : Tableau) (x : Nat) :
    isBasicMember tab x = false ↔ ∀ r ∈ tab, r.basic ≠ x := by
  rw [← Bool.not_eq_true, isBasicMember_iff]
  push_neg
  rfl

theorem lookup_mem {tab : Tableau} {x : Nat} (h : isBasicMember tab x = true) :
    Tableau.lookup tab x ∈ tab ∧ (Tableau.lookup tab x).basic = x := by
  rw [isBasicMember_iff] at h
  obtain ⟨r, hr, hx⟩ := h
  have hsome : (tab.find? (fun r => r.basic = x)).isSome := by
    rw [List.find?_isSome]
    exact ⟨r, hr, by simpa using hx⟩
  obtain ⟨r', hr'⟩ := Option.isSome_iff_exists.mp hsome
  have hkey : r'.basic = x := by simpa using List.find?_some hr'
  have hmem : r' ∈ tab := List.mem_of_find?_eq_some hr'
  have : Tableau.lookup tab x = r' := by unfold Tableau.lookup; rw [hr']
  rw [this]
  exact ⟨hmem, hkey⟩

theorem lookup_eq_of_mem : ∀ {tab : Tableau}, (tab.map Row.basic).Nodup →
    ∀ {r : Row}, r ∈ tab → Tableau.lookup tab r.basic = r := by
  intro tab
  induction tab with
  | nil =>
    intro _ r hr
    simp at hr
  | cons r' rest ih =>
    intro hnodup r hr
    rw [List.map_cons, List.nodup_cons] at hnodup
    rcases List.mem_cons.mp hr with heq | hrest
    · rw [heq]
      unfold Tableau.lookup
      rw [List.find?_cons_of_pos _ (by simp [heq])]
    · have hne : r'.basic ≠ r.basic := by
        intro h
        exact hnodup.1 (h ▸ List.mem_map_of_mem Row.basic hrest)
      unfold Tableau.lookup
      rw [List.find?_cons_of_neg _ (by simpa using hne)]
      exact ih hnodup.2 hrest

theorem getRowCount_le (tab : Tableau) (x : Nat) :
    Tableau.getRowCount tab x ≤ tab.length :=
  List.length_filter_le _ _

/-! ### Helpers for the pivot proofs -/

theorem mulRat_one (a : DeltaRational) : mulRat a 1 = a := by
  unfold mulRat
  apply Prod.ext <;> simp

theorem rowEval_split (beta beta' : Nat → DeltaRational) (l : List (Nat × Rat)) :
    rowEval beta' l = rowEval beta l +
      rowEval (fun y => beta' y - beta y) l := by
  have h : rowEval beta' l = rowEval (fun y => beta y + (beta' y - beta y)) l := by
    apply rowEval_congr
    intro e _
    abel
  rw [h, rowEval_add_fun]

theorem keys_filter_nodup {l : List (Nat × Rat)} (p : Nat × Rat → Bool)
    (h : (l.map Prod.fst).Nodup) : ((l.filter p).map Prod.fst).Nodup :=
  List.Nodup.sublist (List.Sublist.map Prod.fst (List.filter_sublist l)) h

theorem hasVar_key_iff (es : List (Nat × Rat)) (x : Nat) :
    hasVar es x = true ↔ x ∈ es.map Prod.fst := by
  rw [hasVar_iff]
  simp [List.mem_map]

theorem map_keys_eq (l : List (Nat × Rat)) (g : Nat × Rat → Rat) :
    (l.map (fun e => ((e.1 : Nat), g e))).map Prod.fst = l.map Prod.fst := by
  rw [List.map_map]
  rfl

theorem basic_inj : ∀ {tab : Tableau}, (tab.map Row.basic).Nodup →
    ∀ {r1 r2 : Row}, r1 ∈ tab → r2 ∈ tab → r1.basic = r2.basic → r1 = r2 := by
  intro tab
  induction tab with
  | nil =>
    intro _ r1 r2 h1
    simp at h1
  | cons r rest ih =>
    intro hnodup r1 r2 h1 h2 heq
    rw [List.map_cons, List.nodup_cons] at hnodup
    rcases List.mem_cons.mp h1 with e1 | m1 <;> rcases List.mem_cons.mp h2 with e2 | m2
    · rw [e1, e2]
    · exfalso
      apply hnodup.1
      have : r.basic = r2.basic := by rw [← e1]; exact heq
      rw [this]
      exact List.mem_map_of_mem Row.basic m2
    · exfalso
      apply hnodup.1
      have : r.basic = r1.basic := by rw [← e2]; exact heq.symm
      rw [this]
      exact List.mem_map_of_mem Row.basic m1
    · exact ih hnodup.2 m1 m2 heq

theorem pivotRow_keys (r : Row) (xj : Nat) :
    (pivotRow r xj).entries.map Prod.fst = r.entries.map Prod.fst := by
  simp [pivotRow]

theorem pivotRow_eval (beta : Nat → DeltaRational) (r : Row) (xj : Nat) :
    rowEval beta (pivotRow r xj).entries =
      mulRat (rowEval beta r.entries) (-(lookupCoeff r.entries xj)⁻¹) := by
  unfold pivotRow
  exact rowEval_map_scale beta _ r.entries

theorem pivotRow_basic_mem {r : Row} {xj : Nat} {aij : Rat}
    (hmem : (xj, aij) ∈ r.entries) (hnz : aij ≠ 0)
    (haij : lookupCoeff r.entries xj = aij) :
    (xj, (-1 : Rat)) ∈ (pivotRow r xj).entries := by
  unfold pivotRow
  have : ((xj : Nat), aij * (-(lookupCoeff r.entries xj)⁻¹)) ∈
      r.entries.map (fun e => (e.1, e.2 * (-(lookupCoeff r.entries xj)⁻¹))) :=
    List.mem_map_of_mem _ hmem
  have hval : aij * (-(lookupCoeff r.entries xj)⁻¹) = -1 := by
    rw [haij]
    field_simp
  rw [hval] at this
  exact this

theorem combineRows_keys_sub {r t : List (Nat × Rat)} {c : Rat} {k : Nat}
    (h : k ∈ (combineRows r c t).map Prod.fst) :
    k ∈ r.map Prod.fst ∨ k ∈ t.map Prod.fst := by
  unfold combineRows at h
  rw [List.map_append] at h
  rcases List.mem_append.mp h with h1 | h2
  · left
    have hsub : List.Sublist (((r.map (fun e => ((e.1 : Nat), e.2 + c * lookupCoeff t e.1))).filter
        (fun e => e.2 ≠ 0)).map Prod.fst) (r.map Prod.fst) := by
      have := List.Sublist.map Prod.fst
        (List.filter_sublist (l := r.map (fun e => ((e.1 : Nat),
          e.2 + c * lookupCoeff t e.1))) (p := fun e => e.2 ≠ 0))
      rw [map_keys_eq] at this
      exact this
    exact hsub.mem h1
  · right
    have hsub : List.Sublist ((((t.filter (fun e => ¬ hasVar r e.1)).map
        (fun e => ((e.1 : Nat), c * e.2))).filter
          (fun e => e.2 ≠ 0)).map Prod.fst) (t.map Prod.fst) := by
      have h1 := List.Sublist.map Prod.fst
        (List.filter_sublist (l := (t.filter (fun e => ¬ hasVar r e.1)).map
          (fun e => ((e.1 : Nat), c * e.2))) (p := fun e => e.2 ≠ 0))
      rw [map_keys_eq] at h1
      have h2 := List.Sublist.map Prod.fst
        (List.filter_sublist (l := t) (p := fun e => ¬ hasVar r e.1))
      exact h1.trans h2
    exact hsub.mem h2

theorem combineRows_keys_nodup {r t : List (Nat × Rat)} (c : Rat)
    (hr : (r.map Prod.fst).Nodup) (ht : (t.map Prod.fst).Nodup) :
    ((combineRows r c t).map Prod.fst).Nodup := by
  unfold combineRows
  rw [List.map_append]
  apply List.Nodup.append
  · have hkeys : ((r.map (fun e => ((e.1 : Nat), e.2 + c * lookupCoeff t e.1))).map
        Prod.fst).Nodup := by
      rw [map_keys_eq]
      exact hr
    exact List.Nodup.sublist
      (List.Sublist.map Prod.fst (List.filter_sublist _)) hkeys
  · have hmapped : (((t.filter (fun e => ¬ hasVar r e.1)).map
        (fun e => ((e.1 : Nat), c * e.2))).map Prod.fst).Nodup := by
      rw [map_keys_eq]
      exact keys_filter_nodup _ ht
    exact List.Nodup.sublist
      (List.Sublist.map Prod.fst (List.filter_sublist _)) hmapped
  · intro k h1 h2
    have hkr : k ∈ r.map Prod.fst := by
      have hsub : List.Sublist (((r.map (fun e => ((e.1 : Nat),
          e.2 + c * lookupCoeff t e.1))).filter
            (fun e => e.2 ≠ 0)).map Prod.fst) (r.map Prod.fst) := by
        have := List.Sublist.map Prod.fst
          (List.filter_sublist (l := r.map (fun e => ((e.1 : Nat),
            e.2 + c * lookupCoeff t e.1))) (p := fun e => e.2 ≠ 0))
        rw [map_keys_eq] at this
        exact this
      exact hsub.mem h1
    obtain ⟨f, hf, hkf⟩ := List.mem_map.mp h2
    have hf' : f ∈ (t.filter (fun e => ¬ hasVar r e.1)).map
        (fun e => ((e.1 : Nat), c * e.2)) := List.mem_of_mem_filter hf
    obtain ⟨f0, hf0, heqf⟩ := List.mem_map.mp hf'
    have hfilter := List.of_mem_filter hf0
    have hnot : ¬ (hasVar r f0.1 = true) := by simpa using hfilter
    apply hnot
    rw [hasVar_key_iff]
    have hk0 : f0.1 = k := by
      rw [← hkf, ← heqf]
    rw [hk0]
    exact hkr

theorem combineRows_nonzero {r t : List (Nat × Rat)} {c : Rat} :
    ∀ e ∈ combineRows r c t, e.2 ≠ 0 := by
  intro e he
  unfold combineRows at he
  rcases List.mem_append.mp he with h | h <;>
    · have := List.of_mem_filter h
      simpa using this

theorem combineRows_basic_mem {r t : List (Nat × Rat)} {c : Rat} {b : Nat}
    (hb : (b, (-1 : Rat)) ∈ r) (hnot : hasVar t b = false) :
    (b, (-1 : Rat)) ∈ combineRows r c t := by
  unfold combineRows
  apply List.mem_append_left
  apply List.mem_filter.mpr
  constructor
  · have hm : ((b : Nat), (-1 : Rat) + c * lookupCoeff t b) ∈
        r.map (fun e => (e.1, e.2 + c * lookupCoeff t e.1)) :=
      List.mem_map_of_mem _ hb
    rw [lookupCoeff_eq_zero t b hnot, mul_zero, add_zero] at hm
    exact hm
  · simp

theorem combineRows_no_xj {r t : List (Nat × Rat)} {xj : Nat}
    (hr : (r.map Prod.fst).Nodup)
    (ht_xj : lookupCoeff t xj = -1)
    (hxj_r : hasVar r xj = true) :
    hasVar (combineRows r (lookupCoeff r xj) t) xj = false := by
  rw [hasVar_false_iff]
  intro e he hkey
  unfold combineRows at he
  rcases List.mem_append.mp he with h | h
  · have hfil := List.of_mem_filter h
    have hnz : e.2 ≠ 0 := by simpa using hfil
    have he' : e ∈ r.map (fun e => ((e.1 : Nat), e.2 + lookupCoeff r xj *
        lookupCoeff t e.1)) := List.mem_of_mem_filter h
    obtain ⟨e0, he0, heq⟩ := List.mem_map.mp he'
    have hkey0 : e0.1 = xj := by
      rw [← heq] at hkey
      exact hkey
    have hcoeff : e0.2 = lookupCoeff r xj := by
      have hm : (xj, e0.2) ∈ r := by
        rw [← hkey0, Prod.mk.eta]
        exact he0
      exact (lookupCoeff_nodup hr hm).symm
    apply hnz
    have hval : e.2 = e0.2 + lookupCoeff r xj * lookupCoeff t e0.1 := by
      rw [← heq]
    rw [hval, hkey0, ht_xj, hcoeff]
    ring
  · have he' : e ∈ (t.filter (fun e => ¬ hasVar r e.1)).map
        (fun e => ((e.1 : Nat), lookupCoeff r xj * e.2)) :=
      List.mem_of_mem_filter h
    obtain ⟨e0, he0, heq⟩ := List.mem_map.mp he'
    have hfil := List.of_mem_filter he0
    have hnot : ¬ (hasVar r e0.1 = true) := by simpa using hfil
    apply hnot
    have hk0 : e0.1 = xj := by
      rw [← heq] at hkey
      exact hkey
    rw [hk0]
    exact hxj_r

theorem pivot_eq_map (tab : Tableau) (xi xj : Nat) :
    Tableau.pivot tab xi xj = tab.map (pivotF tab xi xj) := rfl

theorem pivotF_basic (tab : Tableau) (xi xj : Nat) (r : Row) :
    (pivotF tab xi xj r).basic = if r.basic = xi then xj else r.basic := by
  unfold pivotF
  by_cases hb : r.basic = xi
  · simp [hb, pivotRow]
  · by_cases hv : hasVar r.entries xj = true <;> simp [hb, hv]

theorem hasVar_eq_of_keys {es1 es2 : List (Nat × Rat)}
    (h : es1.map Prod.fst = es2.map Prod.fst) (k : Nat) :
    hasVar es1 k = hasVar es2 k := by
  cases h1 : hasVar es1 k
  · cases h2 : hasVar es2 k
    · rfl
    · exfalso
      rw [hasVar_key_iff, ← h, ← hasVar_key_iff, h1] at h2
      exact Bool.false_ne_true h2
  · rw [hasVar_key_iff, h, ← hasVar_key_iff] at h1
    exact h1.symm

/-- A pivot with a basic `x_i`, a non-basic `x_j` of its row with nonzero
coefficient, keeps the tableau well-formed. -/
theorem pivot_wf {tab : Tableau} {xi xj : Nat}
    (hWf : TableauWf tab)
    (hbasic : isBasicMember tab xi = true)
    (hxj : hasVar (Tableau.lookup tab xi).entries xj = true)
    (hne : xj ≠ xi) :
    TableauWf (Tableau.pivot tab xi xj) := by
  obtain ⟨hlen, hnodup, hrows, hcross⟩ := hWf
  obtain ⟨hrI_mem, hrI_basic⟩ := lookup_mem hbasic
  obtain ⟨hkeysI, hnzI, hbasicI, hsentI⟩ := hrows _ hrI_mem
  have hxj_mem : (xj, lookupCoeff (Tableau.lookup tab xi).entries xj) ∈
      (Tableau.lookup tab xi).entries := lookupCoeff_mem hxj
  have haij_nz : lookupCoeff (Tableau.lookup tab xi).entries xj ≠ 0 :=
    hnzI _ hxj_mem
  have hxj_nb : ∀ r' ∈ tab, r'.basic ≠ xj := by
    intro r' hr'
    exact hcross _ hrI_mem _ hxj_mem (by rw [hrI_basic]; exact hne) r' hr'
  have hxj_not_basic : xj ∉ tab.map Row.basic := by
    intro hmem
    obtain ⟨rb, hrb, hrbeq⟩ := List.mem_map.mp hmem
    exact hxj_nb rb hrb hrbeq
  have hkeysNew : (pivotRow (Tableau.lookup tab xi) xj).entries.map Prod.fst =
      (Tableau.lookup tab xi).entries.map Prod.fst := pivotRow_keys _ _
  have hnodupNew : ((pivotRow (Tableau.lookup tab xi) xj).entries.map
      Prod.fst).Nodup := hkeysNew ▸ hkeysI
  have hmemNewXj : (xj, (-1 : Rat)) ∈ (pivotRow (Tableau.lookup tab xi) xj).entries :=
    pivotRow_basic_mem hxj_mem haij_nz rfl
  have hlookNewXj : lookupCoeff (pivotRow (Tableau.lookup tab xi) xj).entries xj =
      -1 := lookupCoeff_nodup hnodupNew hmemNewXj
  have hnzNew : ∀ e ∈ (pivotRow (Tableau.lookup tab xi) xj).entries, e.2 ≠ 0 := by
    intro e he
    unfold pivotRow at he
    obtain ⟨e0, he0, heq⟩ := List.mem_map.mp he
    have hv : e.2 = e0.2 * (-(lookupCoeff (Tableau.lookup tab xi).entries xj)⁻¹) := by
      rw [← heq]
    rw [hv]
    exact mul_ne_zero (hnzI e0 he0) (neg_ne_zero.mpr (inv_ne_zero haij_nz))
  have hsentNew : ∀ e ∈ (pivotRow (Tableau.lookup tab xi) xj).entries,
      e.1 < ARITHVAR_SENTINEL := by
    intro e he
    have hk : e.1 ∈ (pivotRow (Tableau.lookup tab xi) xj).entries.map Prod.fst :=
      List.mem_map_of_mem Prod.fst he
    rw [hkeysNew] at hk
    obtain ⟨e0, he0, hk0⟩ := List.mem_map.mp hk
    exact hk0 ▸ hsentI e0 he0
  -- the key classification used by the cross-row condition
  have hkeyclass : ∀ r ∈ tab, ∀ e ∈ (pivotF tab xi xj r).entries,
      e.1 ≠ (pivotF tab xi xj r).basic →
      e.1 ≠ xj ∧ (e.1 = xi ∨ e.1 ∉ tab.map Row.basic) := by
    intro r hr e he hne'
    have hnotbasic : ∀ {k : Nat}, k ≠ xi → (∃ r0 ∈ tab, ∃ e0 ∈ r0.entries,
        e0.1 = k ∧ k ≠ r0.basic) → k ∉ tab.map Row.basic := by
      intro k hkxi hex hmem
      obtain ⟨r0, hr0, e0, he0, hk0, hkb⟩ := hex
      obtain ⟨rb, hrb, hrbeq⟩ := List.mem_map.mp hmem
      exact hcross r0 hr0 e0 he0 (by rw [hk0]; exact hkb) rb hrb (by rw [hrbeq, ← hk0])
    unfold pivotF at he hne'
    by_cases hb : r.basic = xi
    · rw [if_pos hb] at he hne'
      have hbNew : (pivotRow (Tableau.lookup tab xi) xj).basic = xj := rfl
      rw [hbNew] at hne'
      refine ⟨hne', ?_⟩
      have hk : e.1 ∈ (Tableau.lookup tab xi).entries.map Prod.fst := by
        rw [← hkeysNew]
        exact List.mem_map_of_mem Prod.fst he
      obtain ⟨e0, he0, hk0⟩ := List.mem_map.mp hk
      by_cases hxi : e.1 = xi
      · exact Or.inl hxi
      · refine Or.inr (hnotbasic hxi ⟨_, hrI_mem, e0, he0, hk0, ?_⟩)
        rw [hrI_basic]
        exact hxi
    · rw [if_neg hb] at he hne'
      by_cases hv : hasVar r.entries xj = true
      · rw [if_pos hv] at he hne'
        obtain ⟨hkr, hnzr, hbr, hsr⟩ := hrows r hr
        have hxjne : e.1 ≠ xj := by
          intro hk
          have : hasVar (combineRows r.entries (lookupCoeff r.entries xj)
              (pivotRow (Tableau.lookup tab xi) xj).entries) xj = false :=
            combineRows_no_xj hkr hlookNewXj hv
          rw [hasVar_false_iff] at this
          exact this e he hk
        refine ⟨hxjne, ?_⟩
        have hk : e.1 ∈ (combineRows r.entries (lookupCoeff r.entries xj)
            (pivotRow (Tableau.lookup tab xi) xj).entries).map Prod.fst :=
          List.mem_map_of_mem Prod.fst he
        rcases combineRows_keys_sub hk with hkr' | hkt'
        · obtain ⟨e0, he0, hk0⟩ := List.mem_map.mp hkr'
          by_cases hxi : e.1 = xi
          · exact Or.inl hxi
          · refine Or.inr (hnotbasic hxi ⟨r, hr, e0, he0, hk0, hne'⟩)
        · rw [hkeysNew] at hkt'
          obtain ⟨e0, he0, hk0⟩ := List.mem_map.mp hkt'
          by_cases hxi : e.1 = xi
          · exact Or.inl hxi
          · refine Or.inr (hnotbasic hxi ⟨_, hrI_mem, e0, he0, hk0, ?_⟩)
            rw [hrI_basic]
            exact hxi
      · rw [if_neg hv] at he hne'
        have hxjne : e.1 ≠ xj := by
          intro hk
          apply hv
          rw [hasVar_iff]
          exact ⟨e, he, hk⟩
        refine ⟨hxjne, ?_⟩
        by_cases hxi : e.1 = xi
        · exact Or.inl hxi
        · exact Or.inr (hnotbasic hxi ⟨r, hr, e, he, rfl, hne'⟩)
  rw [pivot_eq_map]
  refine ⟨?_, ?_, ?_, ?_⟩
  · rw [List.length_map]
    exact hlen
  · have hbeq : (tab.map (pivotF tab xi xj)).map Row.basic =
        (tab.map Row.basic).map (fun b => if b = xi then xj else b) := by
      rw [List.map_map, List.map_map]
      apply List.map_congr_left
      intro r _
      exact pivotF_basic tab xi xj r
    rw [hbeq]
    apply List.Nodup.map_on _ hnodup
    intro b1 hb1 b2 hb2 heq
    by_cases h1 : b1 = xi <;> by_cases h2 : b2 = xi
    · rw [h1, h2]
    · rw [if_pos h1, if_neg h2] at heq
      exact absurd (heq ▸ hb2) hxj_not_basic
    · rw [if_neg h1, if_pos h2] at heq
      exact absurd (heq ▸ hb1) hxj_not_basic
    · rw [if_neg h1, if_neg h2] at heq
      exact heq
  · intro r' hr'
    obtain ⟨r, hr, hFr⟩ := List.mem_map.mp hr'
    rw [← hFr]
    unfold pivotF
    by_cases hb : r.basic = xi
    · rw [if_pos hb]
      exact ⟨hnodupNew, hnzNew, hmemNewXj, hsentNew⟩
    · rw [if_neg hb]
      by_cases hv : hasVar r.entries xj = true
      · rw [if_pos hv]
        obtain ⟨hkr, hnzr, hbr, hsr⟩ := hrows r hr
        refine ⟨combineRows_keys_nodup _ hkr hnodupNew,
          combineRows_nonzero, ?_, ?_⟩
        · apply combineRows_basic_mem hbr
          rw [hasVar_eq_of_keys hkeysNew]
          rw [hasVar_false_iff]
          intro e0 he0 hk0
          by_cases hxi : e0.1 = xi
          · exact hb (by rw [← hk0, hxi])
          · exact hcross _ hrI_mem e0 he0 (by rw [hrI_basic]; exact hxi) r hr
              (by rw [hk0])
        · intro e he
          have hk : e.1 ∈ (combineRows r.entries (lookupCoeff r.entries xj)
              (pivotRow (Tableau.lookup tab xi) xj).entries).map Prod.fst :=
            List.mem_map_of_mem Prod.fst he
          rcases combineRows_keys_sub hk with hkr' | hkt'
          · obtain ⟨e0, he0, hk0⟩ := List.mem_map.mp hkr'
            exact hk0 ▸ hsr e0 he0
          · rw [hkeysNew] at hkt'
            obtain ⟨e0, he0, hk0⟩ := List.mem_map.mp hkt'
            exact hk0 ▸ hsentI e0 he0
      · rw [if_neg hv]
        exact hrows r hr
  · intro r' hr' e' he' hne' r'' hr''
    obtain ⟨r, hr, hFr⟩ := List.mem_map.mp hr'
    obtain ⟨r2, hr2, hFr2⟩ := List.mem_map.mp hr''
    rw [← hFr] at he' hne'
    rw [← hFr2]
    obtain ⟨hxjne, hclass⟩ := hkeyclass r hr e' he' hne'
    rw [pivotF_basic]
    by_cases hb2 : r2.basic = xi
    · rw [if_pos hb2]
      exact fun h => hxjne h.symm
    · rw [if_neg hb2]
      rcases hclass with hxi | hnb
      · rw [hxi]
        exact hb2
      · intro h
        exact hnb (h ▸ List.mem_map_of_mem Row.basic hr2)

/-- A pivot preserves the tableau equations: if the old assignment satisfied
every row and the new assignment is the one `pivotAndUpdate` installs, then
the new assignment satisfies every pivoted row. -/
theorem pivot_inv {tab : Tableau} {xi xj : Nat} {v theta : DeltaRational}
    {beta beta' : Nat → DeltaRational}
    (hWf : TableauWf tab)
    (hbasic : isBasicMember tab xi = true)
    (hxj : hasVar (Tableau.lookup tab xi).entries xj = true)
    (hne : xj ≠ xi)
    (hInv : ∀ r ∈ tab, rowEval beta r.entries = 0)
    (hth : theta = mulRat (v - beta xi)
      (lookupCoeff (Tableau.lookup tab xi).entries xj)⁻¹)
    (hbxi : beta' xi = v)
    (hbxj : beta' xj = beta xj + theta)
    (hbk : ∀ r ∈ tab, r.basic ≠ xi → hasVar r.entries xj = true →
      beta' r.basic = beta r.basic + mulRat theta (lookupCoeff r.entries xj))
    (hbk0 : ∀ r ∈ tab, r.basic ≠ xi → hasVar r.entries xj = false →
      beta' r.basic = beta r.basic)
    (hother : ∀ y, y ≠ xi → y ≠ xj → y ∉ tab.map Row.basic →
      beta' y = beta y) :
    ∀ r' ∈ Tableau.pivot tab xi xj, rowEval beta' r'.entries = 0 := by
  obtain ⟨hlen, hnodup, hrows, hcross⟩ := hWf
  obtain ⟨hrI_mem, hrI_basic⟩ := lookup_mem hbasic
  obtain ⟨hkeysI, hnzI, hbasicI, hsentI⟩ := hrows _ hrI_mem
  have hxj_mem : (xj, lookupCoeff (Tableau.lookup tab xi).entries xj) ∈
      (Tableau.lookup tab xi).entries := lookupCoeff_mem hxj
  have haij_nz : lookupCoeff (Tableau.lookup tab xi).entries xj ≠ 0 :=
    hnzI _ hxj_mem
  have hxj_nb : ∀ r' ∈ tab, r'.basic ≠ xj := by
    intro r' hr'
    exact hcross _ hrI_mem _ hxj_mem (by rw [hrI_basic]; exact hne) r' hr'
  have hkeysNew : (pivotRow (Tableau.lookup tab xi) xj).entries.map Prod.fst =
      (Tableau.lookup tab xi).entries.map Prod.fst := pivotRow_keys _ _
  have hnodupNew : ((pivotRow (Tableau.lookup tab xi) xj).entries.map
      Prod.fst).Nodup := hkeysNew ▸ hkeysI
  have hnotbasic : ∀ {r : Row}, r ∈ tab → ∀ {e : Nat × Rat}, e ∈ r.entries →
      e.1 ≠ r.basic → e.1 ∉ tab.map Row.basic := by
    intro r hr e he hne' hmem
    obtain ⟨rb, hrb, hrbeq⟩ := List.mem_map.mp hmem
    exact hcross r hr e he hne' rb hrb hrbeq
  have hkey_ne_xi : ∀ {r : Row}, r ∈ tab → ∀ {e : Nat × Rat}, e ∈ r.entries →
      e.1 ≠ r.basic → e.1 ≠ xi := by
    intro r hr e he hne' hxi
    exact hcross r hr e he hne' _ hrI_mem (by rw [hrI_basic, hxi])
  have hdelta : ∀ y, beta' y - beta y = 0 → beta' y = beta y := by
    intro y h
    have := sub_eq_zero.mp h
    exact this
  have hcancel : mulRat theta (lookupCoeff (Tableau.lookup tab xi).entries xj) =
      v - beta xi := by
    rw [hth, ← mulRat_mul, inv_mul_cancel₀ haij_nz, mulRat_one]
  -- Fact A: the old row of xi still evaluates to zero under the new assignment
  have hA : rowEval beta' (Tableau.lookup tab xi).entries = 0 := by
    rw [rowEval_split beta beta', hInv _ hrI_mem, zero_add]
    have hmem_xi : ((xi : Nat), (-1 : Rat)) ∈ (Tableau.lookup tab xi).entries := by
      have hm := hbasicI
      rw [hrI_basic] at hm
      exact hm
    rw [rowEval_extract hkeysI hmem_xi]
    have hkeys1 : (((Tableau.lookup tab xi).entries.filter
        (fun e => e.1 ≠ xi)).map Prod.fst).Nodup := keys_filter_nodup _ hkeysI
    have hmem_xj : ((xj : Nat), lookupCoeff (Tableau.lookup tab xi).entries xj) ∈
        (Tableau.lookup tab xi).entries.filter (fun e => e.1 ≠ xi) :=
      List.mem_filter.mpr ⟨hxj_mem, by simpa using hne⟩
    rw [rowEval_extract hkeys1 hmem_xj]
    have hrest : rowEval (fun y => beta' y - beta y)
        (((Tableau.lookup tab xi).entries.filter (fun e => e.1 ≠ xi)).filter
          (fun e => e.1 ≠ xj)) = 0 := by
      apply rowEval_zero_fun
      intro e he
      have hxj' : e.1 ≠ xj := by simpa using List.of_mem_filter he
      have he1 : e ∈ (Tableau.lookup tab xi).entries.filter (fun e => e.1 ≠ xi) :=
        List.mem_of_mem_filter he
      have hxi' : e.1 ≠ xi := by simpa using List.of_mem_filter he1
      have he2 : e ∈ (Tableau.lookup tab xi).entries := List.mem_of_mem_filter he1
      have hnb : e.1 ∉ tab.map Row.basic :=
        hnotbasic hrI_mem he2 (by rw [hrI_basic]; exact hxi')
      rw [hother e.1 hxi' hxj' hnb]
      abel
    rw [hrest, add_zero]
    have hdxi : beta' xi - beta xi = v - beta xi := by rw [hbxi]
    have hdxj : beta' xj - beta xj = theta := by rw [hbxj]; abel
    rw [hdxi, hdxj, hcancel, mulRat_neg_one]
    abel
  -- Fact B: the new row of xj evaluates to zero
  have hB : rowEval beta' (pivotRow (Tableau.lookup tab xi) xj).entries = 0 := by
    rw [pivotRow_eval, hA, zero_mulRat]
  intro r' hr'
  rw [pivot_eq_map] at hr'
  obtain ⟨r, hr, hFr⟩ := List.mem_map.mp hr'
  rw [← hFr]
  unfold pivotF
  by_cases hb : r.basic = xi
  · rw [if_pos hb]
    exact hB
  · rw [if_neg hb]
    obtain ⟨hkr, hnzr, hbr, hsr⟩ := hrows r hr
    by_cases hv : hasVar r.entries xj = true
    · rw [if_pos hv]
      have hc : rowEval beta' (combineRows r.entries (lookupCoeff r.entries xj)
          (pivotRow (Tableau.lookup tab xi) xj).entries) =
          rowEval beta' r.entries +
            mulRat (rowEval beta' (pivotRow (Tableau.lookup tab xi) xj).entries)
              (lookupCoeff r.entries xj) :=
        rowEval_combine beta' _ hkr hnodupNew
      rw [hc, hB, zero_mulRat, add_zero]
      rw [rowEval_split beta beta', hInv r hr, zero_add]
      rw [rowEval_extract hkr hbr]
      have hkeys1 : ((r.entries.filter (fun e => e.1 ≠ r.basic)).map
          Prod.fst).Nodup := keys_filter_nodup _ hkr
      have hxj_ne_basic : xj ≠ r.basic := fun h => hxj_nb r hr h.symm
      have hmem_xj : ((xj : Nat), lookupCoeff r.entries xj) ∈
          r.entries.filter (fun e => e.1 ≠ r.basic) :=
        List.mem_filter.mpr ⟨lookupCoeff_mem hv, by simpa using hxj_ne_basic⟩
      rw [rowEval_extract hkeys1 hmem_xj]
      have hrest : rowEval (fun y => beta' y - beta y)
          ((r.entries.filter (fun e => e.1 ≠ r.basic)).filter
            (fun e => e.1 ≠ xj)) = 0 := by
        apply rowEval_zero_fun
        intro e he
        have hxj' : e.1 ≠ xj := by simpa using List.of_mem_filter he
        have he1 : e ∈ r.entries.filter (fun e => e.1 ≠ r.basic) :=
          List.mem_of_mem_filter he
        have hbne : e.1 ≠ r.basic := by simpa using List.of_mem_filter he1
        have he2 : e ∈ r.entries := List.mem_of_mem_filter he1
        have hxi' : e.1 ≠ xi := hkey_ne_xi hr he2 hbne
        have hnb : e.1 ∉ tab.map Row.basic := hnotbasic hr he2 hbne
        rw [hother e.1 hxi' hxj' hnb]
        abel
      rw [hrest, add_zero]
      have hdb : beta' r.basic - beta r.basic =
          mulRat theta (lookupCoeff r.entries xj) := by
        rw [hbk r hr hb hv]
        abel
      have hdxj : beta' xj - beta xj = theta := by rw [hbxj]; abel
      rw [hdb, hdxj, mulRat_neg_one]
      abel
    · rw [if_neg hv]
      have hvf : hasVar r.entries xj = false := by
        revert hv
        cases hasVar r.entries xj <;> simp
      rw [rowEval_split beta beta', hInv r hr, zero_add]
      apply rowEval_zero_fun
      intro e he
      by_cases hbe : e.1 = r.basic
      · rw [hbe, hbk0 r hr hb hvf]
        abel
      · have hxj' : e.1 ≠ xj := by
          intro hk
          rw [hasVar_false_iff] at hvf
          exact hvf e he hk
        have hxi' : e.1 ≠ xi := hkey_ne_xi hr he hbe
        have hnb : e.1 ∉ tab.map Row.basic := hnotbasic hr he hbe
        rw [hother e.1 hxi' hxj' hnb]
        abel

/-! ### State projections of the loop bodies -/

theorem cBV_fields (s : SimplexState) (b : Nat) :
    (checkBasicVariable s b).tableau = s.tableau ∧
    (checkBasicVariable s b).pm = s.pm ∧
    (checkBasicVariable s b).activity = s.activity ∧
    (checkBasicVariable s b).pivotStage = s.pivotStage ∧
    (checkBasicVariable s b).foundAConflict = s.foundAConflict ∧
    (checkBasicVariable s b).pivotsSinceConflict = s.pivotsSinceConflict ∧
    (checkBasicVariable s b).numVariables = s.numVariables ∧
    (checkBasicVariable s b).stats = s.stats ∧
    (checkBasicVariable s b).sink = s.sink := by
  unfold checkBasicVariable
  split
  · exact ⟨rfl, rfl, rfl, rfl, rfl, rfl, rfl, rfl, rfl⟩
  · split <;> exact ⟨rfl, rfl, rfl, rfl, rfl, rfl, rfl, rfl, rfl⟩

theorem pivotLoopGo_fields (x_i x_j : Nat) (theta : DeltaRational) :
    ∀ (L : List Row) (s : SimplexState),
    (pivotLoopGo x_i x_j theta L s).tableau = s.tableau ∧
    (pivotLoopGo x_i x_j theta L s).pm.lowerBound = s.pm.lowerBound ∧
    (pivotLoopGo x_i x_j theta L s).pm.upperBound = s.pm.upperBound ∧
    (pivotLoopGo x_i x_j theta L s).pm.lowerConstraint = s.pm.lowerConstraint ∧
    (pivotLoopGo x_i x_j theta L s).pm.upperConstraint = s.pm.upperConstraint ∧
    (pivotLoopGo x_i x_j theta L s).pivotStage = s.pivotStage ∧
    (pivotLoopGo x_i x_j theta L s).foundAConflict = s.foundAConflict ∧
    (pivotLoopGo x_i x_j theta L s).pivotsSinceConflict = s.pivotsSinceConflict ∧
    (pivotLoopGo x_i x_j theta L s).numVariables = s.numVariables ∧
    (pivotLoopGo x_i x_j theta L s).stats = s.stats ∧
    (pivotLoopGo x_i x_j theta L s).sink = s.sink
  | [], s => ⟨rfl, rfl, rfl, rfl, rfl, rfl, rfl, rfl, rfl, rfl, rfl⟩
  | r :: rest, s => by
    rw [pivotLoopGo]
    by_cases hcond : r.basic ≠ x_i ∧ hasVar r.entries x_j = true
    · rw [if_pos hcond]
      have ih := pivotLoopGo_fields x_i x_j theta rest
        (checkBasicVariable { s with
          pm := s.pm.setAssignment r.basic
            (s.pm.assignment r.basic + mulRat theta (lookupCoeff r.entries x_j))
          activity := fun y => if y = x_j then s.activity y + 1 else s.activity y }
          r.basic)
      obtain ⟨c1, c2, c3, c4, c5, c6, c7, c8, c9⟩ := cBV_fields { s with
          pm := s.pm.setAssignment r.basic
            (s.pm.assignment r.basic + mulRat theta (lookupCoeff r.entries x_j))
          activity := fun y => if y = x_j then s.activity y + 1 else s.activity y }
          r.basic
      obtain ⟨i1, i2, i3, i4, i5, i6, i7, i8, i9, i10, i11⟩ := ih
      refine ⟨?_, ?_, ?_, ?_, ?_, ?_, ?_, ?_, ?_, ?_, ?_⟩
      · rw [i1, c1]
      · rw [i2, c2]
        rfl
      · rw [i3, c2]
        rfl
      · rw [i4, c2]
        rfl
      · rw [i5, c2]
        rfl
      · rw [i6, c4]
      · rw [i7, c5]
      · rw [i8, c6]
      · rw [i9, c7]
      · rw [i10, c8]
      · rw [i11, c9]
    · rw [if_neg hcond]
      exact pivotLoopGo_fields x_i x_j theta rest s

theorem pivotLoopAssign_none {L : List Row} {y : Nat}
    (x_i x_j : Nat) (theta : DeltaRational) (beta : Nat → DeltaRational)
    (h : L.find? (fun r => r.basic = y) = none) :
    pivotLoopAssign L x_i x_j theta beta y = beta y := by
  unfold pivotLoopAssign
  rw [h]

theorem pivotLoopAssign_some {L : List Row} {y : Nat} {r : Row}
    (x_i x_j : Nat) (theta : DeltaRational) (beta : Nat → DeltaRational)
    (h : L.find? (fun r => r.basic = y) = some r) :
    pivotLoopAssign L x_i x_j theta beta y =
      (if r.basic ≠ x_i ∧ hasVar r.entries x_j then
        beta y + mulRat theta (lookupCoeff r.entries x_j)
      else beta y) := by
  unfold pivotLoopAssign
  rw [h]

theorem pivotLoopGo_assignment (x_i x_j : Nat) (theta : DeltaRational) :
    ∀ (L : List Row) (s : SimplexState), (L.map Row.basic).Nodup →
    (pivotLoopGo x_i x_j theta L s).pm.assignment =
      pivotLoopAssign L x_i x_j theta s.pm.assignment
  | [], s => by
    intro _
    funext y
    rfl
  | r :: rest, s => by
    intro hnodup
    rw [List.map_cons, List.nodup_cons] at hnodup
    rw [pivotLoopGo]
    by_cases hcond : r.basic ≠ x_i ∧ hasVar r.entries x_j = true
    · rw [if_pos hcond]
      set s1 : SimplexState := { s with
        pm := s.pm.setAssignment r.basic
          (s.pm.assignment r.basic + mulRat theta (lookupCoeff r.entries x_j))
        activity := fun y => if y = x_j then s.activity y + 1 else s.activity y }
        with hs1
      have hpm : (checkBasicVariable s1 r.basic).pm = s1.pm :=
        (cBV_fields s1 r.basic).2.1
      have ih := pivotLoopGo_assignment x_i x_j theta rest
        (checkBasicVariable s1 r.basic) hnodup.2
      rw [ih]
      funext y
      rw [hpm]
      by_cases hy : r.basic = y
      · have hnone : rest.find? (fun r => r.basic = y) = none := by
          rw [List.find?_eq_none]
          intro r' hr'
          simp only [decide_eq_true_eq]
          intro heq
          exact hnodup.1 (hy ▸ heq ▸ List.mem_map_of_mem Row.basic hr')
        rw [pivotLoopAssign_none x_i x_j theta _ hnone,
          pivotLoopAssign_some x_i x_j theta _
            (List.find?_cons_of_pos _ (by simpa using hy)),
          if_pos hcond]
        have hval : s1.pm.assignment y =
            s.pm.assignment r.basic + mulRat theta (lookupCoeff r.entries x_j) := by
          simp only [hs1, PartialModel.setAssignment]
          rw [if_pos hy.symm]
        rw [hval, ← hy]
      · have hbase : s1.pm.assignment y = s.pm.assignment y := by
          simp only [hs1, PartialModel.setAssignment]
          rw [if_neg (fun h => hy h.symm)]
        have hcons : (r :: rest).find? (fun r => r.basic = y) =
            rest.find? (fun r => r.basic = y) :=
          List.find?_cons_of_neg _ (by simpa using hy)
        cases hfind : rest.find? (fun r => r.basic = y) with
        | none =>
          rw [pivotLoopAssign_none x_i x_j theta _ hfind,
            pivotLoopAssign_none x_i x_j theta _ (hcons.trans hfind), hbase]
        | some r' =>
          rw [pivotLoopAssign_some x_i x_j theta _ hfind,
            pivotLoopAssign_some x_i x_j theta _ (hcons.trans hfind), hbase]
    · rw [if_neg hcond]
      have ih := pivotLoopGo_assignment x_i x_j theta rest s hnodup.2
      rw [ih]
      funext y
      by_cases hy : r.basic = y
      · have hnone : rest.find? (fun r => r.basic = y) = none := by
          rw [List.find?_eq_none]
          intro r' hr'
          simp only [decide_eq_true_eq]
          intro heq
          exact hnodup.1 (hy ▸ heq ▸ List.mem_map_of_mem Row.basic hr')
        rw [pivotLoopAssign_none x_i x_j theta _ hnone,
          pivotLoopAssign_some x_i x_j theta _
            (List.find?_cons_of_pos _ (by simpa using hy)),
          if_neg hcond]
      · have hcons : (r :: rest).find? (fun r => r.basic = y) =
            rest.find? (fun r => r.basic = y) :=
          List.find?_cons_of_neg _ (by simpa using hy)
        cases hfind : rest.find? (fun r => r.basic = y) with
        | none =>
          rw [pivotLoopAssign_none x_i x_j theta _ hfind,
            pivotLoopAssign_none x_i x_j theta _ (hcons.trans hfind)]
        | some r' =>
          rw [pivotLoopAssign_some x_i x_j theta _ hfind,
            pivotLoopAssign_some x_i x_j theta _ (hcons.trans hfind)]


theorem updateLoopGo_fields (x_i : Nat) (diff : DeltaRational) :
    ∀ (L : List Row) (s : SimplexState),
    (updateLoopGo x_i diff L s).tableau = s.tableau ∧
    (updateLoopGo x_i diff L s).pm.lowerBound = s.pm.lowerBound ∧
    (updateLoopGo x_i diff L s).pm.upperBound = s.pm.upperBound ∧
    (updateLoopGo x_i diff L s).pm.lowerConstraint = s.pm.lowerConstraint ∧
    (updateLoopGo x_i diff L s).pm.upperConstraint = s.pm.upperConstraint ∧
    (updateLoopGo x_i diff L s).pivotStage = s.pivotStage ∧
    (updateLoopGo x_i diff L s).foundAConflict = s.foundAConflict ∧
    (updateLoopGo x_i diff L s).pivotsSinceConflict = s.pivotsSinceConflict ∧
    (updateLoopGo x_i diff L s).numVariables = s.numVariables ∧
    (updateLoopGo x_i diff L s).stats = s.stats ∧
    (updateLoopGo x_i diff L s).sink = s.sink
  | [], s => ⟨rfl, rfl, rfl, rfl, rfl, rfl, rfl, rfl, rfl, rfl, rfl⟩
  | r :: rest, s => by
    rw [updateLoopGo]
    by_cases hcond : hasVar r.entries x_i = true
    · rw [if_pos hcond]
      have ih := updateLoopGo_fields x_i diff rest
        (checkBasicVariable { s with
          pm := s.pm.setAssignment r.basic
            (s.pm.assignment r.basic + mulRat diff (lookupCoeff r.entries x_i))
          activity := fun y => if y = r.basic then s.activity y + 1 else s.activity y }
          r.basic)
      obtain ⟨c1, c2, c3, c4, c5, c6, c7, c8, c9⟩ := cBV_fields { s with
          pm := s.pm.setAssignment r.basic
            (s.pm.assignment r.basic + mulRat diff (lookupCoeff r.entries x_i))
          activity := fun y => if y = r.basic then s.activity y + 1 else s.activity y }
          r.basic
      obtain ⟨i1, i2, i3, i4, i5, i6, i7, i8, i9, i10, i11⟩ := ih
      refine ⟨?_, ?_, ?_, ?_, ?_, ?_, ?_, ?_, ?_, ?_, ?_⟩
      · rw [i1, c1]
      · rw [i2, c2]
        rfl
      · rw [i3, c2]
        rfl
      · rw [i4, c2]
        rfl
      · rw [i5, c2]
        rfl
      · rw [i6, c4]
      · rw [i7, c5]
      · rw [i8, c6]
      · rw [i9, c7]
      · rw [i10, c8]
      · rw [i11, c9]
    · rw [if_neg hcond]
      exact updateLoopGo_fields x_i diff rest s

theorem updateLoopAssign_none {L : List Row} {y : Nat}
    (x_i : Nat) (diff : DeltaRational) (beta : Nat → DeltaRational)
    (h : L.find? (fun r => r.basic = y) = none) :
    updateLoopAssign L x_i diff beta y = beta y := by
  unfold updateLoopAssign
  rw [h]

theorem updateLoopAssign_some {L : List Row} {y : Nat} {r : Row}
    (x_i : Nat) (diff : DeltaRational) (beta : Nat → DeltaRational)
    (h : L.find? (fun r => r.basic = y) = some r) :
    updateLoopAssign L x_i diff beta y =
      (if hasVar r.entries x_i then
        beta y + mulRat diff (lookupCoeff r.entries x_i)
      else beta y) := by
  unfold updateLoopAssign
  rw [h]

theorem updateLoopGo_assignment (x_i : Nat) (diff : DeltaRational) :
    ∀ (L : List Row) (s : SimplexState), (L.map Row.basic).Nodup →
    (updateLoopGo x_i diff L s).pm.assignment =
      updateLoopAssign L x_i diff s.pm.assignment
  | [], s => by
    intro _
    funext y
    rfl
  | r :: rest, s => by
    intro hnodup
    rw [List.map_cons, List.nodup_cons] at hnodup
    rw [updateLoopGo]
    by_cases hcond : hasVar r.entries x_i = true
    · rw [if_pos hcond]
      set s1 : SimplexState := { s with
        pm := s.pm.setAssignment r.basic
          (s.pm.assignment r.basic + mulRat diff (lookupCoeff r.entries x_i))
        activity := fun y => if y = r.basic then s.activity y + 1 else s.activity y }
        with hs1
      have hpm : (checkBasicVariable s1 r.basic).pm = s1.pm :=
        (cBV_fields s1 r.basic).2.1
      have ih := updateLoopGo_assignment x_i diff rest
        (checkBasicVariable s1 r.basic) hnodup.2
      rw [ih]
      funext y
      rw [hpm]
      by_cases hy : r.basic = y
      · have hnone : rest.find? (fun r => r.basic = y) = none := by
          rw [List.find?_eq_none]
          intro r' hr'
          simp only [decide_eq_true_eq]
          intro heq
          exact hnodup.1 (hy ▸ heq ▸ List.mem_map_of_mem Row.basic hr')
        rw [updateLoopAssign_none x_i diff _ hnone,
          updateLoopAssign_some x_i diff _
            (List.find?_cons_of_pos _ (by simpa using hy)),
          if_pos hcond]
        have hval : s1.pm.assignment y =
            s.pm.assignment r.basic + mulRat diff (lookupCoeff r.entries x_i) := by
          simp only [hs1, PartialModel.setAssignment]
          rw [if_pos hy.symm]
        rw [hval, ← hy]
      · have hbase : s1.pm.assignment y = s.pm.assignment y := by
          simp only [hs1, PartialModel.setAssignment]
          rw [if_neg (fun h => hy h.symm)]
        have hcons : (r :: rest).find? (fun r => r.basic = y) =
            rest.find? (fun r => r.basic = y) :=
          List.find?_cons_of_neg _ (by simpa using hy)
        cases hfind : rest.find? (fun r => r.basic = y) with
        | none =>
          rw [updateLoopAssign_none x_i diff _ hfind,
            updateLoopAssign_none x_i diff _ (hcons.trans hfind), hbase]
        | some r' =>
          rw [updateLoopAssign_some x_i diff _ hfind,
            updateLoopAssign_some x_i diff _ (hcons.trans hfind), hbase]
    · rw [if_neg hcond]
      have ih := updateLoopGo_assignment x_i diff rest s hnodup.2
      rw [ih]
      funext y
      by_cases hy : r.basic = y
      · have hnone : rest.find? (fun r => r.basic = y) = none := by
          rw [List.find?_eq_none]
          intro r' hr'
          simp only [decide_eq_true_eq]
          intro heq
          exact hnodup.1 (hy ▸ heq ▸ List.mem_map_of_mem Row.basic hr')
        rw [updateLoopAssign_none x_i diff _ hnone,
          updateLoopAssign_some x_i diff _
            (List.find?_cons_of_pos _ (by simpa using hy)),
          if_neg hcond]
      · have hcons : (r :: rest).find? (fun r => r.basic = y) =
            rest.find? (fun r => r.basic = y) :=
          List.find?_cons_of_neg _ (by simpa using hy)
        cases hfind : rest.find? (fun r => r.basic = y) with
        | none =>
          rw [updateLoopAssign_none x_i diff _ hfind,
            updateLoopAssign_none x_i diff _ (hcons.trans hfind)]
        | some r' =>
          rw [updateLoopAssign_some x_i diff _ hfind,
            updateLoopAssign_some x_i diff _ (hcons.trans hfind)]


/-! ### Characterization of `update` and `pivotAndUpdate` -/

theorem find?_basic_none {tab : Tableau} {y : Nat}
    (h : ∀ r ∈ tab, r.basic ≠ y) :
    tab.find? (fun r => r.basic = y) = none := by
  rw [List.find?_eq_none]
  intro r hr
  simpa using h r hr

theorem find?_basic : ∀ {tab : Tableau}, (tab.map Row.basic).Nodup →
    ∀ {r : Row}, r ∈ tab → tab.find? (fun r' => r'.basic = r.basic) = some r := by
  intro tab
  induction tab with
  | nil =>
    intro _ r hr
    simp at hr
  | cons r' rest ih =>
    intro hnodup r hr
    rw [List.map_cons, List.nodup_cons] at hnodup
    rcases List.mem_cons.mp hr with heq | hrest
    · rw [heq]
      exact List.find?_cons_of_pos _ (by simp)
    · have hne : r'.basic ≠ r.basic := by
        intro h
        exact hnodup.1 (h ▸ List.mem_map_of_mem Row.basic hrest)
      rw [List.find?_cons_of_neg _ (by simpa using hne)]
      exact ih hnodup.2 hrest

theorem papAssign_fields (s : SimplexState) (x_i x_j : Nat) (v : DeltaRational) :
    (papAssign s x_i x_j v).tableau = s.tableau ∧
    (papAssign s x_i x_j v).pm.lowerBound = s.pm.lowerBound ∧
    (papAssign s x_i x_j v).pm.upperBound = s.pm.upperBound ∧
    (papAssign s x_i x_j v).pm.lowerConstraint = s.pm.lowerConstraint ∧
    (papAssign s x_i x_j v).pm.upperConstraint = s.pm.upperConstraint ∧
    (papAssign s x_i x_j v).pivotStage = s.pivotStage ∧
    (papAssign s x_i x_j v).foundAConflict = s.foundAConflict ∧
    (papAssign s x_i x_j v).pivotsSinceConflict = s.pivotsSinceConflict ∧
    (papAssign s x_i x_j v).numVariables = s.numVariables ∧
    (papAssign s x_i x_j v).stats = s.stats ∧
    (papAssign s x_i x_j v).sink = s.sink := by
  unfold papAssign
  obtain ⟨l1, l2, l3, l4, l5, l6, l7, l8, l9, l10, l11⟩ :=
    pivotLoopGo_fields x_i x_j
      (mulRat (v - s.pm.assignment x_i)
        (lookupCoeff (Tableau.lookup s.tableau x_i).entries x_j)⁻¹)
      s.tableau
      { s with pm := ((s.pm.setAssignment x_i v).setAssignment x_j
          ((s.pm.setAssignment x_i v).assignment x_j +
            mulRat (v - s.pm.assignment x_i)
              (lookupCoeff (Tableau.lookup s.tableau x_i).entries x_j)⁻¹)) }
  refine ⟨?_, ?_, ?_, ?_, ?_, ?_, ?_, ?_, ?_, ?_, ?_⟩
  · rw [l1]
  · rw [l2]
    rfl
  · rw [l3]
    rfl
  · rw [l4]
    rfl
  · rw [l5]
    rfl
  · rw [l6]
  · rw [l7]
  · rw [l8]
  · rw [l9]
  · rw [l10]
  · rw [l11]

theorem papStats_fields (s : SimplexState) :
    (papStats s).tableau = s.tableau ∧
    (papStats s).pm = s.pm ∧
    (papStats s).pivotStage = s.pivotStage ∧
    (papStats s).foundAConflict = s.foundAConflict ∧
    (papStats s).numVariables = s.numVariables ∧
    (papStats s).stats.pivots = s.stats.pivots + 1 ∧
    (papStats s).sink = s.sink := by
  unfold papStats
  split <;> exact ⟨rfl, rfl, rfl, rfl, rfl, rfl, rfl⟩

theorem papConflictCheck_fields (s : SimplexState) (x_j : Nat) :
    (papConflictCheck s x_j).tableau = s.tableau ∧
    (papConflictCheck s x_j).pm = s.pm ∧
    (papConflictCheck s x_j).pivotStage = s.pivotStage ∧
    (papConflictCheck s x_j).numVariables = s.numVariables ∧
    (papConflictCheck s x_j).stats = s.stats ∧
    (papConflictCheck s x_j).sink = s.sink := by
  unfold papConflictCheck
  split
  · exact ⟨rfl, rfl, rfl, rfl, rfl, rfl⟩
  · split
    · split <;> exact ⟨rfl, rfl, rfl, rfl, rfl, rfl⟩
    · split
      · split <;> exact ⟨rfl, rfl, rfl, rfl, rfl, rfl⟩
      · exact ⟨rfl, rfl, rfl, rfl, rfl, rfl⟩

theorem pivotAndUpdate_fields (s : SimplexState) (x_i x_j : Nat)
    (v : DeltaRational) :
    (pivotAndUpdate s x_i x_j v).tableau = Tableau.pivot s.tableau x_i x_j ∧
    (pivotAndUpdate s x_i x_j v).pm.lowerBound = s.pm.lowerBound ∧
    (pivotAndUpdate s x_i x_j v).pm.upperBound = s.pm.upperBound ∧
    (pivotAndUpdate s x_i x_j v).pm.lowerConstraint = s.pm.lowerConstraint ∧
    (pivotAndUpdate s x_i x_j v).pm.upperConstraint = s.pm.upperConstraint ∧
    (pivotAndUpdate s x_i x_j v).pivotStage = s.pivotStage ∧
    (pivotAndUpdate s x_i x_j v).numVariables = s.numVariables ∧
    (pivotAndUpdate s x_i x_j v).stats.pivots = s.stats.pivots + 1 ∧
    (pivotAndUpdate s x_i x_j v).pm.assignment =
      (papAssign s x_i x_j v).pm.assignment := by
  obtain ⟨a1, a2, a3, a4, a5, a6, a7, a8, a9, a10, a11⟩ :=
    papAssign_fields s x_i x_j v
  obtain ⟨b1, b2, b3, b4, b5, b6, b7⟩ := papStats_fields (papAssign s x_i x_j v)
  set S3 : SimplexState := { papStats (papAssign s x_i x_j v) with
    tableau := Tableau.pivot (papStats (papAssign s x_i x_j v)).tableau x_i x_j }
    with hS3
  obtain ⟨c1, c2, c3, c4, c5, c6, c7, c8, c9⟩ := cBV_fields S3 x_j
  obtain ⟨d1, d2, d3, d4, d5, d6⟩ :=
    papConflictCheck_fields (checkBasicVariable S3 x_j) x_j
  have hfin : pivotAndUpdate s x_i x_j v =
      papConflictCheck (checkBasicVariable S3 x_j) x_j := rfl
  refine ⟨?_, ?_, ?_, ?_, ?_, ?_, ?_, ?_, ?_⟩
  · rw [hfin, d1, c1, hS3]
    show Tableau.pivot (papStats (papAssign s x_i x_j v)).tableau x_i x_j = _
    rw [b1, a1]
  · rw [hfin, d2, c2, hS3]
    show (papStats (papAssign s x_i x_j v)).pm.lowerBound = _
    rw [b2, a2]
  · rw [hfin, d2, c2, hS3]
    show (papStats (papAssign s x_i x_j v)).pm.upperBound = _
    rw [b2, a3]
  · rw [hfin, d2, c2, hS3]
    show (papStats (papAssign s x_i x_j v)).pm.lowerConstraint = _
    rw [b2, a4]
  · rw [hfin, d2, c2, hS3]
    show (papStats (papAssign s x_i x_j v)).pm.upperConstraint = _
    rw [b2, a5]
  · rw [hfin, d3, c4, hS3]
    show (papStats (papAssign s x_i x_j v)).pivotStage = _
    rw [b3, a6]
  · rw [hfin, d4, c7, hS3]
    show (papStats (papAssign s x_i x_j v)).numVariables = _
    rw [b5, a9]
  · rw [hfin, d5, c8, hS3]
    show (papStats (papAssign s x_i x_j v)).stats.pivots = _
    rw [b6, a10]
  · rw [hfin, d2, c2, hS3]
    show (papStats (papAssign s x_i x_j v)).pm.assignment = _
    rw [b2]

theorem pivotAndUpdate_assignment (s : SimplexState) (x_i x_j : Nat)
    (v : DeltaRational)
    (hnodup : (s.tableau.map Row.basic).Nodup)
    (hnbj : isBasicMember s.tableau x_j = false)
    (hne : x_j ≠ x_i) :
    (pivotAndUpdate s x_i x_j v).pm.assignment = fun y =>
      if y = x_j then s.pm.assignment x_j +
        mulRat (v - s.pm.assignment x_i)
          (lookupCoeff (Tableau.lookup s.tableau x_i).entries x_j)⁻¹
      else if y = x_i then v
      else pivotLoopAssign s.tableau x_i x_j
        (mulRat (v - s.pm.assignment x_i)
          (lookupCoeff (Tableau.lookup s.tableau x_i).entries x_j)⁻¹)
        s.pm.assignment y := by
  rw [(pivotAndUpdate_fields s x_i x_j v).2.2.2.2.2.2.2.2]
  unfold papAssign
  rw [pivotLoopGo_assignment _ _ _ _ _ hnodup]
  rw [isBasicMember_false_iff] at hnbj
  funext y
  by_cases hyj : y = x_j
  · rw [hyj, if_pos rfl]
    rw [pivotLoopAssign_none _ _ _ _ (find?_basic_none hnbj)]
    show (if x_j = x_j then _ else _) = _
    rw [if_pos rfl]
    show (if x_j = x_i then v else s.pm.assignment x_j) + _ = _
    rw [if_neg hne]
  · rw [if_neg hyj]
    by_cases hyi : y = x_i
    · rw [hyi, if_pos rfl]
      cases hfind : s.tableau.find? (fun r => r.basic = x_i) with
      | none =>
        rw [pivotLoopAssign_none _ _ _ _ hfind]
        show (if x_i = x_j then _ else _) = _
        rw [if_neg (fun h => hne h.symm)]
        show (if x_i = x_i then v else _) = _
        rw [if_pos rfl]
      | some r =>
        rw [pivotLoopAssign_some _ _ _ _ hfind]
        have hrb : r.basic = x_i := by simpa using List.find?_some hfind
        rw [if_neg (fun hc => hc.1 hrb)]
        show (if x_i = x_j then _ else _) = _
        rw [if_neg (fun h => hne h.symm)]
        show (if x_i = x_i then v else _) = _
        rw [if_pos rfl]
    · rw [if_neg hyi]
      have hbase : (if y = x_j then
          ((if x_j = x_i then v else s.pm.assignment x_j) +
            mulRat (v - s.pm.assignment x_i)
              (lookupCoeff (Tableau.lookup s.tableau x_i).entries x_j)⁻¹)
          else if y = x_i then v else s.pm.assignment y) = s.pm.assignment y := by
        rw [if_neg hyj, if_neg hyi]
      cases hfind : s.tableau.find? (fun r => r.basic = y) with
      | none =>
        rw [pivotLoopAssign_none _ _ _ _ hfind,
          pivotLoopAssign_none _ _ _ _ hfind]
        exact hbase
      | some r =>
        rw [pivotLoopAssign_some _ _ _ _ hfind,
          pivotLoopAssign_some _ _ _ _ hfind]
        show (if _ then (if y = x_j then _ else if y = x_i then _ else _) + _
          else (if y = x_j then _ else if y = x_i then _ else _)) = _
        rw [if_neg hyj, if_neg hyi]

/-- The `pivotAndUpdate` preserves well-formedness and the tableau equations. -/
theorem pivotAndUpdate_inv (s : SimplexState) (x_i x_j : Nat) (v : DeltaRational)
    (hWf : TableauWf s.tableau)
    (hbasic : isBasicMember s.tableau x_i = true)
    (hxj : hasVar (Tableau.lookup s.tableau x_i).entries x_j = true)
    (hne : x_j ≠ x_i)
    (hnbj : isBasicMember s.tableau x_j = false)
    (hInv : ∀ r ∈ s.tableau, rowEval s.pm.assignment r.entries = 0) :
    TableauWf (pivotAndUpdate s x_i x_j v).tableau ∧
    ∀ r ∈ (pivotAndUpdate s x_i x_j v).tableau,
      rowEval (pivotAndUpdate s x_i x_j v).pm.assignment r.entries = 0 := by
  have htab := (pivotAndUpdate_fields s x_i x_j v).1
  constructor
  · rw [htab]
    exact pivot_wf hWf hbasic hxj hne
  · rw [htab, pivotAndUpdate_assignment s x_i x_j v hWf.2.1 hnbj hne]
    apply pivot_inv hWf hbasic hxj hne hInv rfl
    · rw [if_neg (fun h => hne h.symm), if_pos rfl]
    · rw [if_pos rfl]
    · intro r hr hrb hhas
      have hrj : r.basic ≠ x_j := by
        intro h
        rw [isBasicMember_false_iff] at hnbj
        exact hnbj r hr h
      rw [if_neg hrj, if_neg hrb,
        pivotLoopAssign_some _ _ _ _ (find?_basic hWf.2.1 hr),
        if_pos ⟨hrb, hhas⟩]
    · intro r hr hrb hhas
      have hrj : r.basic ≠ x_j := by
        intro h
        rw [isBasicMember_false_iff] at hnbj
        exact hnbj r hr h
      rw [if_neg hrj, if_neg hrb,
        pivotLoopAssign_some _ _ _ _ (find?_basic hWf.2.1 hr),
        if_neg (fun hc => by rw [hhas] at hc; exact Bool.false_ne_true hc.2)]
    · intro y hyi hyj hynb
      rw [if_neg hyj, if_neg hyi,
        pivotLoopAssign_none _ _ _ _ (find?_basic_none (fun r hr h =>
          hynb (by
            have hm := List.mem_map_of_mem Row.basic hr
            rw [h] at hm
            exact hm)))]

theorem update_fields (s : SimplexState) (x_i : Nat) (v : DeltaRational) :
    (update s x_i v).tableau = s.tableau ∧
    (update s x_i v).pm.lowerBound = s.pm.lowerBound ∧
    (update s x_i v).pm.upperBound = s.pm.upperBound ∧
    (update s x_i v).pm.lowerConstraint = s.pm.lowerConstraint ∧
    (update s x_i v).pm.upperConstraint = s.pm.upperConstraint ∧
    (update s x_i v).pivotStage = s.pivotStage ∧
    (update s x_i v).foundAConflict = s.foundAConflict ∧
    (update s x_i v).pivotsSinceConflict = s.pivotsSinceConflict ∧
    (update s x_i v).numVariables = s.numVariables ∧
    (update s x_i v).stats.pivots = s.stats.pivots ∧
    (update s x_i v).sink = s.sink := by
  obtain ⟨l1, l2, l3, l4, l5, l6, l7, l8, l9, l10, l11⟩ :=
    updateLoopGo_fields x_i (v - s.pm.assignment x_i) s.tableau
      { s with stats := { s.stats with updates := s.stats.updates + 1 } }
  refine ⟨l1, l2, l3, l4, l5, l6, l7, l8, l9, ?_, l11⟩
  have h := congrArg Statistics.pivots l10
  exact h

theorem update_assignment (s : SimplexState) (x_i : Nat) (v : DeltaRational)
    (hnodup : (s.tableau.map Row.basic).Nodup) :
    (update s x_i v).pm.assignment = fun y =>
      if y = x_i then v
      else updateLoopAssign s.tableau x_i (v - s.pm.assignment x_i)
        s.pm.assignment y := by
  show ((updateLoopGo x_i (v - s.pm.assignment x_i) s.tableau
    { s with stats := { s.stats with
      updates := s.stats.updates + 1 } }).pm.setAssignment x_i v).assignment = _
  rw [PartialModel.setAssignment]
  show (fun y => if y = x_i then v else _) = _
  rw [updateLoopGo_assignment x_i (v - s.pm.assignment x_i) s.tableau _ hnodup]

theorem update_inv (s : SimplexState) (x_i : Nat) (v : DeltaRational)
    (hWf : TableauWf s.tableau)
    (hnb : isBasicMember s.tableau x_i = false)
    (hInv : TabSat s) :
    ∀ r ∈ s.tableau, rowEval (update s x_i v).pm.assignment r.entries = 0 := by
  obtain ⟨hlen, hnodup, hrows, hcross⟩ := hWf
  rw [isBasicMember_false_iff] at hnb
  intro r hr
  obtain ⟨hkr, hnzr, hbr, hsr⟩ := hrows r hr
  have hrbne : r.basic ≠ x_i := hnb r hr
  rw [update_assignment s x_i v hnodup]
  rw [rowEval_split s.pm.assignment _ r.entries, hInv r hr, zero_add]
  have hnotbasic : ∀ {e : Nat × Rat}, e ∈ r.entries → e.1 ≠ r.basic →
      s.tableau.find? (fun r' => r'.basic = e.1) = none := by
    intro e he hne'
    exact find?_basic_none (fun r' hr' h => hcross r hr e he hne' r' hr' h)
  by_cases hv : hasVar r.entries x_i = true
  · rw [rowEval_extract hkr hbr]
    have hkeys1 := keys_filter_nodup (fun e => e.1 ≠ r.basic) hkr
    have hmem_xi : ((x_i : Nat), lookupCoeff r.entries x_i) ∈
        r.entries.filter (fun e => e.1 ≠ r.basic) :=
      List.mem_filter.mpr ⟨lookupCoeff_mem hv,
        by simpa using (fun h => hrbne h.symm)⟩
    rw [rowEval_extract hkeys1 hmem_xi]
    have hrest : rowEval (fun y =>
        (if y = x_i then v
          else updateLoopAssign s.tableau x_i (v - s.pm.assignment x_i)
            s.pm.assignment y) - s.pm.assignment y)
        ((r.entries.filter (fun e => e.1 ≠ r.basic)).filter
          (fun e => e.1 ≠ x_i)) = 0 := by
      apply rowEval_zero_fun
      intro e he
      have hxi' : e.1 ≠ x_i := by simpa using List.of_mem_filter he
      have he1 : e ∈ r.entries.filter (fun e => e.1 ≠ r.basic) :=
        List.mem_of_mem_filter he
      have hbne : e.1 ≠ r.basic := by simpa using List.of_mem_filter he1
      have he2 : e ∈ r.entries := List.mem_of_mem_filter he1
      rw [if_neg hxi',
        updateLoopAssign_none _ _ _ (hnotbasic he2 hbne)]
      abel
    rw [hrest, add_zero]
    have hdb : (if r.basic = x_i then v
        else updateLoopAssign s.tableau x_i (v - s.pm.assignment x_i)
          s.pm.assignment r.basic) - s.pm.assignment r.basic =
        mulRat (v - s.pm.assignment x_i) (lookupCoeff r.entries x_i) := by
      rw [if_neg hrbne,
        updateLoopAssign_some _ _ _ (find?_basic hnodup hr), if_pos hv]
      abel
    have hdxi : (if x_i = x_i then v
        else updateLoopAssign s.tableau x_i (v - s.pm.assignment x_i)
          s.pm.assignment x_i) - s.pm.assignment x_i = v - s.pm.assignment x_i := by
      rw [if_pos rfl]
    rw [hdb, hdxi, mulRat_neg_one]
    abel
  · apply rowEval_zero_fun
    intro e he
    by_cases hbe : e.1 = r.basic
    · rw [hbe, if_neg hrbne,
        updateLoopAssign_some _ _ _ (find?_basic hnodup hr), if_neg hv]
      abel
    · have hxi' : e.1 ≠ x_i := by
        intro hk
        apply hv
        rw [hasVar_iff]
        exact ⟨e, he, hk⟩
      rw [if_neg hxi', updateLoopAssign_none _ _ _ (hnotbasic he hbe)]
      abel

/-- The `AssertLower` leaves the tableau unchanged and preserves its equations. -/
theorem AssertLower_inv (s : SimplexState) (x : Nat) (c : DeltaRational)
    (t : Node) (hWf : TableauWf s.tableau) (hInv : TabSat s) :
    (AssertLower s x c t).1.tableau = s.tableau ∧
    TabSat (AssertLower s x c t).1 := by
  unfold AssertLower
  by_cases h1 : s.pm.belowLowerBound x c false = true
  · rw [if_pos h1]
    exact ⟨rfl, hInv⟩
  · rw [if_neg h1]
    by_cases h2 : s.pm.aboveUpperBound x c true = true
    · rw [if_pos h2]
      exact ⟨rfl, hInv⟩
    · rw [if_neg h2]
      dsimp only
      by_cases h3 : (!(isBasicMember s.tableau x)) = true
      · rw [if_pos h3]
        have hnb : isBasicMember s.tableau x = false := by
          revert h3
          cases isBasicMember s.tableau x <;> simp
        by_cases h4 : dlt (((s.pm.setLowerConstraint x t).setLowerBound x
            c).assignment x) c = true
        · rw [if_pos h4]
          obtain ⟨u1, _⟩ := update_fields
            { s with
              pm := ((s.pm.setLowerConstraint x t).setLowerBound x c)
              activity := fun y => if y = x then 0 else s.activity y } x c
          refine ⟨u1.trans rfl, ?_⟩
          intro r hr
          rw [u1] at hr
          exact update_inv
            { s with
              pm := ((s.pm.setLowerConstraint x t).setLowerBound x c)
              activity := fun y => if y = x then 0 else s.activity y }
            x c hWf hnb hInv r hr
        · rw [if_neg h4]
          exact ⟨rfl, hInv⟩
      · rw [if_neg h3]
        obtain ⟨c1, c2, _⟩ := cBV_fields
          { s with
            pm := ((s.pm.setLowerConstraint x t).setLowerBound x c)
            activity := fun y => if y = x then 0 else s.activity y } x
        refine ⟨c1.trans rfl, ?_⟩
        intro r hr
        rw [c1] at hr
        have hass : (checkBasicVariable
            { s with
              pm := ((s.pm.setLowerConstraint x t).setLowerBound x c)
              activity := fun y => if y = x then 0 else s.activity y }
            x).pm.assignment = s.pm.assignment := by
          rw [c2]
          rfl
        rw [hass]
        exact hInv r hr

/-- The `AssertUpper` leaves the tableau unchanged and preserves its equations. -/
theorem AssertUpper_inv (s : SimplexState) (x : Nat) (c : DeltaRational)
    (t : Node) (hWf : TableauWf s.tableau) (hInv : TabSat s) :
    (AssertUpper s x c t).1.tableau = s.tableau ∧
    TabSat (AssertUpper s x c t).1 := by
  unfold AssertUpper
  by_cases h1 : s.pm.aboveUpperBound x c false = true
  · rw [if_pos h1]
    exact ⟨rfl, hInv⟩
  · rw [if_neg h1]
    by_cases h2 : s.pm.belowLowerBound x c true = true
    · rw [if_pos h2]
      exact ⟨rfl, hInv⟩
    · rw [if_neg h2]
      dsimp only
      by_cases h3 : (!(isBasicMember s.tableau x)) = true
      · rw [if_pos h3]
        have hnb : isBasicMember s.tableau x = false := by
          revert h3
          cases isBasicMember s.tableau x <;> simp
        by_cases h4 : dlt c (((s.pm.setUpperConstraint x t).setUpperBound x
            c).assignment x) = true
        · rw [if_pos h4]
          obtain ⟨u1, _⟩ := update_fields
            { s with
              pm := ((s.pm.setUpperConstraint x t).setUpperBound x c)
              activity := fun y => if y = x then 0 else s.activity y } x c
          refine ⟨u1.trans rfl, ?_⟩
          intro r hr
          rw [u1] at hr
          exact update_inv
            { s with
              pm := ((s.pm.setUpperConstraint x t).setUpperBound x c)
              activity := fun y => if y = x then 0 else s.activity y }
            x c hWf hnb hInv r hr
        · rw [if_neg h4]
          exact ⟨rfl, hInv⟩
      · rw [if_neg h3]
        obtain ⟨c1, c2, _⟩ := cBV_fields
          { s with
            pm := ((s.pm.setUpperConstraint x t).setUpperBound x c)
            activity := fun y => if y = x then 0 else s.activity y } x
        refine ⟨c1.trans rfl, ?_⟩
        intro r hr
        rw [c1] at hr
        have hass : (checkBasicVariable
            { s with
              pm := ((s.pm.setUpperConstraint x t).setUpperBound x c)
              activity := fun y => if y = x then 0 else s.activity y }
            x).pm.assignment = s.pm.assignment := by
          rw [c2]
          rfl
        rw [hass]
        exact hInv r hr

/-- The `AssertEquality` leaves the tableau unchanged and preserves its
equations. -/
theorem AssertEquality_inv (s : SimplexState) (x : Nat) (c : DeltaRational)
    (t : Node) (hWf : TableauWf s.tableau) (hInv : TabSat s) :
    (AssertEquality s x c t).1.tableau = s.tableau ∧
    TabSat (AssertEquality s x c t).1 := by
  unfold AssertEquality
  by_cases h1 : s.pm.belowLowerBound x c false = true ∧
      s.pm.aboveUpperBound x c false = true
  · rw [if_pos h1]
    exact ⟨rfl, hInv⟩
  · rw [if_neg h1]
    by_cases h2 : s.pm.aboveUpperBound x c true = true
    · rw [if_pos h2]
      exact ⟨rfl, hInv⟩
    · rw [if_neg h2]
      by_cases h2b : s.pm.belowLowerBound x c true = true
      · rw [if_pos h2b]
        exact ⟨rfl, hInv⟩
      · rw [if_neg h2b]
        dsimp only
        by_cases h3 : (!(isBasicMember s.tableau x)) = true
        · rw [if_pos h3]
          have hnb : isBasicMember s.tableau x = false := by
            revert h3
            cases isBasicMember s.tableau x <;> simp
          by_cases h4 : ¬ (((((s.pm.setLowerConstraint x t).setLowerBound x
              c).setUpperConstraint x t).setUpperBound x c).assignment x = c)
          · rw [if_pos h4]
            obtain ⟨u1, _⟩ := update_fields
              { s with
                pm := ((((s.pm.setLowerConstraint x t).setLowerBound x
                  c).setUpperConstraint x t).setUpperBound x c)
                activity := fun y => if y = x then 0 else s.activity y } x c
            refine ⟨u1.trans rfl, ?_⟩
            intro r hr
            rw [u1] at hr
            exact update_inv
              { s with
                pm := ((((s.pm.setLowerConstraint x t).setLowerBound x
                  c).setUpperConstraint x t).setUpperBound x c)
                activity := fun y => if y = x then 0 else s.activity y }
              x c hWf hnb hInv r hr
          · rw [if_neg h4]
            exact ⟨rfl, hInv⟩
        · rw [if_neg h3]
          obtain ⟨c1, c2, _⟩ := cBV_fields
            { s with
              pm := ((((s.pm.setLowerConstraint x t).setLowerBound x
                c).setUpperConstraint x t).setUpperBound x c)
              activity := fun y => if y = x then 0 else s.activity y } x
          refine ⟨c1.trans rfl, ?_⟩
          intro r hr
          rw [c1] at hr
          have hass : (checkBasicVariable
              { s with
                pm := ((((s.pm.setLowerConstraint x t).setLowerBound x
                  c).setUpperConstraint x t).setUpperBound x c)
                activity := fun y => if y = x then 0 else s.activity y }
              x).pm.assignment = s.pm.assignment := by
            rw [c2]
            rfl
          rw [hass]
          exact hInv r hr

theorem ssiv_fields (s : SimplexState) :
    (selectSmallestInconsistentVar s).1.tableau = s.tableau ∧
    (selectSmallestInconsistentVar s).1.pm = s.pm ∧
    (selectSmallestInconsistentVar s).1.activity = s.activity ∧
    (selectSmallestInconsistentVar s).1.pivotStage = s.pivotStage ∧
    (selectSmallestInconsistentVar s).1.foundAConflict = s.foundAConflict ∧
    (selectSmallestInconsistentVar s).1.pivotsSinceConflict =
      s.pivotsSinceConflict ∧
    (selectSmallestInconsistentVar s).1.numVariables = s.numVariables ∧
    (selectSmallestInconsistentVar s).1.stats = s.stats ∧
    (selectSmallestInconsistentVar s).1.sink = s.sink := by
  unfold selectSmallestInconsistentVar
  split <;> exact ⟨rfl, rfl, rfl, rfl, rfl, rfl, rfl, rfl, rfl⟩

theorem griggioScan_valid (pm : PartialModel) (tab : Tableau) :
    ∀ l : List (Nat × DeltaRational),
    (griggioScan pm tab l).2 ≠ ARITHVAR_SENTINEL →
    isBasicMember tab (griggioScan pm tab l).2 = true ∧
    pm.assignmentIsConsistent (griggioScan pm tab l).2 = false := by
  intro l
  induction l with
  | nil => intro h; exact absurd rfl h
  | cons p rest ih =>
    have heq : griggioScan pm tab (p :: rest) =
        if isBasicMember tab p.1 && !(pm.assignmentIsConsistent p.1) then
          (p :: rest, p.1)
        else griggioScan pm tab rest := rfl
    intro h
    rw [heq] at h ⊢
    by_cases hc : (isBasicMember tab p.1 && !(pm.assignmentIsConsistent p.1))
      = true
    · rw [if_pos hc] at h ⊢
      simp only [Bool.and_eq_true, Bool.not_eq_true'] at hc
      exact hc
    · rw [if_neg hc] at h ⊢
      exact ih h

theorem blandScan_valid (pm : PartialModel) (tab : Tableau) :
    ∀ l : List Nat,
    (blandScan pm tab l).2 ≠ ARITHVAR_SENTINEL →
    isBasicMember tab (blandScan pm tab l).2 = true ∧
    pm.assignmentIsConsistent (blandScan pm tab l).2 = false := by
  intro l
  induction l with
  | nil => intro h; exact absurd rfl h
  | cons v rest ih =>
    have heq : blandScan pm tab (v :: rest) =
        if isBasicMember tab v && !(pm.assignmentIsConsistent v) then
          (v :: rest, v)
        else blandScan pm tab rest := rfl
    intro h
    rw [heq] at h ⊢
    by_cases hc : (isBasicMember tab v && !(pm.assignmentIsConsistent v)) = true
    · rw [if_pos hc] at h ⊢
      simp only [Bool.and_eq_true, Bool.not_eq_true'] at hc
      exact hc
    · rw [if_neg hc] at h ⊢
      exact ih h

theorem ssiv_valid (s : SimplexState)
    (h : (selectSmallestInconsistentVar s).2 ≠ ARITHVAR_SENTINEL) :
    isBasicMember s.tableau (selectSmallestInconsistentVar s).2 = true ∧
    s.pm.assignmentIsConsistent (selectSmallestInconsistentVar s).2 = false := by
  unfold selectSmallestInconsistentVar at h ⊢
  by_cases hst : s.pivotStage = true
  · rw [if_pos hst] at h ⊢
    exact griggioScan_valid s.pm s.tableau s.griggioQueue h
  · rw [if_neg hst] at h ⊢
    exact blandScan_valid s.pm s.tableau s.possiblyInconsistent h

theorem griggioScan_sat (pm : PartialModel) (tab : Tableau)
    (hsat : ∀ v, pm.assignmentIsConsistent v = true) :
    ∀ l, griggioScan pm tab l = ([], ARITHVAR_SENTINEL) := by
  intro l
  induction l with
  | nil => rfl
  | cons p rest ih =>
    have heq : griggioScan pm tab (p :: rest) =
        if isBasicMember tab p.1 && !(pm.assignmentIsConsistent p.1) then
          (p :: rest, p.1)
        else griggioScan pm tab rest := rfl
    rw [heq, if_neg (by simp [hsat p.1]), ih]

theorem blandScan_sat (pm : PartialModel) (tab : Tableau)
    (hsat : ∀ v, pm.assignmentIsConsistent v = true) :
    ∀ l, blandScan pm tab l = ([], ARITHVAR_SENTINEL) := by
  intro l
  induction l with
  | nil => rfl
  | cons v rest ih =>
    have heq : blandScan pm tab (v :: rest) =
        if isBasicMember tab v && !(pm.assignmentIsConsistent v) then
          (v :: rest, v)
        else blandScan pm tab rest := rfl
    rw [heq, if_neg (by simp [hsat v]), ih]

theorem griggioScan_eq (pm : PartialModel) (tab : Tableau) :
    ∀ l, griggioScan pm tab l =
      match l.dropWhile (fun p => !(isBasicMember tab p.1 &&
          !(pm.assignmentIsConsistent p.1))) with
      | [] => ([], ARITHVAR_SENTINEL)
      | p :: rest => (p :: rest, p.1) := by
  intro l
  induction l with
  | nil => rfl
  | cons p rest ih =>
    have heq : griggioScan pm tab (p :: rest) =
        if isBasicMember tab p.1 && !(pm.assignmentIsConsistent p.1) then
          (p :: rest, p.1)
        else griggioScan pm tab rest := rfl
    rw [heq]
    by_cases hc : (isBasicMember tab p.1 && !(pm.assignmentIsConsistent p.1))
      = true
    · rw [if_pos hc]
      simp only [List.dropWhile_cons, hc, Bool.not_true, Bool.false_eq_true,
        if_false]
    · have hb : (isBasicMember tab p.1 && !(pm.assignmentIsConsistent p.1))
          = false := by
        revert hc
        cases isBasicMember tab p.1 && !(pm.assignmentIsConsistent p.1) <;> simp
      rw [if_neg hc, ih]
      simp only [List.dropWhile_cons, hb, Bool.not_false, if_true]

theorem blandScan_eq (pm : PartialModel) (tab : Tableau) :
    ∀ l, blandScan pm tab l =
      match l.dropWhile (fun v => !(isBasicMember tab v &&
          !(pm.assignmentIsConsistent v))) with
      | [] => ([], ARITHVAR_SENTINEL)
      | v :: rest => (v :: rest, v) := by
  intro l
  induction l with
  | nil => rfl
  | cons v rest ih =>
    have heq : blandScan pm tab (v :: rest) =
        if isBasicMember tab v && !(pm.assignmentIsConsistent v) then
          (v :: rest, v)
        else blandScan pm tab rest := rfl
    rw [heq]
    by_cases hc : (isBasicMember tab v && !(pm.assignmentIsConsistent v)) = true
    · rw [if_pos hc]
      simp only [List.dropWhile_cons, hc, Bool.not_true, Bool.false_eq_true,
        if_false]
    · have hb : (isBasicMember tab v && !(pm.assignmentIsConsistent v))
          = false := by
        revert hc
        cases isBasicMember tab v && !(pm.assignmentIsConsistent v) <;> simp
      rw [if_neg hc, ih]
      simp only [List.dropWhile_cons, hb, Bool.not_false, if_true]

theorem selectSlackGo_none (pm : PartialModel) (tab : Tableau) (stage ab : Bool)
    (x_i : Nat) :
    ∀ l slack nr, (∀ e ∈ l, e.1 ≠ x_i → slackOk pm ab e = false) →
    selectSlackGo pm tab stage ab x_i l slack nr = slack := by
  intro l
  induction l with
  | nil => intro slack nr _; rfl
  | cons e rest ih =>
    intro slack nr h
    have heq : selectSlackGo pm tab stage ab x_i (e :: rest) slack nr =
        if e.1 = x_i then selectSlackGo pm tab stage ab x_i rest slack nr
        else if slackOk pm ab e then
          if stage then
            if Tableau.getRowCount tab e.1 < nr then
              selectSlackGo pm tab stage ab x_i rest e.1
                (Tableau.getRowCount tab e.1)
            else selectSlackGo pm tab stage ab x_i rest slack nr
          else e.1
        else selectSlackGo pm tab stage ab x_i rest slack nr := rfl
    rw [heq]
    by_cases he : e.1 = x_i
    · rw [if_pos he]
      exact ih slack nr (fun e' he' => h e' (List.mem_cons_of_mem _ he'))
    · have hok : slackOk pm ab e = false := h e (List.mem_cons_self _ _) he
      rw [if_neg he, if_neg (by simp [hok])]
      exact ih slack nr (fun e' he' => h e' (List.mem_cons_of_mem _ he'))

theorem selectSlackGo_ne (pm : PartialModel) (tab : Tableau) (stage ab : Bool)
    (x_i : Nat) :
    ∀ l slack nr, slack ≠ ARITHVAR_SENTINEL →
    (∀ e ∈ l, e.1 ≠ x_i → slackOk pm ab e = true → e.1 < ARITHVAR_SENTINEL) →
    selectSlackGo pm tab stage ab x_i l slack nr ≠ ARITHVAR_SENTINEL := by
  intro l
  induction l with
  | nil => intro slack nr hs _; exact hs
  | cons e rest ih =>
    intro slack nr hs hk
    have heq : selectSlackGo pm tab stage ab x_i (e :: rest) slack nr =
        if e.1 = x_i then selectSlackGo pm tab stage ab x_i rest slack nr
        else if slackOk pm ab e then
          if stage then
            if Tableau.getRowCount tab e.1 < nr then
              selectSlackGo pm tab stage ab x_i rest e.1
                (Tableau.getRowCount tab e.1)
            else selectSlackGo pm tab stage ab x_i rest slack nr
          else e.1
        else selectSlackGo pm tab stage ab x_i rest slack nr := rfl
    have hk' : ∀ e' ∈ rest, e'.1 ≠ x_i → slackOk pm ab e' = true →
        e'.1 < ARITHVAR_SENTINEL :=
      fun e' he' => hk e' (List.mem_cons_of_mem _ he')
    rw [heq]
    by_cases he : e.1 = x_i
    · rw [if_pos he]
      exact ih slack nr hs hk'
    · by_cases hok : slackOk pm ab e = true
      · have hklt : e.1 < ARITHVAR_SENTINEL :=
          hk e (List.mem_cons_self _ _) he hok
        rw [if_neg he, if_pos hok]
        by_cases hst : stage = true
        · rw [if_pos hst]
          by_cases hrc : Tableau.getRowCount tab e.1 < nr
          · rw [if_pos hrc]
            exact ih e.1 (Tableau.getRowCount tab e.1) (Nat.ne_of_lt hklt) hk'
          · rw [if_neg hrc]
            exact ih slack nr hs hk'
        · rw [if_neg hst]
          exact Nat.ne_of_lt hklt
      · rw [if_neg he, if_neg hok]
        exact ih slack nr hs hk'

theorem selectSlackGo_found (pm : PartialModel) (tab : Tableau) (ab : Bool)
    (x_i : Nat) (hlen : tab.length < maxUIntThirtyTwo) :
    ∀ l slack nr, (slack = ARITHVAR_SENTINEL → nr = maxUIntThirtyTwo) →
    (∀ e ∈ l, e.1 ≠ x_i → slackOk pm ab e = true → e.1 < ARITHVAR_SENTINEL) →
    (∃ e ∈ l, e.1 ≠ x_i ∧ slackOk pm ab e = true) →
    selectSlackGo pm tab true ab x_i l slack nr ≠ ARITHVAR_SENTINEL := by
  intro l
  induction l with
  | nil =>
    intro slack nr _ _ hex
    simp at hex
  | cons e rest ih =>
    intro slack nr hinv hk hex
    have heq : selectSlackGo pm tab true ab x_i (e :: rest) slack nr =
        if e.1 = x_i then selectSlackGo pm tab true ab x_i rest slack nr
        else if slackOk pm ab e then
          if Tableau.getRowCount tab e.1 < nr then
            selectSlackGo pm tab true ab x_i rest e.1
              (Tableau.getRowCount tab e.1)
          else selectSlackGo pm tab true ab x_i rest slack nr
        else selectSlackGo pm tab true ab x_i rest slack nr := rfl
    have hk' : ∀ e' ∈ rest, e'.1 ≠ x_i → slackOk pm ab e' = true →
        e'.1 < ARITHVAR_SENTINEL :=
      fun e' he' => hk e' (List.mem_cons_of_mem _ he')
    rw [heq]
    by_cases he : e.1 = x_i
    · rw [if_pos he]
      obtain ⟨e', he', hne', hok'⟩ := hex
      rcases List.mem_cons.mp he' with rfl | hrest
      · exact absurd he hne'
      · exact ih slack nr hinv hk' ⟨e', hrest, hne', hok'⟩
    · by_cases hok : slackOk pm ab e = true
      · have hklt : e.1 < ARITHVAR_SENTINEL :=
          hk e (List.mem_cons_self _ _) he hok
        rw [if_neg he, if_pos hok]
        by_cases hrc : Tableau.getRowCount tab e.1 < nr
        · rw [if_pos hrc]
          exact selectSlackGo_ne pm tab true ab x_i rest e.1
            (Tableau.getRowCount tab e.1) (Nat.ne_of_lt hklt) hk'
        · rw [if_neg hrc]
          have hslack : slack ≠ ARITHVAR_SENTINEL := by
            intro hsl
            apply hrc
            rw [hinv hsl]
            exact lt_of_le_of_lt (getRowCount_le tab e.1) hlen
          exact selectSlackGo_ne pm tab true ab x_i rest slack nr hslack hk'
      · rw [if_neg he, if_neg hok]
        obtain ⟨e', he', hne', hok'⟩ := hex
        rcases List.mem_cons.mp he' with rfl | hrest
        · exact absurd hok' hok
        · exact ih slack nr hinv hk' ⟨e', hrest, hne', hok'⟩

theorem selectSlackGo_result (pm : PartialModel) (tab : Tableau)
    (stage ab : Bool) (x_i : Nat) :
    ∀ l slack nr, selectSlackGo pm tab stage ab x_i l slack nr = slack ∨
      ∃ e ∈ l, e.1 ≠ x_i ∧ slackOk pm ab e = true ∧
        selectSlackGo pm tab stage ab x_i l slack nr = e.1 := by
  intro l
  induction l with
  | nil => intro slack nr; exact Or.inl rfl
  | cons e rest ih =>
    intro slack nr
    have heq : selectSlackGo pm tab stage ab x_i (e :: rest) slack nr =
        if e.1 = x_i then selectSlackGo pm tab stage ab x_i rest slack nr
        else if slackOk pm ab e then
          if stage then
            if Tableau.getRowCount tab e.1 < nr then
              selectSlackGo pm tab stage ab x_i rest e.1
                (Tableau.getRowCount tab e.1)
            else selectSlackGo pm tab stage ab x_i rest slack nr
          else e.1
        else selectSlackGo pm tab stage ab x_i rest slack nr := rfl
    rw [heq]
    by_cases he : e.1 = x_i
    · rw [if_pos he]
      rcases ih slack nr with hl | ⟨e', he', hne', hok', heq'⟩
      · exact Or.inl hl
      · exact Or.inr ⟨e', List.mem_cons_of_mem _ he', hne', hok', heq'⟩
    · by_cases hok : slackOk pm ab e = true
      · rw [if_neg he, if_pos hok]
        by_cases hst : stage = true
        · rw [if_pos hst]
          by_cases hrc : Tableau.getRowCount tab e.1 < nr
          · rw [if_pos hrc]
            rcases ih e.1 (Tableau.getRowCount tab e.1) with
              hl | ⟨e', he', hne', hok', heq'⟩
            · exact Or.inr ⟨e, List.mem_cons_self _ _, he, hok, hl⟩
            · exact Or.inr ⟨e', List.mem_cons_of_mem _ he', hne', hok', heq'⟩
          · rw [if_neg hrc]
            rcases ih slack nr with hl | ⟨e', he', hne', hok', heq'⟩
            · exact Or.inl hl
            · exact Or.inr ⟨e', List.mem_cons_of_mem _ he', hne', hok', heq'⟩
        · rw [if_neg hst]
          exact Or.inr ⟨e, List.mem_cons_self _ _, he, hok, rfl⟩
      · rw [if_neg he, if_neg hok]
        rcases ih slack nr with hl | ⟨e', he', hne', hok', heq'⟩
        · exact Or.inl hl
        · exact Or.inr ⟨e', List.mem_cons_of_mem _ he', hne', hok', heq'⟩

theorem selectSlackGo_min (pm : PartialModel) (tab : Tableau) (ab : Bool)
    (x_i : Nat) :
    ∀ l slack nr, Tableau.getRowCount tab slack ≤ nr →
    Tableau.getRowCount tab (selectSlackGo pm tab true ab x_i l slack nr)
      ≤ nr ∧
    ∀ e ∈ l, e.1 ≠ x_i → slackOk pm ab e = true →
      Tableau.getRowCount tab (selectSlackGo pm tab true ab x_i l slack nr) ≤
        Tableau.getRowCount tab e.1 := by
  intro l
  induction l with
  | nil =>
    intro slack nr hinv
    exact ⟨hinv, by intro e he; simp at he⟩
  | cons e rest ih =>
    intro slack nr hinv
    have heq : selectSlackGo pm tab true ab x_i (e :: rest) slack nr =
        if e.1 = x_i then selectSlackGo pm tab true ab x_i rest slack nr
        else if slackOk pm ab e then
          if Tableau.getRowCount tab e.1 < nr then
            selectSlackGo pm tab true ab x_i rest e.1
              (Tableau.getRowCount tab e.1)
          else selectSlackGo pm tab true ab x_i rest slack nr
        else selectSlackGo pm tab true ab x_i rest slack nr := rfl
    rw [heq]
    by_cases he : e.1 = x_i
    · rw [if_pos he]
      obtain ⟨h1, h2⟩ := ih slack nr hinv
      refine ⟨h1, ?_⟩
      intro e' he' hne' hok'
      rcases List.mem_cons.mp he' with rfl | hrest
      · exact absurd he hne'
      · exact h2 e' hrest hne' hok'
    · by_cases hok : slackOk pm ab e = true
      · rw [if_neg he, if_pos hok]
        by_cases hrc : Tableau.getRowCount tab e.1 < nr
        · rw [if_pos hrc]
          obtain ⟨h1, h2⟩ := ih e.1 (Tableau.getRowCount tab e.1) le_rfl
          refine ⟨h1.trans (le_of_lt hrc), ?_⟩
          intro e' he' hne' hok'
          rcases List.mem_cons.mp he' with rfl | hrest
          · exact h1
          · exact h2 e' hrest hne' hok'
        · rw [if_neg hrc]
          obtain ⟨h1, h2⟩ := ih slack nr hinv
          refine ⟨h1, ?_⟩
          intro e' he' hne' hok'
          rcases List.mem_cons.mp he' with rfl | hrest
          · exact h1.trans (Nat.not_lt.mp hrc)
          · exact h2 e' hrest hne' hok'
      · rw [if_neg he, if_neg hok]
        obtain ⟨h1, h2⟩ := ih slack nr hinv
        refine ⟨h1, ?_⟩
        intro e' he' hne' hok'
        rcases List.mem_cons.mp he' with rfl | hrest
        · exact absurd hok' hok
        · exact h2 e' hrest hne' hok'

theorem selectSlackGo_bland (pm : PartialModel) (tab : Tableau) (ab : Bool)
    (x_i : Nat) :
    ∀ l slack nr, selectSlackGo pm tab false ab x_i l slack nr =
      match l.find? (fun e => !(e.1 == x_i) && slackOk pm ab e) with
      | some e => e.1
      | none => slack := by
  intro l
  induction l with
  | nil => intro slack nr; rfl
  | cons e rest ih =>
    intro slack nr
    have heq : selectSlackGo pm tab false ab x_i (e :: rest) slack nr =
        if e.1 = x_i then selectSlackGo pm tab false ab x_i rest slack nr
        else if slackOk pm ab e then e.1
        else selectSlackGo pm tab false ab x_i rest slack nr := rfl
    rw [heq]
    by_cases he : e.1 = x_i
    · rw [if_pos he, ih slack nr,
        List.find?_cons_of_neg _ (by simp [he])]
    · by_cases hok : slackOk pm ab e = true
      · rw [if_neg he, if_pos hok,
          List.find?_cons_of_pos _ (by simp [he, hok])]
      · rw [if_neg he, if_neg hok, ih slack nr,
          List.find?_cons_of_neg _ (by simp [hok])]

theorem selectSlack_result (ab : Bool) (pm : PartialModel) (tab : Tableau)
    (stage : Bool) (x_i : Nat)
    (h : selectSlack ab pm tab stage x_i ≠ ARITHVAR_SENTINEL) :
    ∃ e ∈ (Tableau.lookup tab x_i).entries, e.1 ≠ x_i ∧
      slackOk pm ab e = true ∧ selectSlack ab pm tab stage x_i = e.1 := by
  unfold selectSlack at h ⊢
  rcases selectSlackGo_result pm tab stage ab x_i
    (Tableau.lookup tab x_i).entries ARITHVAR_SENTINEL maxUIntThirtyTwo with
    hl | hr
  · exact absurd hl h
  · exact hr

theorem selectSlack_sentinel_iff (ab : Bool) (pm : PartialModel)
    (tab : Tableau) (stage : Bool) (x_i : Nat) (hWf : TableauWf tab)
    (hbasic : isBasicMember tab x_i = true) :
    selectSlack ab pm tab stage x_i = ARITHVAR_SENTINEL ↔
      ∀ e ∈ (Tableau.lookup tab x_i).entries, e.1 ≠ x_i →
        slackOk pm ab e = false := by
  constructor
  · intro h
    unfold selectSlack at h
    by_contra hcon
    push_neg at hcon
    obtain ⟨e, he, hne, hok'⟩ := hcon
    have hok : slackOk pm ab e = true := by
      revert hok'
      cases slackOk pm ab e <;> simp
    have hkeys : ∀ e' ∈ (Tableau.lookup tab x_i).entries, e'.1 ≠ x_i →
        slackOk pm ab e' = true → e'.1 < ARITHVAR_SENTINEL := by
      intro e' he' _ _
      exact (hWf.2.2.1 _ (lookup_mem hbasic).1).2.2.2 e' he'
    by_cases hst : stage = true
    · rw [hst] at h
      exact selectSlackGo_found pm tab ab x_i hWf.1
        (Tableau.lookup tab x_i).entries ARITHVAR_SENTINEL maxUIntThirtyTwo
        (fun _ => rfl) hkeys ⟨e, he, hne, hok⟩ h
    · have hst' : stage = false := by revert hst; cases stage <;> simp
      rw [hst', selectSlackGo_bland pm tab ab x_i _ _ _] at h
      have hfind : (Tableau.lookup tab x_i).entries.find?
          (fun e => !(e.1 == x_i) && slackOk pm ab e) ≠ none := by
        intro hnone
        rw [List.find?_eq_none] at hnone
        exact hnone e he (by simp [hne, hok])
      obtain ⟨e'', hfind'⟩ := Option.ne_none_iff_exists'.mp hfind
      rw [hfind'] at h
      have hmem : e'' ∈ (Tableau.lookup tab x_i).entries :=
        List.mem_of_find?_eq_some hfind'
      have hne'' : e''.1 ≠ x_i := by
        have := List.find?_some hfind'
        simp only [Bool.and_eq_true, Bool.not_eq_true', beq_eq_false_iff_ne,
          ne_eq] at this
        exact this.1
      exact absurd h
        (Nat.ne_of_lt ((hWf.2.2.1 _ (lookup_mem hbasic).1).2.2.2 e'' hmem))
  · intro h
    unfold selectSlack
    exact selectSlackGo_none pm tab stage ab x_i _ _ _ h

theorem selectSlack_min (ab : Bool) (pm : PartialModel) (tab : Tableau)
    (x_i : Nat) (hWf : TableauWf tab) :
    ∀ e ∈ (Tableau.lookup tab x_i).entries, e.1 ≠ x_i →
      slackOk pm ab e = true →
      Tableau.getRowCount tab (selectSlack ab pm tab true x_i) ≤
        Tableau.getRowCount tab e.1 := by
  unfold selectSlack
  exact (selectSlackGo_min pm tab ab x_i (Tableau.lookup tab x_i).entries
    ARITHVAR_SENTINEL maxUIntThirtyTwo
    ((getRowCount_le tab ARITHVAR_SENTINEL).trans (le_of_lt hWf.1))).2

theorem selectSlack_bland_eq (ab : Bool) (pm : PartialModel) (tab : Tableau)
    (x_i : Nat) :
    selectSlack ab pm tab false x_i =
      match (Tableau.lookup tab x_i).entries.find?
        (fun e => !(e.1 == x_i) && slackOk pm ab e) with
      | some e => e.1
      | none => ARITHVAR_SENTINEL := by
  unfold selectSlack
  exact selectSlackGo_bland pm tab ab x_i _ _ _

theorem slack_not_basic (ab : Bool) (pm : PartialModel) (tab : Tableau)
    (stage : Bool) (x_i : Nat) (hWf : TableauWf tab)
    (hbasic : isBasicMember tab x_i = true)
    (h : selectSlack ab pm tab stage x_i ≠ ARITHVAR_SENTINEL) :
    isBasicMember tab (selectSlack ab pm tab stage x_i) = false ∧
    hasVar (Tableau.lookup tab x_i).entries
      (selectSlack ab pm tab stage x_i) = true ∧
    selectSlack ab pm tab stage x_i ≠ x_i := by
  obtain ⟨e, he, hne, hok, heq⟩ := selectSlack_result ab pm tab stage x_i h
  have hrow := lookup_mem hbasic
  refine ⟨?_, ?_, ?_⟩
  · rw [isBasicMember_false_iff]
    intro r' hr'
    rw [heq]
    have hnb : e.1 ≠ (Tableau.lookup tab x_i).basic := by
      rw [hrow.2]
      exact hne
    exact hWf.2.2.2 _ hrow.1 e he hnb r' hr'
  · rw [heq, hasVar_iff]
    exact ⟨e, he, rfl⟩
  · rw [heq]
    exact hne

theorem loopBody_inv (s : SimplexState) (hWf : TableauWf s.tableau)
    (hInv : TabSat s) :
    TableauWf (loopBody s).1.tableau ∧ TabSat (loopBody s).1 := by
  obtain ⟨f1, f2, _⟩ := ssiv_fields s
  have hWf1 : TableauWf (selectSmallestInconsistentVar s).1.tableau := by
    rw [f1]
    exact hWf
  have hInv1 : TabSat (selectSmallestInconsistentVar s).1 := by
    unfold TabSat
    rw [f1, f2]
    exact hInv
  unfold loopBody
  dsimp only
  by_cases hx : (selectSmallestInconsistentVar s).2 = ARITHVAR_SENTINEL
  · rw [if_pos hx]
    exact ⟨hWf1, hInv1⟩
  · rw [if_neg hx]
    have hvalid := ssiv_valid s hx
    have hbasic : isBasicMember (selectSmallestInconsistentVar s).1.tableau
        (selectSmallestInconsistentVar s).2 = true := by
      rw [f1]
      exact hvalid.1
    set s1 := (selectSmallestInconsistentVar s).1 with hs1
    set xi := (selectSmallestInconsistentVar s).2 with hxi
    by_cases hbl : s1.pm.belowLowerBound xi (s1.pm.assignment xi) true = true
    · rw [if_pos hbl]
      by_cases hxj : selectSlackBelow s1.pm s1.tableau s1.pivotStage xi =
          ARITHVAR_SENTINEL
      · rw [if_pos hxj]
        exact ⟨hWf1, hInv1⟩
      · rw [if_neg hxj]
        have hsl := slack_not_basic false s1.pm s1.tableau s1.pivotStage xi
          hWf1 hbasic hxj
        have hpau := pivotAndUpdate_inv s1 xi
          (selectSlackBelow s1.pm s1.tableau s1.pivotStage xi)
          ((s1.pm.lowerBound xi).getD DZERO) hWf1 hbasic hsl.2.1 hsl.2.2
          hsl.1 hInv1
        by_cases hec : (checkBasicForConflict
            (pivotAndUpdate s1 xi
              (selectSlackBelow s1.pm s1.tableau s1.pivotStage xi)
              ((s1.pm.lowerBound xi).getD DZERO)).pm
            (pivotAndUpdate s1 xi
              (selectSlackBelow s1.pm s1.tableau s1.pivotStage xi)
              ((s1.pm.lowerBound xi).getD DZERO)).tableau
            (pivotAndUpdate s1 xi
              (selectSlackBelow s1.pm s1.tableau s1.pivotStage xi)
              ((s1.pm.lowerBound xi).getD DZERO)).pivotStage
            (selectSlackBelow s1.pm s1.tableau s1.pivotStage xi)).isNull = true
        · rw [if_pos hec]
          exact ⟨hpau.1, hpau.2⟩
        · rw [if_neg hec]
          exact ⟨hpau.1, hpau.2⟩
    · rw [if_neg hbl]
      by_cases hab : s1.pm.aboveUpperBound xi (s1.pm.assignment xi) true = true
      · rw [if_pos hab]
        by_cases hxj : selectSlackAbove s1.pm s1.tableau s1.pivotStage xi =
            ARITHVAR_SENTINEL
        · rw [if_pos hxj]
          exact ⟨hWf1, hInv1⟩
        · rw [if_neg hxj]
          have hsl := slack_not_basic true s1.pm s1.tableau s1.pivotStage xi
            hWf1 hbasic hxj
          have hpau := pivotAndUpdate_inv s1 xi
            (selectSlackAbove s1.pm s1.tableau s1.pivotStage xi)
            ((s1.pm.upperBound xi).getD DZERO) hWf1 hbasic hsl.2.1 hsl.2.2
            hsl.1 hInv1
          by_cases hec : (checkBasicForConflict
              (pivotAndUpdate s1 xi
                (selectSlackAbove s1.pm s1.tableau s1.pivotStage xi)
                ((s1.pm.upperBound xi).getD DZERO)).pm
              (pivotAndUpdate s1 xi
                (selectSlackAbove s1.pm s1.tableau s1.pivotStage xi)
                ((s1.pm.upperBound xi).getD DZERO)).tableau
              (pivotAndUpdate s1 xi
                (selectSlackAbove s1.pm s1.tableau s1.pivotStage xi)
                ((s1.pm.upperBound xi).getD DZERO)).pivotStage
              (selectSlackAbove s1.pm s1.tableau s1.pivotStage xi)).isNull
              = true
          · rw [if_pos hec]
            exact ⟨hpau.1, hpau.2⟩
          · rw [if_neg hec]
            exact ⟨hpau.1, hpau.2⟩
      · rw [if_neg hab]
        by_cases hec : (checkBasicForConflict s1.pm s1.tableau s1.pivotStage
            ARITHVAR_SENTINEL).isNull = true
        · rw [if_pos hec]
          exact ⟨hWf1, hInv1⟩
        · rw [if_neg hec]
          exact ⟨hWf1, hInv1⟩

theorem griggioGo_inv : ∀ (rem : Nat) (s : SimplexState) (iter : Nat),
    TableauWf s.tableau → TabSat s →
    TableauWf (griggioGo rem s iter).1.tableau ∧
    TabSat (griggioGo rem s iter).1 := by
  intro rem
  induction rem with
  | zero =>
    intro s iter hWf hInv
    exact ⟨hWf, hInv⟩
  | succ n ih =>
    intro s iter hWf hInv
    have hlb := loopBody_inv s hWf hInv
    have heq : griggioGo (n + 1) s iter =
        match (loopBody s).2 with
        | .sat => ((loopBody s).1, iter, .gSat)
        | .conflict c => ((loopBody s).1, iter + 1, .gConflict c)
        | .continued => griggioGo n (loopBody s).1 (iter + 1) := rfl
    rw [heq]
    cases hout : (loopBody s).2 with
    | sat => exact ⟨hlb.1, hlb.2⟩
    | conflict c => exact ⟨hlb.1, hlb.2⟩
    | continued => exact ih (loopBody s).1 (iter + 1) hlb.1 hlb.2

theorem blandGo_inv : ∀ (fuel : Nat) (s : SimplexState),
    TableauWf s.tableau → TabSat s →
    TableauWf (blandGo fuel s).1.tableau ∧ TabSat (blandGo fuel s).1 := by
  intro fuel
  induction fuel with
  | zero =>
    intro s hWf hInv
    exact ⟨hWf, hInv⟩
  | succ n ih =>
    intro s hWf hInv
    have hlb := loopBody_inv s hWf hInv
    have heq : blandGo (n + 1) s =
        match (loopBody s).2 with
        | .sat => ((loopBody s).1, .bSat)
        | .conflict c => ((loopBody s).1, .bConflict c)
        | .continued => blandGo n (loopBody s).1 := rfl
    rw [heq]
    cases hout : (loopBody s).2 with
    | sat => exact ⟨hlb.1, hlb.2⟩
    | conflict c => exact ⟨hlb.1, hlb.2⟩
    | continued => exact ih (loopBody s).1 hlb.1 hlb.2

theorem migrate_fields (s : SimplexState) :
    (migrateToBland s).tableau = s.tableau ∧
    (migrateToBland s).pm = s.pm ∧
    (migrateToBland s).pivotStage = false ∧
    (migrateToBland s).stats = s.stats ∧
    (migrateToBland s).numVariables = s.numVariables ∧
    (migrateToBland s).griggioQueue = [] ∧
    (migrateToBland s).sink = s.sink :=
  ⟨rfl, rfl, rfl, rfl, rfl, rfl, rfl⟩

theorem pUIV_inv (fuel : Nat) (s : SimplexState) (hWf : TableauWf s.tableau)
    (hInv : TabSat s) :
    TableauWf (privateUpdateInconsistentVars fuel s).1.tableau ∧
    TabSat (privateUpdateInconsistentVars fuel s).1 := by
  unfold privateUpdateInconsistentVars
  dsimp only
  by_cases hst : s.pivotStage = true
  · rw [if_pos hst]
    have hg := griggioGo_inv (s.numVariables + 1) s 0 hWf hInv
    cases hout : (griggioLoop s).2.2 with
    | gSat => exact ⟨hg.1, hg.2⟩
    | gConflict c => exact ⟨hg.1, hg.2⟩
    | gExhausted =>
      have hWf2 : TableauWf (migrateToBland (griggioLoop s).1).tableau := hg.1
      have hInv2 : TabSat (migrateToBland (griggioLoop s).1) := hg.2
      have hb := blandGo_inv fuel (migrateToBland (griggioLoop s).1) hWf2 hInv2
      cases hbl : blandGo fuel (migrateToBland (griggioLoop s).1) with
      | mk s3 out =>
        rw [hbl] at hb
        cases out with
        | bSat => exact ⟨hb.1, hb.2⟩
        | bConflict c => exact ⟨hb.1, hb.2⟩
        | bFuelOut => exact ⟨hb.1, hb.2⟩
  · rw [if_neg hst]
    have hb := blandGo_inv fuel s hWf hInv
    cases hbl : blandGo fuel s with
    | mk s3 out =>
      rw [hbl] at hb
      cases out with
      | bSat => exact ⟨hb.1, hb.2⟩
      | bConflict c => exact ⟨hb.1, hb.2⟩
      | bFuelOut => exact ⟨hb.1, hb.2⟩

theorem sicGo_fields : ∀ (l : List (Nat × DeltaRational)) (s : SimplexState)
    (best : Node) (changes : Nat),
    (sicGo l s best changes).1.tableau = s.tableau ∧
    (sicGo l s best changes).1.pm = s.pm ∧
    (sicGo l s best changes).1.pivotStage = s.pivotStage ∧
    (sicGo l s best changes).1.numVariables = s.numVariables ∧
    (sicGo l s best changes).1.foundAConflict = s.foundAConflict ∧
    (sicGo l s best changes).1.pivotsSinceConflict = s.pivotsSinceConflict ∧
    (sicGo l s best changes).1.possiblyInconsistent =
      s.possiblyInconsistent ∧
    (sicGo l s best changes).1.sink = s.sink := by
  intro l
  induction l with
  | nil =>
    intro s best changes
    exact ⟨rfl, rfl, rfl, rfl, rfl, rfl, rfl, rfl⟩
  | cons p rest ih =>
    intro s best changes
    have heq : sicGo (p :: rest) s best changes =
        if (checkBasicForConflict s.pm s.tableau s.pivotStage p.1).isNull then
          sicGo rest { s with griggioQueue := griggioPush s.griggioQueue p }
            best changes
        else
          sicGo rest
            { s with
              griggioQueue := griggioPush s.griggioQueue p
              stats := { s.stats with
                earlyConflicts := s.stats.earlyConflicts + 1 } }
            (betterConflict best
              (checkBasicForConflict s.pm s.tableau s.pivotStage p.1))
            (if Node.beq (betterConflict best
                (checkBasicForConflict s.pm s.tableau s.pivotStage p.1)) best
              then changes else changes + 1) := rfl
    rw [heq]
    by_cases hc : (checkBasicForConflict s.pm s.tableau s.pivotStage
        p.1).isNull = true
    · rw [if_pos hc]
      obtain ⟨a1, a2, a3, a4, a5, a6, a7, a8⟩ :=
        ih { s with griggioQueue := griggioPush s.griggioQueue p } best changes
      exact ⟨a1, a2, a3, a4, a5, a6, a7, a8⟩
    · rw [if_neg hc]
      obtain ⟨a1, a2, a3, a4, a5, a6, a7, a8⟩ :=
        ih { s with
              griggioQueue := griggioPush s.griggioQueue p
              stats := { s.stats with
                earlyConflicts := s.stats.earlyConflicts + 1 } }
          (betterConflict best
            (checkBasicForConflict s.pm s.tableau s.pivotStage p.1))
          (if Node.beq (betterConflict best
              (checkBasicForConflict s.pm s.tableau s.pivotStage p.1)) best
            then changes else changes + 1)
      exact ⟨a1, a2, a3, a4, a5, a6, a7, a8⟩

theorem sic_fields (s : SimplexState) :
    (selectInitialConflict s).1.tableau = s.tableau ∧
    (selectInitialConflict s).1.pm = s.pm ∧
    (selectInitialConflict s).1.pivotStage = s.pivotStage ∧
    (selectInitialConflict s).1.numVariables = s.numVariables ∧
    (selectInitialConflict s).1.foundAConflict = s.foundAConflict ∧
    (selectInitialConflict s).1.pivotsSinceConflict =
      s.pivotsSinceConflict ∧
    (selectInitialConflict s).1.possiblyInconsistent =
      s.possiblyInconsistent := by
  unfold selectInitialConflict
  dsimp only
  obtain ⟨a1, a2, a3, a4, a5, a6, a7, a8⟩ := sicGo_fields
    (s.griggioQueue.filter (fun p =>
      isBasicMember s.tableau p.1 && !(s.pm.assignmentIsConsistent p.1)))
    { s with griggioQueue := [] } Node.null 0
  by_cases hgt : (sicGo
      (s.griggioQueue.filter (fun p =>
        isBasicMember s.tableau p.1 && !(s.pm.assignmentIsConsistent p.1)))
      { s with griggioQueue := [] } Node.null 0).2.2 > 1
  · rw [if_pos hgt]
    exact ⟨a1, a2, a3, a4, a5, a6, a7⟩
  · rw [if_neg hgt]
    exact ⟨a1, a2, a3, a4, a5, a6, a7⟩

theorem uIV_inv (fuel : Nat) (s : SimplexState) (hWf : TableauWf s.tableau)
    (hInv : TabSat s) :
    TableauWf (updateInconsistentVars fuel s).1.tableau ∧
    TabSat (updateInconsistentVars fuel s).1 := by
  unfold updateInconsistentVars
  dsimp only
  by_cases hemp : s.griggioQueue.isEmpty = true
  · rw [if_pos hemp]
    exact ⟨hWf, hInv⟩
  · rw [if_neg hemp]
    have hWfs1 : TableauWf ({ s with
        foundAConflict := false
        pivotsSinceConflict := 0 } : SimplexState).tableau := hWf
    have hInvs1 : TabSat ({ s with
        foundAConflict := false
        pivotsSinceConflict := 0 } : SimplexState) := hInv
    by_cases hlen : s.griggioQueue.length > 1
    · rw [if_pos hlen]
      have hs := sic_fields { s with
        foundAConflict := false
        pivotsSinceConflict := 0 }
      have hWfr : TableauWf (selectInitialConflict { s with
          foundAConflict := false
          pivotsSinceConflict := 0 }).1.tableau := by
        rw [hs.1]
        exact hWf
      have hInvr : TabSat (selectInitialConflict { s with
          foundAConflict := false
          pivotsSinceConflict := 0 }).1 := by
        unfold TabSat
        rw [hs.1, hs.2.1]
        exact hInv
      by_cases hnull : (selectInitialConflict { s with
          foundAConflict := false
          pivotsSinceConflict := 0 } : SimplexState × Node).2.isNull = true
      · rw [if_pos hnull]
        exact pUIV_inv fuel _ hWfr hInvr
      · rw [if_neg hnull]
        exact ⟨hWfr, hInvr⟩
    · rw [if_neg hlen]
      by_cases hnull : (Node.null).isNull = true
      · rw [if_pos hnull]
        exact pUIV_inv fuel _ hWfs1 hInvs1
      · rw [if_neg hnull]
        exact ⟨hWfs1, hInvs1⟩

theorem loopBody_proj (s : SimplexState) :
    (loopBody s).1.pivotStage = s.pivotStage ∧
    (loopBody s).1.numVariables = s.numVariables ∧
    (loopBody s).1.stats.pivots ≤ s.stats.pivots + 1 ∧
    ((loopBody s).2 = LoopOutcome.sat →
      (loopBody s).1.stats.pivots = s.stats.pivots) := by
  obtain ⟨f1, f2, f3, f4, f5, f6, f7, f8, f9⟩ := ssiv_fields s
  have hps : (selectSmallestInconsistentVar s).1.stats.pivots =
      s.stats.pivots := congrArg Statistics.pivots f8
  unfold loopBody
  dsimp only
  by_cases hx : (selectSmallestInconsistentVar s).2 = ARITHVAR_SENTINEL
  · rw [if_pos hx]
    exact ⟨f4, f7, le_trans (le_of_eq hps) (Nat.le_succ _), fun _ => hps⟩
  · rw [if_neg hx]
    set s1 := (selectSmallestInconsistentVar s).1 with hs1
    set xi := (selectSmallestInconsistentVar s).2 with hxi
    by_cases hbl : s1.pm.belowLowerBound xi (s1.pm.assignment xi) true = true
    · rw [if_pos hbl]
      by_cases hxj : selectSlackBelow s1.pm s1.tableau s1.pivotStage xi =
          ARITHVAR_SENTINEL
      · rw [if_pos hxj]
        exact ⟨f4, f7, le_trans (le_of_eq hps) (Nat.le_succ _),
          fun h => LoopOutcome.noConfusion h⟩
      · rw [if_neg hxj]
        obtain ⟨-, -, -, -, -, p6, p7, p8, -⟩ := pivotAndUpdate_fields s1 xi
          (selectSlackBelow s1.pm s1.tableau s1.pivotStage xi)
          ((s1.pm.lowerBound xi).getD DZERO)
        have hrest : (pivotAndUpdate s1 xi
            (selectSlackBelow s1.pm s1.tableau s1.pivotStage xi)
            ((s1.pm.lowerBound xi).getD DZERO)).stats.pivots ≤
            s.stats.pivots + 1 := by
          rw [p8, hps]
        by_cases hec : (checkBasicForConflict
            (pivotAndUpdate s1 xi
              (selectSlackBelow s1.pm s1.tableau s1.pivotStage xi)
              ((s1.pm.lowerBound xi).getD DZERO)).pm
            (pivotAndUpdate s1 xi
              (selectSlackBelow s1.pm s1.tableau s1.pivotStage xi)
              ((s1.pm.lowerBound xi).getD DZERO)).tableau
            (pivotAndUpdate s1 xi
              (selectSlackBelow s1.pm s1.tableau s1.pivotStage xi)
              ((s1.pm.lowerBound xi).getD DZERO)).pivotStage
            (selectSlackBelow s1.pm s1.tableau s1.pivotStage xi)).isNull = true
        · rw [if_pos hec]
          exact ⟨p6.trans f4, p7.trans f7, hrest,
            fun h => LoopOutcome.noConfusion h⟩
        · rw [if_neg hec]
          exact ⟨p6.trans f4, p7.trans f7, hrest,
            fun h => LoopOutcome.noConfusion h⟩
    · rw [if_neg hbl]
      by_cases hab : s1.pm.aboveUpperBound xi (s1.pm.assignment xi) true = true
      · rw [if_pos hab]
        by_cases hxj : selectSlackAbove s1.pm s1.tableau s1.pivotStage xi =
            ARITHVAR_SENTINEL
        · rw [if_pos hxj]
          exact ⟨f4, f7, le_trans (le_of_eq hps) (Nat.le_succ _),
            fun h => LoopOutcome.noConfusion h⟩
        · rw [if_neg hxj]
          obtain ⟨-, -, -, -, -, p6, p7, p8, -⟩ := pivotAndUpdate_fields s1 xi
            (selectSlackAbove s1.pm s1.tableau s1.pivotStage xi)
            ((s1.pm.upperBound xi).getD DZERO)
          have hrest : (pivotAndUpdate s1 xi
              (selectSlackAbove s1.pm s1.tableau s1.pivotStage xi)
              ((s1.pm.upperBound xi).getD DZERO)).stats.pivots ≤
              s.stats.pivots + 1 := by
            rw [p8, hps]
          by_cases hec : (checkBasicForConflict
              (pivotAndUpdate s1 xi
                (selectSlackAbove s1.pm s1.tableau s1.pivotStage xi)
                ((s1.pm.upperBound xi).getD DZERO)).pm
              (pivotAndUpdate s1 xi
                (selectSlackAbove s1.pm s1.tableau s1.pivotStage xi)
                ((s1.pm.upperBound xi).getD DZERO)).tableau
              (pivotAndUpdate s1 xi
                (selectSlackAbove s1.pm s1.tableau s1.pivotStage xi)
                ((s1.pm.upperBound xi).getD DZERO)).pivotStage
              (selectSlackAbove s1.pm s1.tableau s1.pivotStage xi)).isNull
              = true
          · rw [if_pos hec]
            exact ⟨p6.trans f4, p7.trans f7, hrest,
              fun h => LoopOutcome.noConfusion h⟩
          · rw [if_neg hec]
            exact ⟨p6.trans f4, p7.trans f7, hrest,
              fun h => LoopOutcome.noConfusion h⟩
      · rw [if_neg hab]
        by_cases hec : (checkBasicForConflict s1.pm s1.tableau s1.pivotStage
            ARITHVAR_SENTINEL).isNull = true
        · rw [if_pos hec]
          exact ⟨f4, f7, le_trans (le_of_eq hps) (Nat.le_succ _),
            fun h => LoopOutcome.noConfusion h⟩
        · rw [if_neg hec]
          exact ⟨f4, f7, le_trans (le_of_eq hps) (Nat.le_succ _),
            fun h => LoopOutcome.noConfusion h⟩

theorem griggioGo_iter : ∀ (rem : Nat) (s : SimplexState) (iter : Nat),
    (griggioGo rem s iter).2.1 ≤ iter + rem := by
  intro rem
  induction rem with
  | zero =>
    intro s iter
    exact le_of_eq (by rfl)
  | succ n ih =>
    intro s iter
    have heq : griggioGo (n + 1) s iter =
        match (loopBody s).2 with
        | .sat => ((loopBody s).1, iter, .gSat)
        | .conflict c => ((loopBody s).1, iter + 1, .gConflict c)
        | .continued => griggioGo n (loopBody s).1 (iter + 1) := rfl
    rw [heq]
    cases hout : (loopBody s).2 with
    | sat => exact Nat.le_add_right _ _
    | conflict c =>
      dsimp only
      omega
    | continued =>
      dsimp only
      have h := ih (loopBody s).1 (iter + 1)
      omega

theorem griggioGo_pivots : ∀ (rem : Nat) (s : SimplexState) (iter : Nat),
    (griggioGo rem s iter).1.stats.pivots + iter ≤
      s.stats.pivots + (griggioGo rem s iter).2.1 := by
  intro rem
  induction rem with
  | zero =>
    intro s iter
    exact le_of_eq (by rfl)
  | succ n ih =>
    intro s iter
    obtain ⟨-, -, hle, hsat⟩ := loopBody_proj s
    have heq : griggioGo (n + 1) s iter =
        match (loopBody s).2 with
        | .sat => ((loopBody s).1, iter, .gSat)
        | .conflict c => ((loopBody s).1, iter + 1, .gConflict c)
        | .continued => griggioGo n (loopBody s).1 (iter + 1) := rfl
    rw [heq]
    cases hout : (loopBody s).2 with
    | sat =>
      dsimp only
      have h := hsat hout
      omega
    | conflict c =>
      dsimp only
      omega
    | continued =>
      dsimp only
      have h := ih (loopBody s).1 (iter + 1)
      omega

theorem mem_blandPush_self : ∀ (q : List Nat) (x : Nat), x ∈ blandPush q x := by
  intro q x
  induction q with
  | nil => exact List.mem_singleton.mpr rfl
  | cons v rest ih =>
    have heq : blandPush (v :: rest) x =
        if x < v then x :: v :: rest else v :: blandPush rest x := rfl
    rw [heq]
    by_cases h : x < v
    · rw [if_pos h]
      exact List.mem_cons_self _ _
    · rw [if_neg h]
      exact List.mem_cons_of_mem _ ih

theorem mem_blandPush_of_mem : ∀ (q : List Nat) (x y : Nat), y ∈ q →
    y ∈ blandPush q x := by
  intro q x
  induction q with
  | nil =>
    intro y hy
    simp at hy
  | cons v rest ih =>
    intro y hy
    have heq : blandPush (v :: rest) x =
        if x < v then x :: v :: rest else v :: blandPush rest x := rfl
    rw [heq]
    by_cases h : x < v
    · rw [if_pos h]
      exact List.mem_cons_of_mem _ hy
    · rw [if_neg h]
      rcases List.mem_cons.mp hy with rfl | hrest
      · exact List.mem_cons_self _ _
      · exact List.mem_cons_of_mem _ (ih y hrest)

theorem migrateFold_mono (tab : Tableau) :
    ∀ (l : List (Nat × DeltaRational)) (q : List Nat) (y : Nat), y ∈ q →
    y ∈ l.foldl
      (fun q p => if isBasicMember tab p.1 then blandPush q p.1 else q) q := by
  intro l
  induction l with
  | nil =>
    intro q y hy
    exact hy
  | cons p rest ih =>
    intro q y hy
    rw [List.foldl_cons]
    by_cases hb : isBasicMember tab p.1 = true
    · rw [if_pos hb]
      exact ih _ y (mem_blandPush_of_mem q p.1 y hy)
    · rw [if_neg hb]
      exact ih q y hy

theorem migrateFold_mem (tab : Tableau) :
    ∀ (l : List (Nat × DeltaRational)) (q : List Nat)
    (p : Nat × DeltaRational), p ∈ l → isBasicMember tab p.1 = true →
    p.1 ∈ l.foldl
      (fun q p => if isBasicMember tab p.1 then blandPush q p.1 else q) q := by
  intro l
  induction l with
  | nil =>
    intro q p hp
    simp at hp
  | cons p' rest ih =>
    intro q p hp hb
    rw [List.foldl_cons]
    rcases List.mem_cons.mp hp with rfl | hrest
    · rw [if_pos hb]
      exact migrateFold_mono tab rest _ p.1 (mem_blandPush_self q p.1)
    · exact ih _ p hrest hb

theorem migrate_mem (s : SimplexState) :
    ∀ p ∈ s.griggioQueue, isBasicMember s.tableau p.1 = true →
      p.1 ∈ (migrateToBland s).possiblyInconsistent := by
  intro p hp hb
  exact migrateFold_mem s.tableau s.griggioQueue s.possiblyInconsistent p hp hb

theorem loopBody_sat (s : SimplexState)
    (hsat : ∀ v, s.pm.assignmentIsConsistent v = true) :
    loopBody s = ((selectSmallestInconsistentVar s).1, LoopOutcome.sat) := by
  have hsent : (selectSmallestInconsistentVar s).2 = ARITHVAR_SENTINEL := by
    unfold selectSmallestInconsistentVar
    by_cases hst : s.pivotStage = true
    · rw [if_pos hst]
      show (griggioScan s.pm s.tableau s.griggioQueue).2 = ARITHVAR_SENTINEL
      rw [griggioScan_sat s.pm s.tableau hsat s.griggioQueue]
    · rw [if_neg hst]
      show (blandScan s.pm s.tableau s.possiblyInconsistent).2 =
        ARITHVAR_SENTINEL
      rw [blandScan_sat s.pm s.tableau hsat s.possiblyInconsistent]
  unfold loopBody
  dsimp only
  rw [if_pos hsent]

theorem betterConflict_null_left (c : Node) :
    betterConflict Node.null c = c := rfl

theorem bc_fold_nonnull : ∀ (cs : List Node) (acc : Node),
    acc.isNull = false → (∀ c ∈ cs, c.isNull = false) →
    (cs.foldl betterConflict acc).isNull = false ∧
    (cs.foldl betterConflict acc).getNumChildren ≤ acc.getNumChildren ∧
    (cs.foldl betterConflict acc = acc ∨
      ∃ l1 l2, cs = l1 ++ (cs.foldl betterConflict acc) :: l2 ∧
        (cs.foldl betterConflict acc).getNumChildren < acc.getNumChildren ∧
        ∀ c ∈ l1, (cs.foldl betterConflict acc).getNumChildren <
          c.getNumChildren) ∧
    ∀ c ∈ cs, (cs.foldl betterConflict acc).getNumChildren ≤
      c.getNumChildren := by
  intro cs
  induction cs with
  | nil =>
    intro acc hacc _
    refine ⟨hacc, le_rfl, Or.inl rfl, ?_⟩
    intro c hc
    simp at hc
  | cons c cs' ih =>
    intro acc hacc hcs
    have hc : c.isNull = false := hcs c (List.mem_cons_self _ _)
    have hbc : betterConflict acc c =
        if acc.getNumChildren ≤ c.getNumChildren then acc else c := by
      unfold betterConflict
      rw [if_neg (by simp [hacc]), if_neg (by simp [hc])]
    have hcs' : ∀ c' ∈ cs', c'.isNull = false :=
      fun c' h => hcs c' (List.mem_cons_of_mem _ h)
    by_cases hle : acc.getNumChildren ≤ c.getNumChildren
    · rw [List.foldl_cons, hbc, if_pos hle]
      obtain ⟨r1, r2, r3, r4⟩ := ih acc hacc hcs'
      refine ⟨r1, r2, ?_, ?_⟩
      · rcases r3 with heq | ⟨l1, l2, hsplit, hlt, hall⟩
        · exact Or.inl heq
        · refine Or.inr ⟨c :: l1, l2, ?_, hlt, ?_⟩
          · rw [List.cons_append, ← hsplit]
          · intro c' hc'
            rcases List.mem_cons.mp hc' with rfl | h
            · exact lt_of_lt_of_le hlt hle
            · exact hall c' h
      · intro c' hc'
        rcases List.mem_cons.mp hc' with rfl | h
        · exact r2.trans hle
        · exact r4 c' h
    · rw [List.foldl_cons, hbc, if_neg hle]
      obtain ⟨r1, r2, r3, r4⟩ := ih c hc hcs'
      have hclt : c.getNumChildren < acc.getNumChildren := Nat.not_le.mp hle
      refine ⟨r1, r2.trans (le_of_lt hclt), ?_, ?_⟩
      · rcases r3 with heq | ⟨l1, l2, hsplit, hlt, hall⟩
        · refine Or.inr ⟨[], cs', ?_, ?_, ?_⟩
          · rw [heq, List.nil_append]
          · rw [heq]
            exact hclt
          · intro c' hc'
            simp at hc'
        · refine Or.inr ⟨c :: l1, l2, ?_, hlt.trans hclt, ?_⟩
          · rw [List.cons_append, ← hsplit]
          · intro c' hc'
            rcases List.mem_cons.mp hc' with rfl | h
            · exact hlt
            · exact hall c' h
      · intro c' hc'
        rcases List.mem_cons.mp hc' with rfl | h
        · exact r2
        · exact r4 c' h

theorem bc_fold (cs : List Node) (hcs : ∀ c ∈ cs, c.isNull = false)
    (hne : cs ≠ []) :
    (cs.foldl betterConflict Node.null).isNull = false ∧
    (∃ l1 l2, cs = l1 ++ (cs.foldl betterConflict Node.null) :: l2 ∧
      ∀ c ∈ l1, (cs.foldl betterConflict Node.null).getNumChildren <
        c.getNumChildren) ∧
    ∀ c ∈ cs, (cs.foldl betterConflict Node.null).getNumChildren ≤
      c.getNumChildren := by
  cases cs with
  | nil => exact absurd rfl hne
  | cons c cs' =>
    rw [List.foldl_cons, betterConflict_null_left]
    obtain ⟨r1, r2, r3, r4⟩ := bc_fold_nonnull cs' c
      (hcs c (List.mem_cons_self _ _))
      (fun c' h => hcs c' (List.mem_cons_of_mem _ h))
    refine ⟨r1, ?_, ?_⟩
    · rcases r3 with heq | ⟨l1, l2, hsplit, hlt, hall⟩
      · refine ⟨[], cs', ?_, ?_⟩
        · rw [heq, List.nil_append]
        · intro c' hc'
          simp at hc'
      · refine ⟨c :: l1, l2, ?_, ?_⟩
        · rw [List.cons_append, ← hsplit]
        · intro c' hc'
          rcases List.mem_cons.mp hc' with rfl | h
          · exact hlt
          · exact hall c' h
    · intro c' hc'
      rcases List.mem_cons.mp hc' with rfl | h
      · exact r2
      · exact r4 c' h

theorem sicGo_spec : ∀ (l : List (Nat × DeltaRational)) (s : SimplexState)
    (best : Node) (changes : Nat),
    (sicGo l s best changes).2.1 =
      (conflictsOf s.pm s.tableau s.pivotStage l).foldl betterConflict best ∧
    (sicGo l s best changes).1.stats.earlyConflicts =
      s.stats.earlyConflicts +
        (conflictsOf s.pm s.tableau s.pivotStage l).length ∧
    (sicGo l s best changes).2.2 =
      changes + countChanges best (conflictsOf s.pm s.tableau s.pivotStage l) ∧
    (sicGo l s best changes).1.stats.earlyConflictImprovements =
      s.stats.earlyConflictImprovements := by
  intro l
  induction l with
  | nil =>
    intro s best changes
    exact ⟨rfl, rfl, rfl, rfl⟩
  | cons p rest ih =>
    intro s best changes
    have heq : sicGo (p :: rest) s best changes =
        if (checkBasicForConflict s.pm s.tableau s.pivotStage p.1).isNull then
          sicGo rest { s with griggioQueue := griggioPush s.griggioQueue p }
            best changes
        else
          sicGo rest
            { s with
              griggioQueue := griggioPush s.griggioQueue p
              stats := { s.stats with
                earlyConflicts := s.stats.earlyConflicts + 1 } }
            (betterConflict best
              (checkBasicForConflict s.pm s.tableau s.pivotStage p.1))
            (if Node.beq (betterConflict best
                (checkBasicForConflict s.pm s.tableau s.pivotStage p.1)) best
              then changes else changes + 1) := rfl
    by_cases hc : (checkBasicForConflict s.pm s.tableau s.pivotStage
        p.1).isNull = true
    · rw [heq, if_pos hc]
      have hcf : conflictsOf s.pm s.tableau s.pivotStage (p :: rest) =
          conflictsOf s.pm s.tableau s.pivotStage rest := by
        unfold conflictsOf
        rw [List.map_cons, List.filter_cons]
        simp only [hc, Bool.not_true, Bool.false_eq_true, if_false]
      rw [hcf]
      exact ih { s with griggioQueue := griggioPush s.griggioQueue p }
        best changes
    · rw [heq, if_neg hc]
      have hb : (checkBasicForConflict s.pm s.tableau s.pivotStage
          p.1).isNull = false := by
        revert hc
        cases (checkBasicForConflict s.pm s.tableau s.pivotStage p.1).isNull <;>
          simp
      have hcf : conflictsOf s.pm s.tableau s.pivotStage (p :: rest) =
          (checkBasicForConflict s.pm s.tableau s.pivotStage p.1) ::
            conflictsOf s.pm s.tableau s.pivotStage rest := by
        unfold conflictsOf
        rw [List.map_cons, List.filter_cons]
        simp only [hb, Bool.not_false, if_true]
      rw [hcf]
      have hih := ih
        { s with
          griggioQueue := griggioPush s.griggioQueue p
          stats := { s.stats with
            earlyConflicts := s.stats.earlyConflicts + 1 } }
        (betterConflict best
          (checkBasicForConflict s.pm s.tableau s.pivotStage p.1))
        (if Node.beq (betterConflict best
            (checkBasicForConflict s.pm s.tableau s.pivotStage p.1)) best
          then changes else changes + 1)
      refine ⟨?_, ?_, ?_, ?_⟩
      · rw [List.foldl_cons]
        exact hih.1
      · have h2 : (sicGo rest
            { s with
              griggioQueue := griggioPush s.griggioQueue p
              stats := { s.stats with
                earlyConflicts := s.stats.earlyConflicts + 1 } }
            (betterConflict best
              (checkBasicForConflict s.pm s.tableau s.pivotStage p.1))
            (if Node.beq (betterConflict best
                (checkBasicForConflict s.pm s.tableau s.pivotStage p.1)) best
              then changes else changes + 1)).1.stats.earlyConflicts =
            s.stats.earlyConflicts + 1 +
              (conflictsOf s.pm s.tableau s.pivotStage rest).length := hih.2.1
        rw [h2, List.length_cons]
        omega
      · have h3 : (sicGo rest
            { s with
              griggioQueue := griggioPush s.griggioQueue p
              stats := { s.stats with
                earlyConflicts := s.stats.earlyConflicts + 1 } }
            (betterConflict best
              (checkBasicForConflict s.pm s.tableau s.pivotStage p.1))
            (if Node.beq (betterConflict best
                (checkBasicForConflict s.pm s.tableau s.pivotStage p.1)) best
              then changes else changes + 1)).2.2 =
            (if Node.beq (betterConflict best
                (checkBasicForConflict s.pm s.tableau s.pivotStage p.1)) best
              then changes else changes + 1) +
              countChanges (betterConflict best
                (checkBasicForConflict s.pm s.tableau s.pivotStage p.1))
                (conflictsOf s.pm s.tableau s.pivotStage rest) := hih.2.2.1
        have hcc : countChanges best
            ((checkBasicForConflict s.pm s.tableau s.pivotStage p.1) ::
              conflictsOf s.pm s.tableau s.pivotStage rest) =
            (if Node.beq (betterConflict best
                (checkBasicForConflict s.pm s.tableau s.pivotStage p.1)) best
              then 0 else 1) +
              countChanges (betterConflict best
                (checkBasicForConflict s.pm s.tableau s.pivotStage p.1))
                (conflictsOf s.pm s.tableau s.pivotStage rest) := rfl
        rw [hcc, h3]
        by_cases hbq : Node.beq (betterConflict best
            (checkBasicForConflict s.pm s.tableau s.pivotStage p.1)) best
            = true
        · rw [if_pos hbq, if_pos hbq]
          omega
        · rw [if_neg hbq, if_neg hbq]
          omega
      · exact hih.2.2.2

theorem sic_spec (s : SimplexState) :
    (selectInitialConflict s).2 =
      (conflictsOf s.pm s.tableau s.pivotStage
        (s.griggioQueue.filter (fun p =>
          isBasicMember s.tableau p.1 &&
            !(s.pm.assignmentIsConsistent p.1)))).foldl betterConflict
        Node.null ∧
    (selectInitialConflict s).1.stats.earlyConflicts =
      s.stats.earlyConflicts +
        (conflictsOf s.pm s.tableau s.pivotStage
          (s.griggioQueue.filter (fun p =>
            isBasicMember s.tableau p.1 &&
              !(s.pm.assignmentIsConsistent p.1)))).length ∧
    (selectInitialConflict s).1.stats.earlyConflictImprovements =
      s.stats.earlyConflictImprovements +
        (if 1 < countChanges Node.null
            (conflictsOf s.pm s.tableau s.pivotStage
              (s.griggioQueue.filter (fun p =>
                isBasicMember s.tableau p.1 &&
                  !(s.pm.assignmentIsConsistent p.1)))) then 1 else 0) := by
  have h : (sicGo (s.griggioQueue.filter (fun p =>
        isBasicMember s.tableau p.1 && !(s.pm.assignmentIsConsistent p.1)))
        { s with griggioQueue := [] } Node.null 0).2.1 =
      (conflictsOf s.pm s.tableau s.pivotStage
        (s.griggioQueue.filter (fun p =>
          isBasicMember s.tableau p.1 &&
            !(s.pm.assignmentIsConsistent p.1)))).foldl betterConflict
        Node.null ∧
      (sicGo (s.griggioQueue.filter (fun p =>
          isBasicMember s.tableau p.1 && !(s.pm.assignmentIsConsistent p.1)))
          { s with griggioQueue := [] } Node.null 0).1.stats.earlyConflicts =
        s.stats.earlyConflicts +
          (conflictsOf s.pm s.tableau s.pivotStage
            (s.griggioQueue.filter (fun p =>
              isBasicMember s.tableau p.1 &&
                !(s.pm.assignmentIsConsistent p.1)))).length ∧
      (sicGo (s.griggioQueue.filter (fun p =>
          isBasicMember s.tableau p.1 && !(s.pm.assignmentIsConsistent p.1)))
          { s with griggioQueue := [] } Node.null 0).2.2 =
        0 + countChanges Node.null
          (conflictsOf s.pm s.tableau s.pivotStage
            (s.griggioQueue.filter (fun p =>
              isBasicMember s.tableau p.1 &&
                !(s.pm.assignmentIsConsistent p.1)))) ∧
      (sicGo (s.griggioQueue.filter (fun p =>
          isBasicMember s.tableau p.1 && !(s.pm.assignmentIsConsistent p.1)))
          { s with griggioQueue := [] } Node.null
          0).1.stats.earlyConflictImprovements =
        s.stats.earlyConflictImprovements :=
    sicGo_spec (s.griggioQueue.filter (fun p =>
        isBasicMember s.tableau p.1 && !(s.pm.assignmentIsConsistent p.1)))
      { s with griggioQueue := [] } Node.null 0
  unfold selectInitialConflict
  dsimp only
  by_cases hgt : (sicGo (s.griggioQueue.filter (fun p =>
      isBasicMember s.tableau p.1 && !(s.pm.assignmentIsConsistent p.1)))
      { s with griggioQueue := [] } Node.null 0).2.2 > 1
  · rw [if_pos hgt]
    refine ⟨h.1, h.2.1, ?_⟩
    have hcc : 1 < countChanges Node.null
        (conflictsOf s.pm s.tableau s.pivotStage
          (s.griggioQueue.filter (fun p =>
            isBasicMember s.tableau p.1 &&
              !(s.pm.assignmentIsConsistent p.1)))) := by
      have h3 := h.2.2.1
      omega
    rw [if_pos hcc]
    have hred : ({ (sicGo (s.griggioQueue.filter (fun p =>
        isBasicMember s.tableau p.1 && !(s.pm.assignmentIsConsistent p.1)))
        { s with griggioQueue := [] } Node.null 0).1 with
        stats := { (sicGo (s.griggioQueue.filter (fun p =>
          isBasicMember s.tableau p.1 &&
            !(s.pm.assignmentIsConsistent p.1)))
          { s with griggioQueue := [] } Node.null 0).1.stats with
          earlyConflictImprovements := (sicGo (s.griggioQueue.filter (fun p =>
            isBasicMember s.tableau p.1 &&
              !(s.pm.assignmentIsConsistent p.1)))
            { s with griggioQueue := [] } Node.null
            0).1.stats.earlyConflictImprovements + 1 } }
        : SimplexState).stats.earlyConflictImprovements =
        (sicGo (s.griggioQueue.filter (fun p =>
          isBasicMember s.tableau p.1 &&
            !(s.pm.assignmentIsConsistent p.1)))
          { s with griggioQueue := [] } Node.null
          0).1.stats.earlyConflictImprovements + 1 := rfl
    rw [hred, h.2.2.2]
  · rw [if_neg hgt]
    refine ⟨h.1, h.2.1, ?_⟩
    have hcc : ¬(1 < countChanges Node.null
        (conflictsOf s.pm s.tableau s.pivotStage
          (s.griggioQueue.filter (fun p =>
            isBasicMember s.tableau p.1 &&
              !(s.pm.assignmentIsConsistent p.1))))) := by
      have h3 := h.2.2.1
      omega
    rw [if_neg hcc, h.2.2.2]
    omega

/-! ### The `checkTableau` bridge and reachability -/

theorem rowEval_zero_iff (beta : Nat → DeltaRational) (r : Row)
    (hWfr : RowWf r) :
    rowEval beta r.entries = 0 ↔ beta r.basic = rowSumNB beta r := by
  obtain ⟨hk, -, hb, -⟩ := hWfr
  unfold rowSumNB
  rw [rowEval_extract hk hb, mulRat_neg_one, neg_add_eq_zero]

theorem tabSat_iff_checkTableau (s : SimplexState)
    (hrows : ∀ r ∈ s.tableau, RowWf r) :
    TabSat s ↔ checkTableau s := by
  unfold TabSat checkTableau
  constructor
  · intro h r hr
    exact (rowEval_zero_iff s.pm.assignment r (hrows r hr)).mp (h r hr)
  · intro h r hr
    exact (rowEval_zero_iff s.pm.assignment r (hrows r hr)).mpr (h r hr)

theorem engineStep_inv {s s' : SimplexState} (hstep : EngineStep s s')
    (hWf : TableauWf s.tableau) (hInv : TabSat s) :
    TableauWf s'.tableau ∧ TabSat s' := by
  cases hstep with
  | assertLower x c t =>
    obtain ⟨h1, h2⟩ := AssertLower_inv s x c t hWf hInv
    refine ⟨?_, h2⟩
    rw [h1]
    exact hWf
  | assertUpper x c t =>
    obtain ⟨h1, h2⟩ := AssertUpper_inv s x c t hWf hInv
    refine ⟨?_, h2⟩
    rw [h1]
    exact hWf
  | assertEquality x c t =>
    obtain ⟨h1, h2⟩ := AssertEquality_inv s x c t hWf hInv
    refine ⟨?_, h2⟩
    rw [h1]
    exact hWf
  | updateVars fuel => exact uIV_inv fuel s hWf hInv

theorem reachable_inv {s s' : SimplexState} (h : Reachable s s')
    (hWf : TableauWf s.tableau) (hInv : TabSat s) :
    TableauWf s'.tableau ∧ TabSat s' := by
  induction h with
  | refl => exact ⟨hWf, hInv⟩
  | tail hreach hstep ih => exact engineStep_inv hstep ih.1 ih.2

theorem belowLowerBound_false_iff (pm : PartialModel) (x : Nat)
    (v : DeltaRational) :
    pm.belowLowerBound x v false = true ↔
      ∃ l, pm.lowerBound x = some l ∧ dle v l = true := by
  unfold PartialModel.belowLowerBound
  cases hl : pm.lowerBound x with
  | none => simp
  | some l =>
    constructor
    · intro h
      exact ⟨l, rfl, h⟩
    · rintro ⟨l', hl', h⟩
      cases Option.some.inj hl'
      exact h

theorem aboveUpperBound_true_iff (pm : PartialModel) (x : Nat)
    (v : DeltaRational) :
    pm.aboveUpperBound x v true = true ↔
      ∃ u, pm.upperBound x = some u ∧ dlt u v = true := by
  unfold PartialModel.aboveUpperBound
  cases hu : pm.upperBound x with
  | none => simp
  | some u =>
    constructor
    · intro h
      exact ⟨u, rfl, h⟩
    · rintro ⟨u', hu', h⟩
      cases Option.some.inj hu'
      exact h

theorem basic_lt_sentinel {tab : Tableau} {x : Nat} (hWf : TableauWf tab)
    (h : isBasicMember tab x = true) : x < ARITHVAR_SENTINEL := by
  rw [isBasicMember_iff] at h
  obtain ⟨r, hr, hb⟩ := h
  have hrw := hWf.2.2.1 r hr
  have := hrw.2.2.2 _ hrw.2.2.1
  rw [← hb]
  exact this

theorem staleBool_iff (b1 b2 : Bool) :
    (!(b1 && !b2)) = true ↔ b1 = false ∨ b2 = true := by
  cases b1 <;> cases b2 <;> simp

theorem sicGo_pivots : ∀ (l : List (Nat × DeltaRational)) (s : SimplexState)
    (best : Node) (changes : Nat),
    (sicGo l s best changes).1.stats.pivots = s.stats.pivots := by
  intro l
  induction l with
  | nil =>
    intro s best changes
    rfl
  | cons p rest ih =>
    intro s best changes
    have heq : sicGo (p :: rest) s best changes =
        if (checkBasicForConflict s.pm s.tableau s.pivotStage p.1).isNull then
          sicGo rest { s with griggioQueue := griggioPush s.griggioQueue p }
            best changes
        else
          sicGo rest
            { s with
              griggioQueue := griggioPush s.griggioQueue p
              stats := { s.stats with
                earlyConflicts := s.stats.earlyConflicts + 1 } }
            (betterConflict best
              (checkBasicForConflict s.pm s.tableau s.pivotStage p.1))
            (if Node.beq (betterConflict best
                (checkBasicForConflict s.pm s.tableau s.pivotStage p.1)) best
              then changes else changes + 1) := rfl
    rw [heq]
    by_cases hc : (checkBasicForConflict s.pm s.tableau s.pivotStage
        p.1).isNull = true
    · rw [if_pos hc]
      exact ih { s with griggioQueue := griggioPush s.griggioQueue p }
        best changes
    · rw [if_neg hc]
      exact ih _ _ _

theorem sic_pivots (s : SimplexState) :
    (selectInitialConflict s).1.stats.pivots = s.stats.pivots := by
  unfold selectInitialConflict
  dsimp only
  by_cases hgt : (sicGo (s.griggioQueue.filter (fun p =>
      isBasicMember s.tableau p.1 && !(s.pm.assignmentIsConsistent p.1)))
      { s with griggioQueue := [] } Node.null 0).2.2 > 1
  · rw [if_pos hgt]
    exact sicGo_pivots _ _ _ _
  · rw [if_neg hgt]
    exact sicGo_pivots _ _ _ _

theorem pUIV_sat (fuel : Nat) (s : SimplexState) (hfuel : 1 ≤ fuel)
    (hsat : ∀ v, s.pm.assignmentIsConsistent v = true) :
    privateUpdateInconsistentVars fuel s =
      ((selectSmallestInconsistentVar s).1, UpdateResult.res Node.null) := by
  unfold privateUpdateInconsistentVars
  dsimp only
  by_cases hst : s.pivotStage = true
  · rw [if_pos hst]
    have hgl : griggioLoop s =
        ((selectSmallestInconsistentVar s).1, 0, GriggioOutcome.gSat) := by
      unfold griggioLoop
      have heq : griggioGo (s.numVariables + 1) s 0 =
          match (loopBody s).2 with
          | .sat => ((loopBody s).1, 0, .gSat)
          | .conflict c => ((loopBody s).1, 0 + 1, .gConflict c)
          | .continued => griggioGo s.numVariables (loopBody s).1 (0 + 1) :=
        rfl
      rw [heq, loopBody_sat s hsat]
    rw [hgl]
  · rw [if_neg hst]
    cases fuel with
    | zero => omega
    | succ k =>
      have heqb : blandGo (k + 1) s =
          match (loopBody s).2 with
          | .sat => ((loopBody s).1, .bSat)
          | .conflict c => ((loopBody s).1, .bConflict c)
          | .continued => blandGo k (loopBody s).1 := rfl
      rw [heqb, loopBody_sat s hsat]

theorem conflictMap_below (pm : PartialModel) (xi : Nat) :
    ∀ (l : List (Nat × Rat)),
    l.filterMap (fun e =>
      if e.1 = xi then none
      else if e.2 < 0 then some (pm.lowerConstraint e.1)
      else some (pm.upperConstraint e.1)) =
    (l.filter (fun e => e.1 ≠ xi)).map (fun e =>
      if e.2 < 0 then pm.lowerConstraint e.1 else pm.upperConstraint e.1) := by
  intro l
  induction l with
  | nil => rfl
  | cons e rest ih =>
    by_cases hx : e.1 = xi
    · rw [List.filterMap_cons_none (by rw [if_pos hx]), ih,
        List.filter_cons]
      simp [hx]
    · rw [List.filter_cons]
      by_cases hlt : e.2 < 0
      · rw [List.filterMap_cons_some
          (by rw [if_neg hx, if_pos hlt]), ih]
        simp [hx, hlt]
      · rw [List.filterMap_cons_some
          (by rw [if_neg hx, if_neg hlt]), ih]
        simp [hx, hlt]

theorem conflictMap_above (pm : PartialModel) (xi : Nat) :
    ∀ (l : List (Nat × Rat)), (∀ e ∈ l, e.2 ≠ 0) →
    l.filterMap (fun e =>
      if e.1 = xi then none
      else if e.2 < 0 then some (pm.upperConstraint e.1)
      else some (pm.lowerConstraint e.1)) =
    (l.filter (fun e => e.1 ≠ xi)).map (fun e =>
      if 0 < e.2 then pm.lowerConstraint e.1 else pm.upperConstraint e.1) := by
  intro l
  induction l with
  | nil => intro _; rfl
  | cons e rest ih =>
    intro h
    have hrest := fun e' he' => h e' (List.mem_cons_of_mem _ he')
    by_cases hx : e.1 = xi
    · rw [List.filterMap_cons_none (by rw [if_pos hx]), ih hrest,
        List.filter_cons]
      simp [hx]
    · rw [List.filter_cons]
      rcases (h e (List.mem_cons_self _ _)).lt_or_lt with hlt | hgt
      · rw [List.filterMap_cons_some
          (by rw [if_neg hx, if_pos hlt]), ih hrest]
        have hnot : ¬(0 < e.2) := by
          intro hc
          exact absurd (lt_trans hlt hc) (lt_irrefl e.2)
        simp [hx, hnot]
      · have hnlt : ¬(e.2 < 0) := by
          intro hc
          exact absurd (lt_trans hgt hc) (lt_irrefl (0 : Rat))
        rw [List.filterMap_cons_some
          (by rw [if_neg hx, if_neg hnlt]), ih hrest]
        simp [hx, hgt]

theorem sOne_wf : TableauWf sOne.tableau := by
  unfold TableauWf RowWf sOne rowOne ARITHVAR_SENTINEL
  norm_num [maxUIntThirtyTwo]
  refine ⟨⟨?_, ?_⟩, ?_⟩ <;>
    rintro a b (⟨rfl, rfl⟩ | ⟨rfl, rfl⟩) <;> norm_num [maxUIntThirtyTwo]

theorem sConf_wf : TableauWf sConf.tableau := by
  unfold TableauWf RowWf sConf sOne rowConf ARITHVAR_SENTINEL
  norm_num [maxUIntThirtyTwo]

theorem sOne_check : checkTableau sOne := by
  intro r hr
  have hr' : r ∈ [rowOne] := hr
  rw [List.mem_singleton] at hr'
  subst hr'
  with_unfolding_all rfl

theorem sOne_sat : TabSat sOne := by
  intro r hr
  have hr' : r ∈ [rowOne] := hr
  rw [List.mem_singleton] at hr'
  subst hr'
  with_unfolding_all rfl

/-- C1: tableau soundness invariant. Starting from a well-formed state whose
tableau equations hold (`checkTableau`: for every basic `xb`,
`β(xb) = Σ a_bj·β(xj)` over the non-basic entries, in exact `DeltaRational`
arithmetic), any sequence of `AssertLower` / `AssertUpper` /
`AssertEquality` / `updateInconsistentVars` calls — in particular each
`update` and `pivotAndUpdate` they perform — leads to a state whose tableau
equations still hold. -/
theorem C1_tableau_soundness (s0 s : SimplexState)
    (hWf : TableauWf s0.tableau) (hInit : checkTableau s0)
    (hReach : Reachable s0 s) : checkTableau s := by
  have h0 : TabSat s0 := (tabSat_iff_checkTableau s0 hWf.2.2.1).mpr hInit
  have h := reachable_inv hReach hWf h0
  exact (tabSat_iff_checkTableau s h.1.2.2.1).mp h.2

theorem C1_tableau_soundness_witness :
    TableauWf sOne.tableau ∧ checkTableau sOne ∧
    checkTableau (AssertLower sOne 0 (1, 0) (Node.atom 0)).1 :=
  ⟨sOne_wf, sOne_check,
    C1_tableau_soundness sOne (AssertLower sOne 0 (1, 0) (Node.atom 0)).1
      sOne_wf sOne_check
      (Reachable.tail (Reachable.refl sOne)
        (EngineStep.assertLower sOne 0 (1, 0) (Node.atom 0)))⟩

/-- C2: postcondition of `pivotAndUpdate(x_i, x_j, v)` when `x_i` is basic,
`x_j` is a non-basic variable of `x_i`'s row and `x_j ≠ x_i`: with
`θ = (v − β(x_i)) · a_ij⁻¹` from the pre-call assignment, afterwards
`β(x_i) = v`, `β(x_j) = β(x_j) + θ`, every other basic `x_k` whose row
mentions `x_j` moves by `θ · a_kj`, every variable that is neither `x_i`,
`x_j`, nor such a basic keeps its assignment, and the tableau is pivoted on
`(x_i, x_j)`. -/
theorem C2_pivotAndUpdate_post (s : SimplexState) (x_i x_j : Nat)
    (v : DeltaRational) (hWf : TableauWf s.tableau)
    (hbasic : isBasicMember s.tableau x_i = true)
    (hxj : hasVar (Tableau.lookup s.tableau x_i).entries x_j = true)
    (hne : x_j ≠ x_i)
    (hnbj : isBasicMember s.tableau x_j = false) :
    (pivotAndUpdate s x_i x_j v).pm.assignment x_i = v ∧
    (pivotAndUpdate s x_i x_j v).pm.assignment x_j =
      s.pm.assignment x_j +
        mulRat (v - s.pm.assignment x_i)
          (lookupCoeff (Tableau.lookup s.tableau x_i).entries x_j)⁻¹ ∧
    (∀ r ∈ s.tableau, r.basic ≠ x_i → hasVar r.entries x_j = true →
      (pivotAndUpdate s x_i x_j v).pm.assignment r.basic =
        s.pm.assignment r.basic +
          mulRat (mulRat (v - s.pm.assignment x_i)
            (lookupCoeff (Tableau.lookup s.tableau x_i).entries x_j)⁻¹)
            (lookupCoeff r.entries x_j)) ∧
    (∀ y, y ≠ x_i → y ≠ x_j →
      (∀ r ∈ s.tableau, r.basic = y → hasVar r.entries x_j = false) →
      (pivotAndUpdate s x_i x_j v).pm.assignment y = s.pm.assignment y) ∧
    (pivotAndUpdate s x_i x_j v).tableau = Tableau.pivot s.tableau x_i x_j := by
  have hasg := pivotAndUpdate_assignment s x_i x_j v hWf.2.1 hnbj hne
  have hxi_ne : x_i ≠ x_j := fun h => hne h.symm
  refine ⟨?_, ?_, ?_, ?_, (pivotAndUpdate_fields s x_i x_j v).1⟩
  · rw [hasg]
    dsimp only
    rw [if_neg hxi_ne, if_pos rfl]
  · rw [hasg]
    dsimp only
    rw [if_pos rfl]
  · intro r hr hrne hrvar
    have hrbj : r.basic ≠ x_j := by
      rw [isBasicMember_false_iff] at hnbj
      exact hnbj r hr
    rw [hasg]
    dsimp only
    rw [if_neg hrbj, if_neg hrne,
      pivotLoopAssign_some x_i x_j _ _ (find?_basic hWf.2.1 hr),
      if_pos ⟨hrne, hrvar⟩]
  · intro y hyi hyj hrow
    rw [hasg]
    dsimp only
    rw [if_neg hyj, if_neg hyi]
    cases hfind : s.tableau.find? (fun r => r.basic = y) with
    | none => rw [pivotLoopAssign_none x_i x_j _ _ hfind]
    | some r =>
      rw [pivotLoopAssign_some x_i x_j _ _ hfind]
      have hrb : r.basic = y := by simpa using List.find?_some hfind
      have hrmem : r ∈ s.tableau := List.mem_of_find?_eq_some hfind
      have hv := hrow r hrmem hrb
      rw [if_neg]
      intro hcon
      rw [hv] at hcon
      exact Bool.noConfusion hcon.2

theorem C2_pivotAndUpdate_post_witness :
    TableauWf sOne.tableau ∧ isBasicMember sOne.tableau 0 = true ∧
    hasVar (Tableau.lookup sOne.tableau 0).entries 1 = true ∧
    (1 : Nat) ≠ 0 ∧ isBasicMember sOne.tableau 1 = false ∧
    (pivotAndUpdate sOne 0 1 (1, 0)).pm.assignment 0 = (1, 0) :=
  ⟨sOne_wf, rfl, rfl, by omega, rfl,
    (C2_pivotAndUpdate_post sOne 0 1 (1, 0) sOne_wf rfl rfl (by omega)
      rfl).1⟩

/-- C3: structure of the generated conflicts. With nonzero row coefficients,
`generateConflictAbove(xi)` is the AND of `getUpperConstraint(xi)` with, for
each non-basic `xj` of `xi`'s row, `getLowerConstraint(xj)` when `a_ij > 0`
and `getUpperConstraint(xj)` when `a_ij < 0`; `generateConflictBelow(xi)` is
the dual with `getLowerConstraint(xi)` and the sign conditions exchanged. -/
theorem C3_conflict_structure (pm : PartialModel) (tab : Tableau) (xi : Nat)
    (hnz : ∀ e ∈ (Tableau.lookup tab xi).entries, e.2 ≠ 0) :
    generateConflictAbove pm tab xi =
      specConflictAbove pm (Tableau.lookup tab xi) xi ∧
    generateConflictBelow pm tab xi =
      specConflictBelow pm (Tableau.lookup tab xi) xi := by
  unfold generateConflictAbove generateConflictBelow specConflictAbove
    specConflictBelow
  dsimp only
  constructor
  · rw [conflictMap_above pm xi _ hnz]
  · rw [conflictMap_below pm xi _]

theorem C3_conflict_structure_witness :
    (∀ e ∈ (Tableau.lookup sOne.tableau 0).entries, e.2 ≠ 0) ∧
    generateConflictAbove pmOne sOne.tableau 0 =
      specConflictAbove pmOne (Tableau.lookup sOne.tableau 0) 0 ∧
    generateConflictBelow pmOne sOne.tableau 0 =
      specConflictBelow pmOne (Tableau.lookup sOne.tableau 0) 0 := by
  have hnz : ∀ e ∈ (Tableau.lookup sOne.tableau 0).entries, e.2 ≠ 0 := by
    intro e he
    have he' : e ∈ [((0 : Nat), (-1 : Rat)), (1, 1)] := he
    rcases List.mem_cons.mp he' with rfl | he2
    · norm_num
    · rcases List.mem_cons.mp he2 with rfl | he3
      · norm_num
      · simp at he3
  exact ⟨hnz, (C3_conflict_structure pmOne sOne.tableau 0 hnz).1,
    (C3_conflict_structure pmOne sOne.tableau 0 hnz).2⟩

/-- C4: `AssertLower(x, c, t)` returns true iff `x` has an installed upper
bound `u` with `c > u` (strict `DeltaRational` comparison), assuming the
stored bounds are consistent (`l ≤ u` whenever both exist — the code never
stores a violating pair); in that case it emits exactly
`AND(getUpperConstraint(x), t)` to the conflict sink and leaves the partial
model (bounds, constraints and assignment) unchanged. -/
theorem C4_assertLower_conflict (s : SimplexState) (x : Nat)
    (c : DeltaRational) (t : Node)
    (hlu : ∀ l u, s.pm.lowerBound x = some l → s.pm.upperBound x = some u →
      dle l u = true) :
    ((AssertLower s x c t).2 = true ↔
      ∃ u, s.pm.upperBound x = some u ∧ dlt u c = true) ∧
    ((AssertLower s x c t).2 = true →
      (AssertLower s x c t).1.pm = s.pm ∧
      (AssertLower s x c t).1.sink =
        s.sink ++ [Node.and [s.pm.upperConstraint x, t]]) := by
  unfold AssertLower
  by_cases h1 : s.pm.belowLowerBound x c false = true
  · rw [if_pos h1]
    constructor
    · constructor
      · intro hc
        exact Bool.noConfusion hc
      · rintro ⟨u, hu, hlt⟩
        exfalso
        obtain ⟨l, hl, hle⟩ := (belowLowerBound_false_iff s.pm x c).mp h1
        have : dlt u u = true :=
          dlt_of_dlt_of_dle hlt (dle_trans hle (hlu l u hl hu))
        rw [dlt_irrefl] at this
        exact Bool.noConfusion this
    · intro hc
      exact absurd hc (fun h => Bool.noConfusion h)
  · rw [if_neg h1]
    by_cases h2 : s.pm.aboveUpperBound x c true = true
    · rw [if_pos h2]
      refine ⟨⟨fun _ => ?_, fun _ => rfl⟩, fun _ => ⟨rfl, rfl⟩⟩
      exact (aboveUpperBound_true_iff s.pm x c).mp h2
    · rw [if_neg h2]
      dsimp only
      constructor
      · constructor
        · intro hc
          exact Bool.noConfusion hc
        · rintro ⟨u, hu, hlt⟩
          exfalso
          apply h2
          rw [aboveUpperBound_true_iff]
          exact ⟨u, hu, hlt⟩
      · intro hc
        exact absurd hc (fun h => Bool.noConfusion h)

theorem C4_assertLower_conflict_witness :
    (∀ l u, sUp.pm.lowerBound 0 = some l → sUp.pm.upperBound 0 = some u →
      dle l u = true) ∧
    ((AssertLower sUp 0 (1, 0) (Node.atom 1)).2 = true ↔
      ∃ u, sUp.pm.upperBound 0 = some u ∧ dlt u (1, 0) = true) ∧
    ((AssertLower sUp 0 (1, 0) (Node.atom 1)).2 = true →
      (AssertLower sUp 0 (1, 0) (Node.atom 1)).1.pm = sUp.pm ∧
      (AssertLower sUp 0 (1, 0) (Node.atom 1)).1.sink =
        sUp.sink ++ [Node.and [sUp.pm.upperConstraint 0, Node.atom 1]]) :=
  ⟨fun _ _ h => Option.noConfusion h,
    (C4_assertLower_conflict sUp 0 (1, 0) (Node.atom 1)
      (fun _ _ h => Option.noConfusion h)).1,
    (C4_assertLower_conflict sUp 0 (1, 0) (Node.atom 1)
      (fun _ _ h => Option.noConfusion h)).2⟩

/-- C5: slack selection. Over a well-formed tableau, for a basic `x_i`:
`selectSlack` returns the sentinel iff no entry of `x_i`'s row other than
`x_i` satisfies the slack condition (`slackOk`, matching the claimed sign /
strict-bound conditions with absent bounds as infinities); a non-sentinel
result is a non-basic variable of the row, distinct from `x_i`, satisfying
the condition; in the Griggio stage the result minimises the tableau
row-count among the valid candidates, and in the Bland stage it is the first
valid candidate in row iteration order. -/
theorem C5_selectSlack (ab : Bool) (pm : PartialModel) (tab : Tableau)
    (stage : Bool) (x_i : Nat) (hWf : TableauWf tab)
    (hbasic : isBasicMember tab x_i = true) :
    (selectSlack ab pm tab stage x_i = ARITHVAR_SENTINEL ↔
      ∀ e ∈ (Tableau.lookup tab x_i).entries, e.1 ≠ x_i →
        slackOk pm ab e = false) ∧
    (selectSlack ab pm tab stage x_i ≠ ARITHVAR_SENTINEL →
      ∃ e ∈ (Tableau.lookup tab x_i).entries, e.1 ≠ x_i ∧
        slackOk pm ab e = true ∧ selectSlack ab pm tab stage x_i = e.1 ∧
        isBasicMember tab e.1 = false) ∧
    (∀ e ∈ (Tableau.lookup tab x_i).entries, e.1 ≠ x_i →
      slackOk pm ab e = true →
      Tableau.getRowCount tab (selectSlack ab pm tab true x_i) ≤
        Tableau.getRowCount tab e.1) ∧
    (selectSlack ab pm tab false x_i =
      match (Tableau.lookup tab x_i).entries.find?
        (fun e => !(e.1 == x_i) && slackOk pm ab e) with
      | some e => e.1
      | none => ARITHVAR_SENTINEL) := by
  refine ⟨selectSlack_sentinel_iff ab pm tab stage x_i hWf hbasic, ?_,
    selectSlack_min ab pm tab x_i hWf, selectSlack_bland_eq ab pm tab x_i⟩
  intro h
  obtain ⟨e, he, hne, hok, heq⟩ := selectSlack_result ab pm tab stage x_i h
  have hsl := slack_not_basic ab pm tab stage x_i hWf hbasic h
  refine ⟨e, he, hne, hok, heq, ?_⟩
  rw [← heq]
  exact hsl.1

theorem C5_selectSlack_witness :
    TableauWf sOne.tableau ∧ isBasicMember sOne.tableau 0 = true ∧
    (selectSlack false pmOne sOne.tableau true 0 = ARITHVAR_SENTINEL ↔
      ∀ e ∈ (Tableau.lookup sOne.tableau 0).entries, e.1 ≠ 0 →
        slackOk pmOne false e = false) ∧
    (selectSlack false pmOne sOne.tableau false 0 =
      match (Tableau.lookup sOne.tableau 0).entries.find?
        (fun e => !(e.1 == 0) && slackOk pmOne false e) with
      | some e => e.1
      | none => ARITHVAR_SENTINEL) :=
  ⟨sOne_wf, rfl,
    (C5_selectSlack false pmOne sOne.tableau true 0 sOne_wf rfl).1,
    (C5_selectSlack false pmOne sOne.tableau true 0 sOne_wf rfl).2.2.2⟩

/-- C6 (corrected): the Griggio-stage loop of
`privateUpdateInconsistentVars` runs for at most `numVariables + 1` body
iterations — not `numVariables` as claimed: the loop condition
`iteratationNum <= d_numVariables` starts from `iteratationNum = 0`, giving
`numVariables + 1` admissible entries — each performing at most one pivot;
on exhaustion the still-basic Griggio entries are migrated into the Bland
queue, `pivotStage` becomes false, and the procedure continues with the
unbounded Bland-stage loop on the migrated state. -/
theorem C6_griggio_budget (fuel : Nat) (s : SimplexState)
    (hst : s.pivotStage = true) :
    (griggioLoop s).2.1 ≤ s.numVariables + 1 ∧
    (griggioLoop s).1.stats.pivots ≤ s.stats.pivots + (griggioLoop s).2.1 ∧
    ((griggioLoop s).2.2 = GriggioOutcome.gExhausted →
      privateUpdateInconsistentVars fuel s =
        (match blandGo fuel (migrateToBland (griggioLoop s).1) with
          | (s3, BlandOutcome.bSat) => (s3, UpdateResult.res Node.null)
          | (s3, BlandOutcome.bConflict n) => (s3, UpdateResult.res n)
          | (s3, BlandOutcome.bFuelOut) => (s3, UpdateResult.fuelOut)) ∧
      (migrateToBland (griggioLoop s).1).pivotStage = false ∧
      (migrateToBland (griggioLoop s).1).griggioQueue = [] ∧
      ∀ p ∈ (griggioLoop s).1.griggioQueue,
        isBasicMember (griggioLoop s).1.tableau p.1 = true →
        p.1 ∈ (migrateToBland (griggioLoop s).1).possiblyInconsistent) := by
  refine ⟨?_, ?_, ?_⟩
  · have h := griggioGo_iter (s.numVariables + 1) s 0
    exact h.trans (by omega)
  · have h : (griggioLoop s).1.stats.pivots + 0 ≤
        s.stats.pivots + (griggioLoop s).2.1 :=
      griggioGo_pivots (s.numVariables + 1) s 0
    omega
  · intro hexh
    refine ⟨?_, rfl, rfl, migrate_mem (griggioLoop s).1⟩
    unfold privateUpdateInconsistentVars
    dsimp only
    rw [if_pos hst, hexh]

theorem C6_griggio_budget_witness :
    sOne.pivotStage = true ∧
    (griggioLoop sOne).2.1 ≤ sOne.numVariables + 1 ∧
    (griggioLoop sOne).1.stats.pivots ≤
      sOne.stats.pivots + (griggioLoop sOne).2.1 :=
  ⟨rfl, (C6_griggio_budget 1 sOne rfl).1, (C6_griggio_budget 1 sOne rfl).2.1⟩

theorem C6_counterexample :
    sOne.pivotStage = true ∧ sOne.numVariables = 0 ∧
    (griggioLoop sOne).2.1 = 1 ∧
    ¬((griggioLoop sOne).2.1 ≤ sOne.numVariables) := by
  refine ⟨rfl, rfl, ?_, ?_⟩
  · with_unfolding_all rfl
  · intro h
    have h1 : (griggioLoop sOne).2.1 = 1 := by with_unfolding_all rfl
    have h2 : sOne.numVariables = 0 := rfl
    rw [h1, h2] at h
    omega

/-- C7: `selectInitialConflict` folds `betterConflict` over the conflict
clauses produced by `checkBasicForConflict` on the basic, inconsistent
entries of the Griggio queue (`conflictsOf`): null when no clause is found;
otherwise a clause of the list with the fewest conjuncts, and the earliest
such clause (every clause found before it has strictly more conjuncts);
`earlyConflicts` grows by the number of clauses found, and
`earlyConflictImprovements` by one exactly when the chosen clause was
replaced more than once during the fold. -/
theorem C7_selectInitialConflict (s : SimplexState) :
    (conflictsOf s.pm s.tableau s.pivotStage
        (s.griggioQueue.filter (fun p =>
          isBasicMember s.tableau p.1 &&
            !(s.pm.assignmentIsConsistent p.1))) = [] →
      (selectInitialConflict s).2 = Node.null) ∧
    (conflictsOf s.pm s.tableau s.pivotStage
        (s.griggioQueue.filter (fun p =>
          isBasicMember s.tableau p.1 &&
            !(s.pm.assignmentIsConsistent p.1))) ≠ [] →
      (selectInitialConflict s).2.isNull = false ∧
      (∃ l1 l2, conflictsOf s.pm s.tableau s.pivotStage
          (s.griggioQueue.filter (fun p =>
            isBasicMember s.tableau p.1 &&
              !(s.pm.assignmentIsConsistent p.1))) =
          l1 ++ (selectInitialConflict s).2 :: l2 ∧
        ∀ c ∈ l1, (selectInitialConflict s).2.getNumChildren <
          c.getNumChildren) ∧
      ∀ c ∈ conflictsOf s.pm s.tableau s.pivotStage
          (s.griggioQueue.filter (fun p =>
            isBasicMember s.tableau p.1 &&
              !(s.pm.assignmentIsConsistent p.1))),
        (selectInitialConflict s).2.getNumChildren ≤ c.getNumChildren) ∧
    (selectInitialConflict s).1.stats.earlyConflicts =
      s.stats.earlyConflicts +
        (conflictsOf s.pm s.tableau s.pivotStage
          (s.griggioQueue.filter (fun p =>
            isBasicMember s.tableau p.1 &&
              !(s.pm.assignmentIsConsistent p.1)))).length ∧
    (selectInitialConflict s).1.stats.earlyConflictImprovements =
      s.stats.earlyConflictImprovements +
        (if 1 < countChanges Node.null
            (conflictsOf s.pm s.tableau s.pivotStage
              (s.griggioQueue.filter (fun p =>
                isBasicMember s.tableau p.1 &&
                  !(s.pm.assignmentIsConsistent p.1)))) then 1 else 0) := by
  have hspec := sic_spec s
  refine ⟨?_, ?_, hspec.2.1, hspec.2.2⟩
  · intro hnil
    rw [hspec.1, hnil]
    rfl
  · intro hne
    have hnonnull : ∀ c ∈ conflictsOf s.pm s.tableau s.pivotStage
        (s.griggioQueue.filter (fun p =>
          isBasicMember s.tableau p.1 &&
            !(s.pm.assignmentIsConsistent p.1))), c.isNull = false := by
      intro c hc
      have := List.of_mem_filter hc
      revert this
      cases c.isNull <;> simp
    obtain ⟨r1, r2, r3⟩ := bc_fold _ hnonnull hne
    rw [hspec.1]
    exact ⟨r1, r2, r3⟩

theorem C7_selectInitialConflict_witness :
    conflictsOf sConf.pm sConf.tableau sConf.pivotStage
      (sConf.griggioQueue.filter (fun p =>
        isBasicMember sConf.tableau p.1 &&
          !(sConf.pm.assignmentIsConsistent p.1))) =
      [Node.and [Node.atom 0]] ∧
    (selectInitialConflict sConf).2.isNull = false ∧
    (selectInitialConflict sConf).1.stats.earlyConflicts =
      sConf.stats.earlyConflicts +
        (conflictsOf sConf.pm sConf.tableau sConf.pivotStage
          (sConf.griggioQueue.filter (fun p =>
            isBasicMember sConf.tableau p.1 &&
              !(sConf.pm.assignmentIsConsistent p.1)))).length := by
  have hcs : conflictsOf sConf.pm sConf.tableau sConf.pivotStage
      (sConf.griggioQueue.filter (fun p =>
        isBasicMember sConf.tableau p.1 &&
          !(sConf.pm.assignmentIsConsistent p.1))) =
      [Node.and [Node.atom 0]] := by
    with_unfolding_all rfl
  have hne : conflictsOf sConf.pm sConf.tableau sConf.pivotStage
      (sConf.griggioQueue.filter (fun p =>
        isBasicMember sConf.tableau p.1 &&
          !(sConf.pm.assignmentIsConsistent p.1))) ≠ [] := by
    rw [hcs]
    intro h
    exact List.noConfusion h
  exact ⟨hcs, ((C7_selectInitialConflict sConf).2.1 hne).1,
    (C7_selectInitialConflict sConf).2.2.1⟩

/-- C8: idempotence on a satisfiable state. If the Griggio queue is empty at
entry, or every variable's assignment is within its bounds, then
`updateInconsistentVars` (with at least one unit of Bland-stage fuel, the
embedding's budget for the unbounded C++ loop) returns null, performs no
pivot, and leaves the tableau unchanged; with an empty queue the state is
returned entirely untouched. -/
theorem C8_idempotent (fuel : Nat) (s : SimplexState) (hfuel : 1 ≤ fuel)
    (hsat : s.griggioQueue.isEmpty = true ∨
      ∀ v, s.pm.assignmentIsConsistent v = true) :
    (updateInconsistentVars fuel s).2 = UpdateResult.res Node.null ∧
    (updateInconsistentVars fuel s).1.stats.pivots = s.stats.pivots ∧
    (updateInconsistentVars fuel s).1.tableau = s.tableau ∧
    (s.griggioQueue.isEmpty = true →
      (updateInconsistentVars fuel s).1 = s) := by
  unfold updateInconsistentVars
  dsimp only
  by_cases hemp : s.griggioQueue.isEmpty = true
  · rw [if_pos hemp]
    exact ⟨rfl, rfl, rfl, fun _ => rfl⟩
  · rcases hsat with hsatq | hsat
    · exact absurd hsatq hemp
    · rw [if_neg hemp]
      by_cases hlen : s.griggioQueue.length > 1
      · rw [if_pos hlen]
        have hfilter : s.griggioQueue.filter (fun p =>
            isBasicMember s.tableau p.1 &&
              !(s.pm.assignmentIsConsistent p.1)) = [] := by
          rw [List.filter_eq_nil]
          intro p hp
          simp [hsat p.1]
        have h1 : (selectInitialConflict
            { s with
              foundAConflict := false
              pivotsSinceConflict := 0 }).2 =
            (conflictsOf s.pm s.tableau s.pivotStage
              (s.griggioQueue.filter (fun p =>
                isBasicMember s.tableau p.1 &&
                  !(s.pm.assignmentIsConsistent p.1)))).foldl betterConflict
              Node.null :=
          (sic_spec { s with
            foundAConflict := false
            pivotsSinceConflict := 0 }).1
        rw [hfilter] at h1
        have hr2 : (selectInitialConflict
            { s with
              foundAConflict := false
              pivotsSinceConflict := 0 }).2 = Node.null := h1
        have hcond : (selectInitialConflict
            { s with
              foundAConflict := false
              pivotsSinceConflict := 0 }).2.isNull = true := by
          rw [hr2]
          rfl
        rw [if_pos hcond]
        have hsat' : ∀ v, (selectInitialConflict
            { s with
              foundAConflict := false
              pivotsSinceConflict := 0 }).1.pm.assignmentIsConsistent v =
            true := by
          have hpm : (selectInitialConflict
              { s with
                foundAConflict := false
                pivotsSinceConflict := 0 }).1.pm = s.pm :=
            (sic_fields _).2.1
          intro v
          rw [hpm]
          exact hsat v
        rw [pUIV_sat fuel _ hfuel hsat']
        refine ⟨rfl, ?_, ?_, fun h => absurd h hemp⟩
        · have hp1 : (selectSmallestInconsistentVar (selectInitialConflict
              { s with
                foundAConflict := false
                pivotsSinceConflict := 0 }).1).1.stats =
              (selectInitialConflict
                { s with
                  foundAConflict := false
                  pivotsSinceConflict := 0 }).1.stats :=
            (ssiv_fields _).2.2.2.2.2.2.2.1
          have hp2 : (selectInitialConflict
              { s with
                foundAConflict := false
                pivotsSinceConflict := 0 }).1.stats.pivots =
              s.stats.pivots := sic_pivots _
          exact (congrArg Statistics.pivots hp1).trans hp2
        · have ht1 : (selectSmallestInconsistentVar (selectInitialConflict
              { s with
                foundAConflict := false
                pivotsSinceConflict := 0 }).1).1.tableau =
              (selectInitialConflict
                { s with
                  foundAConflict := false
                  pivotsSinceConflict := 0 }).1.tableau :=
            (ssiv_fields _).1
          have ht2 : (selectInitialConflict
              { s with
                foundAConflict := false
                pivotsSinceConflict := 0 }).1.tableau = s.tableau :=
            (sic_fields _).1
          exact ht1.trans ht2
      · rw [if_neg hlen]
        have hcond : (Node.null).isNull = true := rfl
        rw [if_pos hcond]
        have hsat1 : ∀ v, ({ s with
            foundAConflict := false
            pivotsSinceConflict := 0 } :
            SimplexState).pm.assignmentIsConsistent v = true := hsat
        rw [pUIV_sat fuel _ hfuel hsat1]
        refine ⟨rfl, ?_, ?_, fun h => absurd h hemp⟩
        · have hp1 : (selectSmallestInconsistentVar
              { s with
                foundAConflict := false
                pivotsSinceConflict := 0 }).1.stats = s.stats :=
            (ssiv_fields _).2.2.2.2.2.2.2.1
          exact congrArg Statistics.pivots hp1
        · have ht1 : (selectSmallestInconsistentVar
              { s with
                foundAConflict := false
                pivotsSinceConflict := 0 }).1.tableau = s.tableau :=
            (ssiv_fields _).1
          exact ht1

theorem C8_idempotent_witness :
    1 ≤ 1 ∧ sFree.griggioQueue.isEmpty = true ∧
    (updateInconsistentVars 1 sFree).2 = UpdateResult.res Node.null ∧
    (updateInconsistentVars 1 sFree).1 = sFree :=
  ⟨le_rfl, rfl,
    (C8_idempotent 1 sFree le_rfl (Or.inl rfl)).1,
    (C8_idempotent 1 sFree le_rfl (Or.inl rfl)).2.2.2 rfl⟩

theorem griggioScan_found (pm : PartialModel) (tab : Tableau)
    (hWf : TableauWf tab) :
    ∀ l : List (Nat × DeltaRational),
    (∃ p ∈ l, (isBasicMember tab p.1 && !(pm.assignmentIsConsistent p.1))
      = true) →
    (griggioScan pm tab l).2 ≠ ARITHVAR_SENTINEL := by
  intro l
  induction l with
  | nil =>
    intro hex
    simp at hex
  | cons p rest ih =>
    intro hex
    have heq : griggioScan pm tab (p :: rest) =
        if isBasicMember tab p.1 && !(pm.assignmentIsConsistent p.1) then
          (p :: rest, p.1)
        else griggioScan pm tab rest := rfl
    rw [heq]
    by_cases hc : (isBasicMember tab p.1 && !(pm.assignmentIsConsistent p.1))
      = true
    · rw [if_pos hc]
      have hb : isBasicMember tab p.1 = true := by
        revert hc
        cases isBasicMember tab p.1 <;> simp
      exact Nat.ne_of_lt (basic_lt_sentinel hWf hb)
    · rw [if_neg hc]
      obtain ⟨p', hp', hc'⟩ := hex
      rcases List.mem_cons.mp hp' with rfl | hrest
      · exact absurd hc' hc
      · exact ih ⟨p', hrest, hc'⟩

theorem blandScan_found (pm : PartialModel) (tab : Tableau)
    (hWf : TableauWf tab) :
    ∀ l : List Nat,
    (∃ v ∈ l, (isBasicMember tab v && !(pm.assignmentIsConsistent v))
      = true) →
    (blandScan pm tab l).2 ≠ ARITHVAR_SENTINEL := by
  intro l
  induction l with
  | nil =>
    intro hex
    simp at hex
  | cons v rest ih =>
    intro hex
    have heq : blandScan pm tab (v :: rest) =
        if isBasicMember tab v && !(pm.assignmentIsConsistent v) then
          (v :: rest, v)
        else blandScan pm tab rest := rfl
    rw [heq]
    by_cases hc : (isBasicMember tab v && !(pm.assignmentIsConsistent v))
      = true
    · rw [if_pos hc]
      have hb : isBasicMember tab v = true := by
        revert hc
        cases isBasicMember tab v <;> simp
      exact Nat.ne_of_lt (basic_lt_sentinel hWf hb)
    · rw [if_neg hc]
      obtain ⟨v', hv', hc'⟩ := hex
      rcases List.mem_cons.mp hv' with rfl | hrest
      · exact absurd hc' hc
      · exact ih ⟨v', hrest, hc'⟩

/-- C9 (implicit): `selectSmallestInconsistentVar` over a well-formed
tableau returns either the sentinel or a currently basic variable whose
assignment violates a bound; it discards exactly the stale prefix of the
active queue (entries no longer basic or already consistent), leaves the
returned entry on top, and returns the sentinel exactly when the active
queue (Griggio when `pivotStage`, Bland otherwise) holds no basic
inconsistent variable. -/
theorem C9_selectSmallest (s : SimplexState) (hWf : TableauWf s.tableau) :
    ((selectSmallestInconsistentVar s).2 ≠ ARITHVAR_SENTINEL →
      isBasicMember s.tableau (selectSmallestInconsistentVar s).2 = true ∧
      s.pm.assignmentIsConsistent (selectSmallestInconsistentVar s).2 =
        false) ∧
    (s.pivotStage = true →
      (selectSmallestInconsistentVar s).1.griggioQueue =
        s.griggioQueue.dropWhile (fun p => !(isBasicMember s.tableau p.1 &&
          !(s.pm.assignmentIsConsistent p.1))) ∧
      (∀ p ∈ s.griggioQueue.takeWhile (fun p =>
          !(isBasicMember s.tableau p.1 &&
            !(s.pm.assignmentIsConsistent p.1))),
        isBasicMember s.tableau p.1 = false ∨
          s.pm.assignmentIsConsistent p.1 = true) ∧
      ((selectSmallestInconsistentVar s).2 = ARITHVAR_SENTINEL ↔
        ∀ p ∈ s.griggioQueue, isBasicMember s.tableau p.1 = false ∨
          s.pm.assignmentIsConsistent p.1 = true) ∧
      ((selectSmallestInconsistentVar s).2 ≠ ARITHVAR_SENTINEL →
        (selectSmallestInconsistentVar s).1.griggioQueue.head?.map Prod.fst =
          some (selectSmallestInconsistentVar s).2)) ∧
    (s.pivotStage = false →
      (selectSmallestInconsistentVar s).1.possiblyInconsistent =
        s.possiblyInconsistent.dropWhile (fun v =>
          !(isBasicMember s.tableau v &&
            !(s.pm.assignmentIsConsistent v))) ∧
      (∀ v ∈ s.possiblyInconsistent.takeWhile (fun v =>
          !(isBasicMember s.tableau v &&
            !(s.pm.assignmentIsConsistent v))),
        isBasicMember s.tableau v = false ∨
          s.pm.assignmentIsConsistent v = true) ∧
      ((selectSmallestInconsistentVar s).2 = ARITHVAR_SENTINEL ↔
        ∀ v ∈ s.possiblyInconsistent, isBasicMember s.tableau v = false ∨
          s.pm.assignmentIsConsistent v = true) ∧
      ((selectSmallestInconsistentVar s).2 ≠ ARITHVAR_SENTINEL →
        (selectSmallestInconsistentVar s).1.possiblyInconsistent.head? =
          some (selectSmallestInconsistentVar s).2)) := by
  refine ⟨ssiv_valid s, ?_, ?_⟩
  · intro hst
    have hq : (selectSmallestInconsistentVar s).1.griggioQueue =
        (griggioScan s.pm s.tableau s.griggioQueue).1 := by
      unfold selectSmallestInconsistentVar
      rw [if_pos hst]
    have hv : (selectSmallestInconsistentVar s).2 =
        (griggioScan s.pm s.tableau s.griggioQueue).2 := by
      unfold selectSmallestInconsistentVar
      rw [if_pos hst]
    have hscan := griggioScan_eq s.pm s.tableau s.griggioQueue
    have htake : ∀ p ∈ s.griggioQueue.takeWhile (fun p =>
        !(isBasicMember s.tableau p.1 &&
          !(s.pm.assignmentIsConsistent p.1))),
        isBasicMember s.tableau p.1 = false ∨
          s.pm.assignmentIsConsistent p.1 = true := by
      intro p hp
      have hcond := List.mem_takeWhile_imp hp
      exact (staleBool_iff _ _).mp hcond
    have hiff : (selectSmallestInconsistentVar s).2 = ARITHVAR_SENTINEL ↔
        ∀ p ∈ s.griggioQueue, isBasicMember s.tableau p.1 = false ∨
          s.pm.assignmentIsConsistent p.1 = true := by
      constructor
      · intro hsent
        by_contra hcon
        push_neg at hcon
        obtain ⟨p, hp, hc⟩ := hcon
        have hcb : (isBasicMember s.tableau p.1 &&
            !(s.pm.assignmentIsConsistent p.1)) = true := by
          revert hc
          cases isBasicMember s.tableau p.1 <;>
            cases s.pm.assignmentIsConsistent p.1 <;> simp
        have := griggioScan_found s.pm s.tableau hWf s.griggioQueue
          ⟨p, hp, hcb⟩
        rw [← hv] at this
        exact this hsent
      · intro hall
        rw [hv]
        have hdw : s.griggioQueue.dropWhile (fun p =>
            !(isBasicMember s.tableau p.1 &&
              !(s.pm.assignmentIsConsistent p.1))) = [] := by
          rw [List.dropWhile_eq_nil_iff]
          intro p hp
          rw [staleBool_iff]
          exact hall p hp
        rw [hscan, hdw]
    cases hdw : s.griggioQueue.dropWhile (fun p =>
        !(isBasicMember s.tableau p.1 &&
          !(s.pm.assignmentIsConsistent p.1))) with
    | nil =>
      rw [hdw] at hscan
      have hscan' : griggioScan s.pm s.tableau s.griggioQueue =
          ([], ARITHVAR_SENTINEL) := hscan
      refine ⟨?_, htake, hiff, ?_⟩
      · rw [hq, hscan']
      · intro hne
        exfalso
        apply hne
        rw [hv, hscan']
    | cons p rest =>
      rw [hdw] at hscan
      have hscan' : griggioScan s.pm s.tableau s.griggioQueue =
          (p :: rest, p.1) := hscan
      refine ⟨?_, htake, hiff, ?_⟩
      · rw [hq, hscan']
      · intro hne
        rw [hq, hscan', hv, hscan']
        rfl
  · intro hst
    have hst' : ¬(s.pivotStage = true) := by
      rw [hst]
      exact Bool.false_ne_true
    have hq : (selectSmallestInconsistentVar s).1.possiblyInconsistent =
        (blandScan s.pm s.tableau s.possiblyInconsistent).1 := by
      unfold selectSmallestInconsistentVar
      rw [if_neg hst']
    have hv : (selectSmallestInconsistentVar s).2 =
        (blandScan s.pm s.tableau s.possiblyInconsistent).2 := by
      unfold selectSmallestInconsistentVar
      rw [if_neg hst']
    have hscan := blandScan_eq s.pm s.tableau s.possiblyInconsistent
    have htake : ∀ v ∈ s.possiblyInconsistent.takeWhile (fun v =>
        !(isBasicMember s.tableau v &&
          !(s.pm.assignmentIsConsistent v))),
        isBasicMember s.tableau v = false ∨
          s.pm.assignmentIsConsistent v = true := by
      intro v hp
      have hcond := List.mem_takeWhile_imp hp
      exact (staleBool_iff _ _).mp hcond
    have hiff : (selectSmallestInconsistentVar s).2 = ARITHVAR_SENTINEL ↔
        ∀ v ∈ s.possiblyInconsistent, isBasicMember s.tableau v = false ∨
          s.pm.assignmentIsConsistent v = true := by
      constructor
      · intro hsent
        by_contra hcon
        push_neg at hcon
        obtain ⟨v, hp, hc⟩ := hcon
        have hcb : (isBasicMember s.tableau v &&
            !(s.pm.assignmentIsConsistent v)) = true := by
          revert hc
          cases isBasicMember s.tableau v <;>
            cases s.pm.assignmentIsConsistent v <;> simp
        have := blandScan_found s.pm s.tableau hWf s.possiblyInconsistent
          ⟨v, hp, hcb⟩
        rw [← hv] at this
        exact this hsent
      · intro hall
        rw [hv]
        have hdw : s.possiblyInconsistent.dropWhile (fun v =>
            !(isBasicMember s.tableau v &&
              !(s.pm.assignmentIsConsistent v))) = [] := by
          rw [List.dropWhile_eq_nil_iff]
          intro v hp
          rw [staleBool_iff]
          exact hall v hp
        rw [hscan, hdw]
    cases hdw : s.possiblyInconsistent.dropWhile (fun v =>
        !(isBasicMember s.tableau v &&
          !(s.pm.assignmentIsConsistent v))) with
    | nil =>
      rw [hdw] at hscan
      have hscan' : blandScan s.pm s.tableau s.possiblyInconsistent =
          ([], ARITHVAR_SENTINEL) := hscan
      refine ⟨?_, htake, hiff, ?_⟩
      · rw [hq, hscan']
      · intro hne
        exfalso
        apply hne
        rw [hv, hscan']
    | cons v rest =>
      rw [hdw] at hscan
      have hscan' : blandScan s.pm s.tableau s.possiblyInconsistent =
          (v :: rest, v) := hscan
      refine ⟨?_, htake, hiff, ?_⟩
      · rw [hq, hscan']
      · intro hne
        rw [hq, hscan', hv, hscan']
        rfl

theorem C9_selectSmallest_witness :
    TableauWf sOne.tableau ∧ sOne.pivotStage = true ∧
    ((selectSmallestInconsistentVar sOne).2 = ARITHVAR_SENTINEL ↔
      ∀ p ∈ sOne.griggioQueue, isBasicMember sOne.tableau p.1 = false ∨
        sOne.pm.assignmentIsConsistent p.1 = true) :=
  ⟨sOne_wf, rfl, ((C9_selectSmallest sOne sOne_wf).2.1 rfl).2.2.1⟩

/-- C10 (corrected): after an `AssertEquality(x, c, t)` returning false that
did not take the redundant early-return branch (the bounds were not already
`l(x) ≤ c ≤ u(x)` on both sides), `t` is installed as both bound
explanations of `x` and both bounds equal `c`. On the redundant branch the
call also returns false but installs nothing, so the unqualified claim
fails (see the counterexample). -/
theorem C10_assertEquality_installs (s : SimplexState) (x : Nat)
    (c : DeltaRational) (t : Node)
    (h1 : ¬(s.pm.belowLowerBound x c false = true ∧
        s.pm.aboveUpperBound x c false = true))
    (hret : (AssertEquality s x c t).2 = false) :
    (AssertEquality s x c t).1.pm.lowerBound x = some c ∧
    (AssertEquality s x c t).1.pm.upperBound x = some c ∧
    (AssertEquality s x c t).1.pm.lowerConstraint x = t ∧
    (AssertEquality s x c t).1.pm.upperConstraint x = t := by
  unfold AssertEquality at hret ⊢
  rw [if_neg h1] at hret ⊢
  by_cases h2 : s.pm.aboveUpperBound x c true = true
  · rw [if_pos h2] at hret
    exact absurd hret (by simp)
  · rw [if_neg h2] at hret ⊢
    by_cases h2b : s.pm.belowLowerBound x c true = true
    · rw [if_pos h2b] at hret
      exact absurd hret (by simp)
    · rw [if_neg h2b] at hret ⊢
      dsimp only
      by_cases h3 : (!(isBasicMember s.tableau x)) = true
      · rw [if_pos h3]
        by_cases h4 : ¬ (((((s.pm.setLowerConstraint x t).setLowerBound x
            c).setUpperConstraint x t).setUpperBound x c).assignment x = c)
        · rw [if_pos h4]
          obtain ⟨-, u2, u3, u4, u5, -⟩ := update_fields
            { s with
              pm := ((((s.pm.setLowerConstraint x t).setLowerBound x
                c).setUpperConstraint x t).setUpperBound x c)
              activity := fun y => if y = x then 0 else s.activity y } x c
          refine ⟨?_, ?_, ?_, ?_⟩
          · rw [u2]
            show (if x = x then some c else s.pm.lowerBound x) = some c
            rw [if_pos rfl]
          · rw [u3]
            show (if x = x then some c else s.pm.upperBound x) = some c
            rw [if_pos rfl]
          · rw [u4]
            show (if x = x then t else s.pm.lowerConstraint x) = t
            rw [if_pos rfl]
          · rw [u5]
            show (if x = x then t else s.pm.upperConstraint x) = t
            rw [if_pos rfl]
        · rw [if_neg h4]
          refine ⟨?_, ?_, ?_, ?_⟩
          · show (if x = x then some c else s.pm.lowerBound x) = some c
            rw [if_pos rfl]
          · show (if x = x then some c else s.pm.upperBound x) = some c
            rw [if_pos rfl]
          · show (if x = x then t else s.pm.lowerConstraint x) = t
            rw [if_pos rfl]
          · show (if x = x then t else s.pm.upperConstraint x) = t
            rw [if_pos rfl]
      · rw [if_neg h3]
        obtain ⟨-, c2, -⟩ := cBV_fields
          { s with
            pm := ((((s.pm.setLowerConstraint x t).setLowerBound x
              c).setUpperConstraint x t).setUpperBound x c)
            activity := fun y => if y = x then 0 else s.activity y } x
        refine ⟨?_, ?_, ?_, ?_⟩
        · rw [c2]
          show (if x = x then some c else s.pm.lowerBound x) = some c
          rw [if_pos rfl]
        · rw [c2]
          show (if x = x then some c else s.pm.upperBound x) = some c
          rw [if_pos rfl]
        · rw [c2]
          show (if x = x then t else s.pm.lowerConstraint x) = t
          rw [if_pos rfl]
        · rw [c2]
          show (if x = x then t else s.pm.upperConstraint x) = t
          rw [if_pos rfl]

theorem C10_assertEquality_installs_witness :
    (¬(sFree.pm.belowLowerBound 0 (1, 0) false = true ∧
        sFree.pm.aboveUpperBound 0 (1, 0) false = true)) ∧
    (AssertEquality sFree 0 (1, 0) (Node.atom 1)).2 = false ∧
    (AssertEquality sFree 0 (1, 0) (Node.atom 1)).1.pm.lowerConstraint 0 =
      Node.atom 1 ∧
    (AssertEquality sFree 0 (1, 0) (Node.atom 1)).1.pm.upperConstraint 0 =
      Node.atom 1 :=
  ⟨fun h => Bool.noConfusion h.1, by with_unfolding_all rfl,
    (C10_assertEquality_installs sFree 0 (1, 0) (Node.atom 1)
      (fun h => Bool.noConfusion h.1) (by with_unfolding_all rfl)).2.2.1,
    (C10_assertEquality_installs sFree 0 (1, 0) (Node.atom 1)
      (fun h => Bool.noConfusion h.1) (by with_unfolding_all rfl)).2.2.2⟩

theorem C10_counterexample :
    (AssertEquality sEq 0 (1, 0) (Node.atom 1)).2 = false ∧
    ¬((AssertEquality sEq 0 (1, 0) (Node.atom 1)).1.pm.lowerConstraint 0 =
      Node.atom 1) := by
  constructor
  · with_unfolding_all rfl
  · intro h
    have h0 : (AssertEquality sEq 0 (1, 0)
        (Node.atom 1)).1.pm.lowerConstraint 0 = Node.atom 0 := by
      with_unfolding_all rfl
    rw [h0] at h
    exact absurd (Node.atom.inj h) (by omega)

end Simplex
